import Mathlib

/-!
The reco-engine services: ingest validation, stream processor, feature store and
recommender.

A shallow embedding of the Go services under `internal/` together with the
properties of the specification that were checked against them.

Modelling conventions.

* Go `int` and `int64` values are `Int`; where the source computes on a count
  (`count*2`, `count-1`, `limit-1`) the result is wrapped to 64 bits with
  `wrapInt64`.
* Go `float64` scores and weights are exact rationals (`ℚ`): rounding,
  infinities and NaN are outside the model.
* Go `error` results are `Option Err` (`none` is `nil`); `(value, error)`
  results are `Except Err value`.
* The Redis server is modelled by the contents of the five key families the
  code uses (`RedisData`), the commands the code issues (`lpush`, `ltrim`,
  `lrange`, `zincrby`, `zrevrange`), a trace of the operations attempted and a
  failure oracle saying which attempts fail.  A failed operation leaves the
  data unchanged.  Key expiry (TTL) is not modelled.
-/

namespace Reco

/-! ## Go primitives -/

/-- Two's-complement wrap-around of a 64-bit Go integer. -/
def wrapInt64 (x : Int) : Int := (x + 2 ^ 63) % 2 ^ 64 - 2 ^ 63

/-- Decimal digits of a natural number, most significant first (`"0"` for zero). -/
def formatUint (n : Nat) : List Char :=
  if n = 0 then ['0'] else ((Nat.digits 10 n).reverse).map Nat.digitChar

/-- Go `strconv.FormatInt(i, 10)`, which is also what `fmt.Sprintf("%d", i)` and
go-redis render for an `int64` argument. -/
def FormatInt (i : Int) : String :=
  if i < 0 then String.mk ('-' :: formatUint i.natAbs) else String.mk (formatUint i.natAbs)

/-- Value of a decimal digit byte, `none` for any other character. -/
def digitVal (c : Char) : Option Nat :=
  if '0' ≤ c ∧ c ≤ '9' then some (c.toNat - 48) else none

/-- The digit loop of `strconv.ParseUint` in base 10: left to right, failing on
the first character that is not a decimal digit. -/
def parseUintLoop : List Char → Nat → Option Nat
  | [], n => some n
  | c :: cs, n =>
    match digitVal c with
    | none => none
    | some d => parseUintLoop cs (n * 10 + d)

/-- Go `strconv.ParseUint(s, 10, 64)` without its range check (the callers
below apply the 64-bit signed range check): the empty string is a syntax error. -/
def ParseUint (cs : List Char) : Option Nat :=
  match cs with
  | [] => none
  | _ :: _ => parseUintLoop cs 0

/-- Go `strconv.ParseInt(s, 10, 64)`: optional sign, at least one decimal
digit, value within the signed 64-bit range; `none` stands for any error. -/
def ParseInt (s : String) : Option Int :=
  match s.data with
  | [] => none
  | c :: cs =>
    let neg : Bool := c = '-'
    let ds : List Char := if c = '+' ∨ c = '-' then cs else c :: cs
    match ParseUint ds with
    | none => none
    | some un =>
      if neg = false ∧ 2 ^ 63 ≤ un then none
      else if neg = true ∧ 2 ^ 63 < un then none
      else some (if neg then -(un : Int) else (un : Int))

/-! ## Redis commands -/

/-- Redis index normalisation shared by `LRANGE`, `LTRIM` and `ZREVRANGE`:
the elements of `l` between positions `start` and `stop` inclusive, where a
negative position counts from the end of the list. -/
def redisRange {α : Type} (l : List α) (start stop : Int) : List α :=
  let len : Int := l.length
  let start1 := if start < 0 then len + start else start
  let stop1 := if stop < 0 then len + stop else stop
  let start2 := if start1 < 0 then 0 else start1
  if start2 > stop1 ∨ start2 ≥ len then []
  else
    let stop2 := if stop1 ≥ len then len - 1 else stop1
    (l.drop start2.toNat).take (stop2 - start2 + 1).toNat

/-- Redis `LPUSH key v`. -/
def lpush (l : List String) (v : String) : List String := v :: l

/-- Redis `LTRIM key start stop`. -/
def ltrim (l : List String) (start stop : Int) : List String := redisRange l start stop

/-- Redis `LRANGE key start stop`. -/
def lrange (l : List String) (start stop : Int) : List String := redisRange l start stop

/-- A sorted-set entry as go-redis returns it (`redis.Z`). -/
structure Z where
  Member : String
  Score : ℚ
  deriving DecidableEq

/-- Redis `ZINCRBY key incr member`: adds `incr` to the member's score, creating
the member with score `incr` when it is absent. -/
def zincrby : List Z → ℚ → String → List Z
  | [], incr, m => [⟨m, incr⟩]
  | z :: zs, incr, m =>
    if z.Member = m then ⟨m, z.Score + incr⟩ :: zs else z :: zincrby zs incr m

/-- Redis `ZSCORE key member`. -/
def zscore : List Z → String → Option ℚ
  | [], _ => none
  | z :: zs, m => if z.Member = m then some z.Score else zscore zs m

/-- Order of `ZREVRANGE`: higher score first, equal scores by member in
descending lexicographic order. -/
def zrevLE (a b : Z) : Prop :=
  b.Score < a.Score ∨ (a.Score = b.Score ∧ b.Member.data ≤ a.Member.data)

instance : DecidableRel zrevLE := fun a b => by
  unfold zrevLE
  exact inferInstance

/-- Redis `ZREVRANGE key start stop WITHSCORES`. -/
def zrevrange (zs : List Z) (start stop : Int) : List Z :=
  redisRange (List.insertionSort zrevLE zs) start stop

/-! ## internal/models -/

/-- Event type constants of `models`. -/
def EventTypeView : String := "VIEW"
def EventTypeClick : String := "CLICK"
def EventTypeCart : String := "CART"
def EventTypePurchase : String := "PURCHASE"

/-- The `models.Event` record.  `Timestamp` is `none` for Go's zero time;
`Metadata` is kept as opaque key/value text. -/
structure Event where
  ID : Int := 0
  UserID : Int
  ItemID : Int
  EventType : String
  SessionID : String := ""
  Metadata : List (String × String) := []
  Timestamp : Option Int := none
  deriving DecidableEq

/-- The `models.Recommendation` record. -/
structure Recommendation where
  ItemID : Int
  Score : ℚ
  Reason : String
  deriving DecidableEq

/-- The `models.RecommendationResponse` record. -/
structure RecommendationResponse where
  UserID : Int
  Recommendations : List Recommendation
  deriving DecidableEq

/-- The parts of `config.Config` read by the services. -/
structure WeightsConfig where
  Coview : ℚ
  Embedding : ℚ
  Popularity : ℚ
  Recency : ℚ

structure EventWeightsConfig where
  View : ℚ
  Click : ℚ
  Cart : ℚ
  Purchase : ℚ

structure Config where
  RecentItemsLimit : Int
  CoviewWindow : Int
  Weights : WeightsConfig
  EventWeights : EventWeightsConfig

/-! ## internal/store: the Redis feature store -/

/-- Errors a call can report: `Nil` is `redis.Nil` (key absent), `Backend` any
other failure of the backend or of a library call, `Panic` a Go run-time panic. -/
inductive Err where
  | Nil
  | Backend
  | Panic
  deriving DecidableEq

/-- The store operations of `RedisStore`, as recorded in the trace. -/
inductive Op where
  | AddRecentItem (userID itemID limit : Int)
  | GetRecentItems (userID count : Int)
  | IncrPopularity (itemID : Int) (weight : ℚ)
  | GetPopularItems (count : Int)
  | IncrCoView (itemID1 itemID2 : Int)
  | GetCoViewItems (itemID count : Int)
  | GetItemKNN (itemID count : Int)
  | CacheRecommendations (userID : Int) (data : String)
  | GetCachedRecommendations (userID : Int)
  deriving DecidableEq

/-- Contents of the Redis key families: `user:recent:{U}`, `item:popularity`,
`co_view:{I}`, `item:knn:{I}` and `cache:reco:{U}`. -/
structure RedisData where
  recent : Int → List String
  popularity : List Z
  coView : Int → List Z
  knn : Int → List String
  cache : Int → Option String

/-- The store: its data, the operations attempted so far (oldest first) and
the failure oracle: the attempt number `k` of operation `op` fails when
`fails k op` holds. -/
structure RedisStore where
  data : RedisData
  calls : List Op
  fails : Nat → Op → Bool

/-- Whether the next attempt, of `op`, fails. -/
def RedisStore.failing (r : RedisStore) (op : Op) : Bool := r.fails r.calls.length op

/-- The store after `op` has been attempted. -/
def RedisStore.record (r : RedisStore) (op : Op) : RedisStore :=
  { r with calls := r.calls ++ [op] }

/-- `AddRecentItem`: one pipeline of `LPUSH key itemID`, `LTRIM key 0 limit-1`
and `EXPIRE`. -/
def RedisStore.AddRecentItem (r : RedisStore) (userID itemID limit : Int) :
    Option Err × RedisStore :=
  let op := Op.AddRecentItem userID itemID limit
  if r.failing op then (some Err.Backend, r.record op)
  else
    let l := ltrim (lpush (r.data.recent userID) (FormatInt itemID)) 0 (wrapInt64 (limit - 1))
    (none, { r.record op with
      data := { r.data with recent := Function.update r.data.recent userID l } })

/-- `GetRecentItems`: `LRANGE key 0 count-1`. -/
def RedisStore.GetRecentItems (r : RedisStore) (userID count : Int) :
    Except Err (List String) × RedisStore :=
  let op := Op.GetRecentItems userID count
  if r.failing op then (.error Err.Backend, r.record op)
  else (.ok (lrange (r.data.recent userID) 0 (wrapInt64 (count - 1))), r.record op)

/-- `IncrPopularity`: `ZINCRBY item:popularity weight itemID`. -/
def RedisStore.IncrPopularity (r : RedisStore) (itemID : Int) (weight : ℚ) :
    Option Err × RedisStore :=
  let op := Op.IncrPopularity itemID weight
  if r.failing op then (some Err.Backend, r.record op)
  else
    (none, { r.record op with
      data := { r.data with popularity := zincrby r.data.popularity weight (FormatInt itemID) } })

/-- `GetPopularItems`: `ZREVRANGE item:popularity 0 count-1 WITHSCORES`. -/
def RedisStore.GetPopularItems (r : RedisStore) (count : Int) :
    Except Err (List Z) × RedisStore :=
  let op := Op.GetPopularItems count
  if r.failing op then (.error Err.Backend, r.record op)
  else (.ok (zrevrange r.data.popularity 0 (wrapInt64 (count - 1))), r.record op)

/-- `IncrCoView`: one pipeline of `ZINCRBY co_view:{itemID1} 1 itemID2` and
`EXPIRE`. -/
def RedisStore.IncrCoView (r : RedisStore) (itemID1 itemID2 : Int) :
    Option Err × RedisStore :=
  let op := Op.IncrCoView itemID1 itemID2
  if r.failing op then (some Err.Backend, r.record op)
  else
    let z := zincrby (r.data.coView itemID1) 1 (FormatInt itemID2)
    (none, { r.record op with
      data := { r.data with coView := Function.update r.data.coView itemID1 z } })

/-- `GetCoViewItems`: `ZREVRANGE co_view:{itemID} 0 count-1 WITHSCORES`. -/
def RedisStore.GetCoViewItems (r : RedisStore) (itemID count : Int) :
    Except Err (List Z) × RedisStore :=
  let op := Op.GetCoViewItems itemID count
  if r.failing op then (.error Err.Backend, r.record op)
  else (.ok (zrevrange (r.data.coView itemID) 0 (wrapInt64 (count - 1))), r.record op)

/-- `GetItemKNN`: `LRANGE item:knn:{itemID} 0 count-1`. -/
def RedisStore.GetItemKNN (r : RedisStore) (itemID count : Int) :
    Except Err (List String) × RedisStore :=
  let op := Op.GetItemKNN itemID count
  if r.failing op then (.error Err.Backend, r.record op)
  else (.ok (lrange (r.data.knn itemID) 0 (wrapInt64 (count - 1))), r.record op)

/-- `CacheRecommendations`: `SET cache:reco:{userID} data EX ttl`. -/
def RedisStore.CacheRecommendations (r : RedisStore) (userID : Int) (data : String) :
    Option Err × RedisStore :=
  let op := Op.CacheRecommendations userID data
  if r.failing op then (some Err.Backend, r.record op)
  else
    (none, { r.record op with
      data := { r.data with cache := Function.update r.data.cache userID (some data) } })

/-- `GetCachedRecommendations`: `GET cache:reco:{userID}`; an absent key is
reported as `redis.Nil`. -/
def RedisStore.GetCachedRecommendations (r : RedisStore) (userID : Int) :
    Except Err String × RedisStore :=
  let op := Op.GetCachedRecommendations userID
  if r.failing op then (.error Err.Backend, r.record op)
  else
    match r.data.cache userID with
    | none => (.error Err.Nil, r.record op)
    | some data => (.ok data, r.record op)

/-- HTTP status codes used by the handlers. -/
def StatusOK : Nat := 200
def StatusBadRequest : Nat := 400
def StatusInternalServerError : Nat := 500

/-! ## internal/ingest -/

namespace ingest

/-- A `kafka.Message` as the ingest service builds it. -/
structure Message where
  Key : String
  Value : String
  Time : Option Int
  deriving DecidableEq

/-- The Kafka writer: the messages published to the event log (oldest first),
the number of `WriteMessages` calls made and the oracle saying which of them
fail.  A failed call publishes nothing. -/
structure KafkaWriter where
  log : List Message
  attempts : Nat
  fails : Nat → Bool

/-- The writer's `WriteMessages` for one message. -/
def KafkaWriter.WriteMessages (w : KafkaWriter) (msg : Message) : Option Err × KafkaWriter :=
  if w.fails w.attempts then (some Err.Backend, { w with attempts := w.attempts + 1 })
  else (none, { w with attempts := w.attempts + 1, log := w.log ++ [msg] })

/-- The ingest service's collaborators that are library calls: `json.Marshal`
on an event and `time.Now()`. -/
structure Service where
  jsonMarshal : Event → Except Err String
  now : Int

/-- The map literal `validTypes` of `validateEvent`, as a lookup. -/
def validTypes (eventType : String) : Bool :=
  [EventTypeView, EventTypeClick, EventTypeCart, EventTypePurchase].contains eventType

/-- `Service.validateEvent`: `none` when the event is accepted, otherwise the
error message. -/
def Service.validateEvent (_s : Service) (event : Event) : Option String :=
  if event.UserID ≤ 0 then some "user_id is required"
  else if event.ItemID ≤ 0 then some "item_id is required"
  else if event.EventType = "" then some "event_type is required"
  else if validTypes event.EventType = false then some ("invalid event_type: " ++ event.EventType)
  else none

/-- What `IngestEvent` leaves behind: its error result, the writer, and the
events handed to the background PostgreSQL insert. -/
structure IngestResult where
  err : Option String
  writer : KafkaWriter
  background : List Event

/-- `Service.IngestEvent`. -/
def Service.IngestEvent (s : Service) (w : KafkaWriter) (event : Event) : IngestResult :=
  match s.validateEvent event with
  | some msg => ⟨some ("invalid event: " ++ msg), w, []⟩
  | none =>
    let event1 : Event :=
      if event.Timestamp = none then { event with Timestamp := some s.now } else event
    match s.jsonMarshal event1 with
    | .error _ => ⟨some "failed to marshal event", w, []⟩
    | .ok eventBytes =>
      let msg : Message := ⟨FormatInt event1.UserID, eventBytes, event1.Timestamp⟩
      match w.WriteMessages msg with
      | (some _, w1) => ⟨some "failed to publish to Kafka", w1, []⟩
      | (none, w1) => ⟨none, w1, [event1]⟩

/-- `Handler.HandleIngestEvent`: `bound` is the result of `c.ShouldBindJSON`
on the request body.  Returns the status code written and the writer. -/
def HandleIngestEvent (s : Service) (w : KafkaWriter) (bound : Except Err Event) :
    Nat × KafkaWriter :=
  match bound with
  | .error _ => (StatusBadRequest, w)
  | .ok event =>
    let res := s.IngestEvent w event
    match res.err with
    | some _ => (StatusInternalServerError, res.writer)
    | none => (StatusOK, res.writer)

end ingest

/-! ## internal/processor -/

namespace processor

/-- `Service.getEventWeight`. -/
def getEventWeight (cfg : Config) (eventType : String) : ℚ :=
  if eventType = EventTypeView then cfg.EventWeights.View
  else if eventType = EventTypeClick then cfg.EventWeights.Click
  else if eventType = EventTypeCart then cfg.EventWeights.Cart
  else if eventType = EventTypePurchase then cfg.EventWeights.Purchase
  else 1

/-- The loop body of `updateCoView` for one entry of the recent list. -/
def coViewStep (itemID : Int) (r : RedisStore) (recentItemStr : String) : RedisStore :=
  match ParseInt recentItemStr with
  | none => r
  | some recentItemID =>
    if recentItemID = itemID then r
    else
      let r1 := (r.IncrCoView itemID recentItemID).2
      (r1.IncrCoView recentItemID itemID).2

/-- `Service.updateCoView`. -/
def updateCoView (cfg : Config) (r : RedisStore) (event : Event) : Option Err × RedisStore :=
  match r.GetRecentItems event.UserID cfg.CoviewWindow with
  | (.error e, r1) => (some e, r1)
  | (.ok recentItems, r1) => (none, recentItems.foldl (coViewStep event.ItemID) r1)

/-- `Service.processEvent`: the three sub-steps; every error is logged and
dropped, the result is always `nil`. -/
def processEvent (cfg : Config) (r : RedisStore) (event : Event) : Option Err × RedisStore :=
  let r1 := (r.AddRecentItem event.UserID event.ItemID cfg.RecentItemsLimit).2
  let weight := getEventWeight cfg event.EventType
  let r2 := (r1.IncrPopularity event.ItemID weight).2
  let r3 := (updateCoView cfg r2 event).2
  (none, r3)

end processor

/-! ## internal/api -/

namespace api

/-- The `candidateScore` record of partial scores. -/
structure candidateScore where
  coviewScore : ℚ
  embeddingScore : ℚ
  popularityScore : ℚ
  recencyScore : ℚ
  deriving DecidableEq

/-- The zero value `&candidateScore{}`. -/
def candidateScore.zero : candidateScore := ⟨0, 0, 0, 0⟩

/-- The Go map `candidates`, as an association list with one entry per key,
in order of first insertion. -/
abbrev Candidates := List (Int × candidateScore)

/-- The statement pair `if candidates[id] == nil { candidates[id] = &candidateScore{} }`
followed by an update `f` of the entry. -/
def bump (f : candidateScore → candidateScore) (id : Int) : Candidates → Candidates
  | [] => [(id, f candidateScore.zero)]
  | (k, v) :: rest => if k = id then (k, f v) :: rest else (k, v) :: bump f id rest

/-- The recommendation service: its configuration, the two `encoding/json`
calls it makes, and the order in which the Go runtime enumerates the candidate
map (unspecified in Go), given as a rank on the keys. -/
structure Service where
  cfg : Config
  jsonMarshal : RecommendationResponse → Except Err String
  jsonUnmarshal : String → Except Err RecommendationResponse
  mapOrder : Int → Nat

/-- `Service.calculateFinalScore`. -/
def Service.calculateFinalScore (s : Service) (scores : candidateScore) : ℚ :=
  scores.coviewScore * s.cfg.Weights.Coview +
    scores.embeddingScore * s.cfg.Weights.Embedding +
    scores.popularityScore * s.cfg.Weights.Popularity +
    scores.recencyScore * s.cfg.Weights.Recency

/-- `Service.determineReason`. -/
def determineReason (scores : candidateScore) : String :=
  if scores.coviewScore > scores.embeddingScore ∧ scores.coviewScore > scores.popularityScore then
    "co_view"
  else if scores.embeddingScore > scores.popularityScore then "embedding"
  else "popular"

/-- `Service.isRecentItem`. -/
def isRecentItem (itemID : Int) (recentItems : List String) : Bool :=
  recentItems.any (fun recent => decide (recent = FormatInt itemID))

/-- The loop over `coViewItems` in `generateRecommendations`. -/
def coViewLoop (recentItems : List String) (candidates : Candidates) (coViewItems : List Z) :
    Candidates :=
  coViewItems.foldl (fun cands z =>
    match ParseInt z.Member with
    | none => cands
    | some candItemID =>
      if isRecentItem candItemID recentItems then cands
      else bump (fun c => { c with coviewScore := c.coviewScore + z.Score }) candItemID cands)
    candidates

/-- The loop over `knnItems` in `generateRecommendations`; `idx` is the
position in the list. -/
def knnLoop (recentItems : List String) (candidates : Candidates) (knnItems : List String) :
    Candidates :=
  knnItems.enum.foldl (fun cands p =>
    match ParseInt p.2 with
    | none => cands
    | some knnItemID =>
      if isRecentItem knnItemID recentItems then cands
      else
        bump (fun c => { c with embeddingScore := c.embeddingScore + ((20 - (p.1 : Int) : Int) : ℚ) / 20 })
          knnItemID cands)
    candidates

/-- The body of the loop over `recentItems` (the seeds): a failed co-view
lookup skips the rest of the iteration, and so does a failed KNN lookup. -/
def seedStep (recentItems : List String) (st : RedisStore × Candidates) (itemStr : String) :
    RedisStore × Candidates :=
  match ParseInt itemStr with
  | none => st
  | some itemID =>
    match st.1.GetCoViewItems itemID 20 with
    | (.error _, r1) => (r1, st.2)
    | (.ok coViewItems, r1) =>
      match r1.GetItemKNN itemID 20 with
      | (.error _, r2) => (r2, coViewLoop recentItems st.2 coViewItems)
      | (.ok knnItems, r2) =>
        (r2, knnLoop recentItems (coViewLoop recentItems st.2 coViewItems) knnItems)

/-- The loop over `popularItems` in the fallback of `generateRecommendations`. -/
def popularLoop (recentItems : List String) (candidates : Candidates) (popularItems : List Z) :
    Candidates :=
  popularItems.foldl (fun cands z =>
    match ParseInt z.Member with
    | none => cands
    | some itemID =>
      if isRecentItem itemID recentItems then cands
      else bump (fun c => { c with popularityScore := c.popularityScore + z.Score }) itemID cands)
    candidates

/-- Step 3 of `generateRecommendations`: the popular fallback. -/
def popularFallback (recentItems : List String) (count : Int) (st : RedisStore × Candidates) :
    RedisStore × Candidates :=
  if (st.2.length : Int) < count then
    match st.1.GetPopularItems (wrapInt64 (count * 2)) with
    | (.error _, r1) => (r1, st.2)
    | (.ok popularItems, r1) => (r1, popularLoop recentItems st.2 popularItems)
  else st

/-- The order in which `for itemID, scores := range candidates` visits the map. -/
def mapRange (rank : Int → Nat) (candidates : Candidates) : Candidates :=
  List.insertionSort (fun a b => rank a.1 ≤ rank b.1) candidates

/-- The call `sort.Slice(recommendations, less)` with
`less = recommendations[i].Score > recommendations[j].Score`: the list ordered by
descending score, entries of equal score in the order they had. -/
def sortSlice (recommendations : List Recommendation) : List Recommendation :=
  List.insertionSort (fun a b => a.Score ≥ b.Score) recommendations

/-- Step 4 of `generateRecommendations`: score, rank and cut to `count`.
Slicing with a negative `count` is a run-time panic. -/
def rankCandidates (s : Service) (count : Int) (candidates : Candidates) :
    Except Err (List Recommendation) :=
  let recommendations : List Recommendation :=
    (mapRange s.mapOrder candidates).map
      (fun p => ⟨p.1, s.calculateFinalScore p.2, determineReason p.2⟩)
  let sorted := sortSlice recommendations
  if (sorted.length : Int) > count then
    if count < 0 then .error Err.Panic else .ok (sorted.take count.toNat)
  else .ok sorted

/-- The value of `recentItems` after `GetRecentItems(ctx, userID, 5)`: a failed
read is logged and leaves the slice empty. -/
def recentOf (res : Except Err (List String)) : List String :=
  match res with
  | .ok v => v
  | .error _ => []

/-- The candidate map built by steps 1 to 3 of `generateRecommendations`,
with the store after the reads. -/
def Service.gatherCandidates (_s : Service) (r : RedisStore) (userID count : Int) :
    RedisStore × Candidates :=
  let rr := r.GetRecentItems userID 5
  let recentItems := recentOf rr.1
  popularFallback recentItems count (recentItems.foldl (seedStep recentItems) (rr.2, []))

/-- `Service.generateRecommendations`. -/
def Service.generateRecommendations (s : Service) (r : RedisStore) (userID count : Int) :
    Except Err (List Recommendation) × RedisStore :=
  let g := s.gatherCandidates r userID count
  (rankCandidates s count g.2, g.1)

/-- `Service.getCachedRecommendations`. -/
def Service.getCachedRecommendations (s : Service) (r : RedisStore) (userID : Int) :
    Except Err RecommendationResponse × RedisStore :=
  match r.GetCachedRecommendations userID with
  | (.error e, r1) => (.error e, r1)
  | (.ok data, r1) => (s.jsonUnmarshal data, r1)

/-- `Service.cacheRecommendations`: errors are logged and dropped. -/
def Service.cacheRecommendations (s : Service) (r : RedisStore) (userID : Int)
    (response : RecommendationResponse) : RedisStore :=
  match s.jsonMarshal response with
  | .error _ => r
  | .ok data => (r.CacheRecommendations userID data).2

/-- What `GetRecommendations` leaves behind: its result, the store after its
reads, and the response handed to the background cache write
(`go s.cacheRecommendations(...)`), if one was started. -/
structure RecoResult where
  result : Except Err RecommendationResponse
  store : RedisStore
  background : Option RecommendationResponse

/-- `Service.GetRecommendations`. -/
def Service.GetRecommendations (s : Service) (r : RedisStore) (userID count : Int) : RecoResult :=
  match s.getCachedRecommendations r userID with
  | (.ok cached, r1) => ⟨.ok cached, r1, none⟩
  | (.error _, r1) =>
    match s.generateRecommendations r1 userID count with
    | (.error e, r2) => ⟨.error e, r2, none⟩
    | (.ok recommendations, r2) =>
      ⟨.ok ⟨userID, recommendations⟩, r2, some ⟨userID, recommendations⟩⟩

end api

/-! ## internal/processor: the consumer loop -/

namespace processor

/-- The process-global counters the stream processor updates:
`events_processed_total` (labelled by event type),
`event_processing_errors_total` and `kafka_messages_consumed_total`. -/
structure Metrics where
  EventsProcessed : String → Nat
  EventProcessingErrors : Nat
  KafkaMessagesConsumed : Nat

/-- The Kafka reader as far as commits go: the messages whose offsets were
committed (oldest first), the number of `CommitMessages` calls made and the
oracle saying which of them fail.  A failed call commits nothing. -/
structure KafkaReader where
  committed : List ingest.Message
  commitAttempts : Nat
  commitFails : Nat → Bool

/-- The reader's `CommitMessages` for one message. -/
def KafkaReader.CommitMessages (k : KafkaReader) (msg : ingest.Message) :
    Option Err × KafkaReader :=
  if k.commitFails k.commitAttempts then
    (some Err.Backend, { k with commitAttempts := k.commitAttempts + 1 })
  else
    (none, { k with commitAttempts := k.commitAttempts + 1, committed := k.committed ++ [msg] })

/-- The processor service: its configuration and its `json.Unmarshal` call on
a message payload. -/
structure Service where
  cfg : Config
  jsonUnmarshal : String → Except Err Event

/-- Everything the consumer loop acts on. -/
structure State where
  store : RedisStore
  reader : KafkaReader
  metrics : Metrics

/-- `Service.processMessage`: the error result and the state afterwards. -/
def Service.processMessage (s : Service) (st : State) (msg : ingest.Message) :
    Option String × State :=
  match s.jsonUnmarshal msg.Value with
  | .error _ => (some "failed to unmarshal event", st)
  | .ok event =>
    match processEvent s.cfg st.store event with
    | (some _, r1) => (some "failed to process event", { st with store := r1 })
    | (none, r1) =>
      (none, { st with
        store := r1
        metrics := { st.metrics with
          EventsProcessed := Function.update st.metrics.EventsProcessed event.EventType
            (st.metrics.EventsProcessed event.EventType + 1) } })

/-- The body of the loop of `Start` once a message has been fetched: process
it; on error count the error, otherwise commit the message (a failed commit is
logged); then count the message as consumed. -/
def Service.handleMessage (s : Service) (st : State) (msg : ingest.Message) : State :=
  let res := s.processMessage st msg
  let st1 : State :=
    match res.1 with
    | some _ =>
      { res.2 with
        metrics := { res.2.metrics with
          EventProcessingErrors := res.2.metrics.EventProcessingErrors + 1 } }
    | none => { res.2 with reader := (res.2.reader.CommitMessages msg).2 }
  { st1 with
    metrics := { st1.metrics with KafkaMessagesConsumed := st1.metrics.KafkaMessagesConsumed + 1 } }

/-- What `FetchMessage` returns in one turn of the loop. -/
inductive Fetch where
  | message (msg : ingest.Message)
  | canceled
  | failed

/-- One turn of the loop of `Start`: whether the context is done when the
`select` is reached, and what the fetch returns otherwise. -/
structure Turn where
  ctxDone : Bool
  fetch : Fetch

/-- `Service.Start` run over the given turns: the state reached and whether
`Start` has returned (it returns on a done context or a fetch cancelled with
the context; a failed fetch is logged and the loop goes on). -/
def Service.Start (s : Service) (st : State) : List Turn → State × Bool
  | [] => (st, false)
  | t :: ts =>
    if t.ctxDone then (st, true)
    else
      match t.fetch with
      | .canceled => (st, true)
      | .failed => Service.Start s st ts
      | .message msg => Service.Start s (s.handleMessage st msg) ts

end processor

/-! ## internal/api: popular items and the HTTP handler -/

/-- The `models.Item` record (its metadata and timestamps are not read by the
services). -/
structure Item where
  ID : Int
  SKU : String
  Title : String
  Category : String
  Price : Int
  Stock : Int
  deriving DecidableEq

/-- The system of record as the services read it: the outcome of
`PostgresStore.GetItem` for each id (an error stands for a failed query and for
an absent row alike). -/
structure PostgresStore where
  GetItem : Int → Except Err Item

namespace api

/-- The loop over `popularItems` in `GetPopularItems`, with the slice
`recommendations` built so far. -/
def popularItemsLoop (pg : PostgresStore) (category : String) (count : Int) :
    List Z → List Recommendation → List Recommendation
  | [], recommendations => recommendations
  | z :: zs, recommendations =>
    match ParseInt z.Member with
    | none => popularItemsLoop pg category count zs recommendations
    | some itemID =>
      let dropped : Bool :=
        if category ≠ "" then
          match pg.GetItem itemID with
          | .error _ => true
          | .ok item => decide (item.Category ≠ category)
        else false
      if dropped then popularItemsLoop pg category count zs recommendations
      else
        let recommendations1 := recommendations ++ [⟨itemID, z.Score, "popular"⟩]
        if (recommendations1.length : Int) ≥ count then recommendations1
        else popularItemsLoop pg category count zs recommendations1

/-- `Service.GetPopularItems`. -/
def Service.GetPopularItems (_s : Service) (r : RedisStore) (pg : PostgresStore)
    (category : String) (count : Int) : Except Err (List Recommendation) × RedisStore :=
  match r.GetPopularItems (wrapInt64 (count * 2)) with
  | (.error e, r1) => (.error e, r1)
  | (.ok popularItems, r1) => (.ok (popularItemsLoop pg category count popularItems []), r1)

/-- Go `strconv.Atoi` on a 64-bit platform. -/
def Atoi (s : String) : Option Int := ParseInt s

/-- The query string of a request: the first value of each key present. -/
abbrev Query := String → Option String

/-- Gin's `c.Query(key)`: the value, or the empty string when the key is absent. -/
def Query.get (q : Query) (key : String) : String := (q key).getD ""

/-- Gin's `c.DefaultQuery(key, defaultValue)`. -/
def Query.getDefault (q : Query) (key defaultValue : String) : String :=
  (q key).getD defaultValue

/-- What `HandleGetRecommendations` does: the status code written and, when
the recommender was called, the arguments and the outcome of the call. -/
structure HandlerResult where
  status : Nat
  call : Option (Int × Int)
  reco : Option RecoResult

/-- `Handler.HandleGetRecommendations`. -/
def HandleGetRecommendations (s : Service) (r : RedisStore) (q : Query) : HandlerResult :=
  let userIDStr := q.get "user_id"
  if userIDStr = "" then ⟨StatusBadRequest, none, none⟩
  else
    match ParseInt userIDStr with
    | none => ⟨StatusBadRequest, none, none⟩
    | some userID =>
      let countStr := q.getDefault "count" "10"
      match Atoi countStr with
      | none => ⟨StatusBadRequest, none, none⟩
      | some count =>
        if count ≤ 0 then ⟨StatusBadRequest, none, none⟩
        else
          let res := s.GetRecommendations r userID count
          match res.result with
          | .error _ => ⟨StatusInternalServerError, some (userID, count), some res⟩
          | .ok _ => ⟨StatusOK, some (userID, count), some res⟩

/-- `Handler.HandleGetPopular`: the status written and, on success, the
recommendations of the response body. -/
def HandleGetPopular (s : Service) (r : RedisStore) (pg : PostgresStore) (q : Query) :
    Nat × Option (List Recommendation) :=
  let category := q.get "category"
  let countStr := q.getDefault "count" "20"
  match Atoi countStr with
  | none => (StatusBadRequest, none)
  | some count =>
    if count ≤ 0 then (StatusBadRequest, none)
    else
      match (s.GetPopularItems r pg category count).1 with
      | .error _ => (StatusInternalServerError, none)
      | .ok recommendations => (StatusOK, some recommendations)

end api

/-! ## Vocabulary of the properties -/

/-- Equality of call results is decidable. -/
instance instDecidableEqExcept {α : Type} [DecidableEq α] : DecidableEq (Except Err α) :=
  fun a b =>
    match a, b with
    | .ok x, .ok y => if h : x = y then isTrue (by rw [h]) else isFalse (fun e => h (by cases e; rfl))
    | .error x, .error y =>
      if h : x = y then isTrue (by rw [h]) else isFalse (fun e => h (by cases e; rfl))
    | .ok _, .error _ => isFalse (fun e => by cases e)
    | .error _, .ok _ => isFalse (fun e => by cases e)

/-- The value is a Go `int64` (and a Go `int`). -/
def IsInt64 (x : Int) : Prop := -2 ^ 63 ≤ x ∧ x < 2 ^ 63

instance (x : Int) : Decidable (IsInt64 x) := by
  unfold IsInt64
  exact inferInstance

/-- The text is the canonical decimal rendering of a 64-bit id: it parses, and
formatting the parsed id gives the text back. -/
def CanonicalID (str : String) : Prop := (ParseInt str).map FormatInt = some str

instance (str : String) : Decidable (CanonicalID str) := by
  unfold CanonicalID
  exact inferInstance

/-- The score of a member of a sorted set, `0` when the member is absent. -/
def scoreOf (zs : List Z) (m : String) : ℚ := (zscore zs m).getD 0

/-- Every store operation succeeds. -/
def NeverFails (r : RedisStore) : Prop := ∀ k op, r.fails k op = false

/-- The four valid event types. -/
def validEventTypes : List String := ["VIEW", "CLICK", "CART", "PURCHASE"]

/-- An empty feature store whose operations all succeed. -/
def emptyData : RedisData := ⟨fun _ => [], [], fun _ => [], fun _ => [], fun _ => none⟩
def emptyStore : RedisStore := ⟨emptyData, [], fun _ _ => false⟩

/-- A Kafka writer with an empty log whose writes all succeed. -/
def emptyWriter : ingest.KafkaWriter := ⟨[], 0, fun _ => false⟩

/-- An ingest service whose `json.Marshal` succeeds with a fixed text. -/
def sampleIngest : ingest.Service := ⟨fun _ => .ok "event", 0⟩

/-- A configuration with the default event weights and unit blend weights. -/
def sampleConfig : Config := ⟨50, 10, ⟨1, 1, 1, 1⟩, ⟨1, 2, 4, 10⟩⟩

/-- The response of `recommend(9, 2)` in the cache example. -/
def sampleResponse : RecommendationResponse :=
  ⟨9, [⟨1, 2, "popular"⟩, ⟨2, 1, "popular"⟩]⟩

/-- The JSON text of `sampleResponse` as `json.Marshal` writes it. -/
def samplePayload : String :=
  "\x7b\"user_id\":9,\"recommendations\":[\x7b\"item_id\":1,\"score\":2,\"reason\":\"popular\"\x7d,\x7b\"item_id\":2,\"score\":1,\"reason\":\"popular\"\x7d]\x7d"

/-- The recommendation service of the examples.  Its two `encoding/json` calls
are given on the one response, and the one text, that occur in the examples;
the map is enumerated in key order. -/
def sampleService : api.Service :=
  { cfg := sampleConfig
    jsonMarshal := fun resp => if resp = sampleResponse then .ok samplePayload else .error Err.Backend
    jsonUnmarshal := fun data => if data = samplePayload then .ok sampleResponse else .error Err.Backend
    mapOrder := fun k => k.toNat }

/-- A store holding two popular items, `1` with score 2 and `2` with score 1,
and nothing else; all operations succeed. -/
def popularStore : RedisStore :=
  ⟨{ emptyData with popularity := [⟨"1", 2⟩, ⟨"2", 1⟩] }, [], fun _ _ => false⟩

/-- The store after `recommend(9, 2)` on `popularStore` and its background
cache write. -/
def cachedStore : RedisStore :=
  match (sampleService.GetRecommendations popularStore 9 2).background with
  | none => (sampleService.GetRecommendations popularStore 9 2).store
  | some resp =>
    sampleService.cacheRecommendations (sampleService.GetRecommendations popularStore 9 2).store 9 resp

/-- A `VIEW` event. -/
def viewEvent (userID itemID : Int) : Event :=
  { UserID := userID, ItemID := itemID, EventType := "VIEW" }

/-- The events of scenario S2, in order. -/
def scenarioS2 : List Event :=
  [viewEvent 1 100, viewEvent 1 200, viewEvent 1 300, viewEvent 2 100]

/-- The stream processor applied to a list of events, in order. -/
def processAll (cfg : Config) (r : RedisStore) (events : List Event) : RedisStore :=
  events.foldl (fun st e => (processor.processEvent cfg st e).2) r

/-- The store after scenario S2 under `sampleConfig`, from the empty store. -/
def storeS2 : RedisStore := processAll sampleConfig emptyStore scenarioS2

/-- The read `top_popular(n)` when it succeeds: the `n` members of the
popularity set with the highest scores, as `GetPopularItems` returns them. -/
def top_popular (d : RedisData) (n : Int) : List Z :=
  zrevrange d.popularity 0 (wrapInt64 (n - 1))

/-- The list that `updateCoView` reads for an event: `get_recent(U, W_coview)`
after `add_recent(U, item, L_recent)`, both succeeding. -/
def coviewWindow (cfg : Config) (r : RedisStore) (e : Event) : List String :=
  lrange
    (ltrim (lpush (r.data.recent e.UserID) (FormatInt e.ItemID)) 0
      (wrapInt64 (cfg.RecentItemsLimit - 1)))
    0 (wrapInt64 (cfg.CoviewWindow - 1))

/-- The number of entries of a list of rendered ids that denote the item. -/
def occurrences (window : List String) (itemID : Int) : Nat :=
  window.countP (fun str => decide (ParseInt str = some itemID))

/-- A sequence of `add_recent(U, I, L)` calls, in order. -/
def addRecentAll (r : RedisStore) (userID limit : Int) (items : List Int) : RedisStore :=
  items.foldl (fun st i => (st.AddRecentItem userID i limit).2) r

/-- A store in which user 1 has viewed item 200 twice; all operations succeed. -/
def twiceViewedStore : RedisStore :=
  ⟨{ emptyData with recent := fun u => if u = 1 then ["200", "200"] else [] }, [],
    fun _ _ => false⟩

/-- The JSON text of `viewEvent 1 100` as `json.Marshal` writes it. -/
def sampleEventPayload : String :=
  "\x7b\"user_id\":1,\"item_id\":100,\"event_type\":\"VIEW\",\"session_id\":\"\",\"timestamp\":\"0001-01-01T00:00:00Z\"\x7d"

/-- The processor service of the examples.  Its `json.Unmarshal` call is given
on the texts that occur in the examples: the one event text decodes, any other
text (such as `not json`) is undecodable. -/
def sampleProcessor : processor.Service :=
  { cfg := sampleConfig
    jsonUnmarshal := fun data =>
      if data = sampleEventPayload then .ok { UserID := 1, ItemID := 100, EventType := "VIEW" }
      else .error Err.Backend }

/-- A message whose payload is not JSON. -/
def poisonMessage : ingest.Message := ⟨"1", "not json", none⟩

/-- A message carrying `VIEW(user=1, item=100)`. -/
def viewMessage : ingest.Message := ⟨"1", sampleEventPayload, none⟩

/-- A consumer at its start: empty store, nothing committed, counters at zero,
every store operation and every commit succeeding. -/
def emptyState : processor.State :=
  ⟨emptyStore, ⟨[], 0, fun _ => false⟩, ⟨fun _ => 0, 0, 0⟩⟩

/-- The entry that `popular(category, N)` keeps for a member of
`top_popular`, in the words of the specification: the member's item with its
popularity score and reason `popular`; with a category given, only if the
item's lookup in the system of record succeeds and its category is the one
asked for. -/
def popularEntry (pg : PostgresStore) (category : String) (z : Z) : Option Recommendation :=
  match ParseInt z.Member with
  | none => none
  | some itemID =>
    if category = "" then some ⟨itemID, z.Score, "popular"⟩
    else
      match pg.GetItem itemID with
      | .error _ => none
      | .ok item => if item.Category = category then some ⟨itemID, z.Score, "popular"⟩ else none

/-- The system of record of scenario S6: items 1 and 2 are books, item 3 is a
toy, any other lookup fails. -/
def catalogS6 : PostgresStore :=
  ⟨fun id =>
    if id = 1 then .ok ⟨1, "sku-1", "first", "books", 10, 1⟩
    else if id = 2 then .ok ⟨2, "sku-2", "second", "books", 20, 1⟩
    else if id = 3 then .ok ⟨3, "sku-3", "third", "toys", 30, 1⟩
    else .error Err.Backend⟩

/-- The store of scenario S6: items 3, 1 and 2 are popular, with scores 5, 4
and 2; all operations succeed. -/
def storeS6 : RedisStore :=
  ⟨{ emptyData with popularity := [⟨"1", 4⟩, ⟨"2", 2⟩, ⟨"3", 5⟩] }, [], fun _ _ => false⟩

/-- A request without query parameters, as in
`TestHandleGetRecommendations_MissingUserID`. -/
def emptyQuery : api.Query := fun _ => none

/-- A store in which user 1 has viewed item 100, whose KNN list is `[200]`;
the co-view lookup of item 100 fails when `coViewFails` is set, every other
operation succeeds. -/
def knnStore (coViewFails : Bool) : RedisStore :=
  ⟨{ emptyData with
      recent := fun u => if u = 1 then ["100"] else []
      knn := fun i => if i = 100 then ["200"] else [] },
    [], fun _ op => coViewFails && decide (op = Op.GetCoViewItems 100 20)⟩

/-- A feature store that cannot be reached: it holds data, but every
operation fails. -/
def unreachableStore : RedisStore :=
  ⟨{ emptyData with
      recent := fun u => if u = 1 then ["100"] else []
      popularity := [⟨"1", 2⟩, ⟨"2", 1⟩] },
    [], fun _ _ => true⟩

/-- The request `GET /recommendations?user_id=1&count=3`. -/
def queryUser1 : api.Query :=
  fun key => if key = "user_id" then some "1" else if key = "count" then some "3" else none

/-- Co-view symmetry of a store: `coview[a][b] = coview[b][a]` for all items. -/
def CoViewSymmetric (r : RedisStore) : Prop :=
  ∀ a b : Int, scoreOf (r.data.coView a) (FormatInt b) = scoreOf (r.data.coView b) (FormatInt a)

/-- The co-view increments that `updateCoView` attempts for one entry of the
window: none for an entry that is not an id or that denotes the event's item,
otherwise one in each direction. -/
def incrementsFor (itemID : Int) (str : String) : List Op :=
  match ParseInt str with
  | none => []
  | some id => if id = itemID then [] else [Op.IncrCoView itemID id, Op.IncrCoView id itemID]

/-- The co-view increments that `updateCoView` attempts, given what its read
of the recent list returned: none when the read failed, otherwise those of
every entry of the window, in order. -/
def attemptedIncrements (itemID : Int) (res : Except Err (List String)) : List Op :=
  match res with
  | .error _ => []
  | .ok window => window.foldr (fun str ops => incrementsFor itemID str ++ ops) []

/-- The partial scores the candidate map holds for an item: the entry of the
item, or the zero record when the item has no entry. -/
def partialScores (c : api.Candidates) (itemID : Int) : api.candidateScore :=
  (c.lookup itemID).getD api.candidateScore.zero

/-- The candidate map after step 2 of `generateRecommendations`, the loop over
the seeds, and the store after its reads: what `len(candidates) < count`
inspects before the popular fallback. -/
def seedCandidates (r : RedisStore) (userID : Int) : RedisStore × api.Candidates :=
  (api.recentOf (r.GetRecentItems userID 5).1).foldl
    (api.seedStep (api.recentOf (r.GetRecentItems userID 5).1))
    ((r.GetRecentItems userID 5).2, [])

/-- The read `get_recent(U, n)` when it succeeds. -/
def get_recent (d : RedisData) (userID n : Int) : List String :=
  lrange (d.recent userID) 0 (wrapInt64 (n - 1))

/-- The score of an item in a list of scored members, in the words of the
specification: the total of the scores of the members that denote the item
(a sorted set written by the stream processor has at most one). -/
def scoreIn (zs : List Z) (itemID : Int) : ℚ :=
  ((zs.filter (fun z => decide (ParseInt z.Member = some itemID))).map Z.Score).sum

/-- The service with the recency weight `delta` in place of the configured
one, everything else the same. -/
def withRecencyWeight (s : api.Service) (delta : ℚ) : api.Service :=
  { s with cfg := { s.cfg with Weights := { s.cfg.Weights with Recency := delta } } }

/-- A store in which user 1 has viewed item 200 twice, item 300 is a co-view
partner and a neighbour of item 200 and is popular, and item 400 is a
neighbour of item 200 and is popular; all operations succeed. -/
def overlapStore : RedisStore :=
  ⟨{ emptyData with
      recent := fun u => if u = 1 then ["200", "200"] else []
      coView := fun i => if i = 200 then [⟨"300", 1⟩] else []
      knn := fun i => if i = 200 then ["300", "400"] else []
      popularity := [⟨"300", 5⟩, ⟨"400", 1⟩, ⟨"200", 7⟩] }, [], fun _ _ => false⟩

/-- The store `r1` is `r0` after further reads, none of them the popular
read: same data, same failure oracle, and a longer trace. -/
def SeedReads (r0 r1 : RedisStore) : Prop :=
  r1.data = r0.data ∧ r1.fails = r0.fails ∧
    ∃ ops, r1.calls = r0.calls ++ ops ∧ ∀ op ∈ ops, ∀ n, op ≠ Op.GetPopularItems n

/-- The read `top_popular(n)` in the words of the specification: the top `n`
members of the popularity set by descending score, none when `n ≤ 0`. -/
def spec_top_popular (d : RedisData) (n : Int) : List Z :=
  (List.insertionSort zrevLE d.popularity).take n.toNat

/-- The count `2^62 + 1`: the least count whose double is not a 64-bit
integer. -/
def overflowCount : Int := 4611686018427387905

/-- The request `GET /recommendations?user_id=7&count=4611686018427387905`. -/
def queryOverflow : api.Query :=
  fun key =>
    if key = "user_id" then some "7"
    else if key = "count" then some "4611686018427387905" else none

/-- The request `GET /popular?count=4611686018427387905`. -/
def queryPopularOverflow : api.Query :=
  fun key => if key = "count" then some "4611686018427387905" else none

/-! # Properties -/

/-! ## C1: ingest validation -/

theorem validTypes_iff (t : String) : ingest.validTypes t = true ↔ t ∈ validEventTypes := by
  simp [ingest.validTypes, validEventTypes, EventTypeView, EventTypeClick, EventTypeCart,
    EventTypePurchase]

/-- C1: `validateEvent` rejects an event exactly when `user_id ≤ 0`, or
`item_id ≤ 0`, or `event_type` is empty, or `event_type` is not one of VIEW,
CLICK, CART, PURCHASE; and it accepts exactly the events with positive ids and
one of the four valid types. -/
theorem validateEvent_rejects_iff (s : ingest.Service) (e : Event) :
    (s.validateEvent e ≠ none ↔
      (e.UserID ≤ 0 ∨ e.ItemID ≤ 0 ∨ e.EventType = "" ∨ e.EventType ∉ validEventTypes)) ∧
    (s.validateEvent e = none ↔
      (0 < e.UserID ∧ 0 < e.ItemID ∧ e.EventType ∈ validEventTypes)) := by
  have hempty : ("" : String) ∉ validEventTypes := by decide
  have hv := validTypes_iff e.EventType
  unfold ingest.Service.validateEvent
  by_cases h1 : e.UserID ≤ 0
  · simp [h1]
  · by_cases h2 : e.ItemID ≤ 0
    · simp [h1, h2]
    · by_cases h3 : e.EventType = ""
      · simp only [h1, h2, h3, if_true, if_false]
        constructor
        · simp
        · constructor
          · intro h; cases h
          · intro h; exact absurd h.2.2 hempty
      · by_cases h4 : e.EventType ∈ validEventTypes
        · have h5 : ingest.validTypes e.EventType = true := hv.2 h4
          simp only [h1, h2, h3, h5, if_false]
          push_neg at h1 h2
          simp [h4, h1, h2, h3]
        · have h5 : ingest.validTypes e.EventType = false := by
            cases hb : ingest.validTypes e.EventType
            · rfl
            · exact absurd (hv.1 hb) h4
          simp [h1, h2, h3, h5, h4]

/-! ## C2: the status codes of `POST /events` -/

/-- What `HandleIngestEvent` answers for a decoded body: `500` with the log
untouched when validation fails; otherwise, once the event (its timestamp
filled in when absent) is marshalled, `500` with the log untouched when the
publish fails and `200` with the one message appended when it succeeds. -/
theorem HandleIngestEvent_status (s : ingest.Service) (w : ingest.KafkaWriter) (e : Event) :
    (s.validateEvent e ≠ none →
      ingest.HandleIngestEvent s w (.ok e) = (StatusInternalServerError, w)) ∧
    (∀ e1 bytes, s.validateEvent e = none →
      e1 = (if e.Timestamp = none then { e with Timestamp := some s.now } else e) →
      s.jsonMarshal e1 = .ok bytes →
      (w.fails w.attempts = true →
        (ingest.HandleIngestEvent s w (.ok e)).1 = StatusInternalServerError ∧
        (ingest.HandleIngestEvent s w (.ok e)).2.log = w.log) ∧
      (w.fails w.attempts = false →
        (ingest.HandleIngestEvent s w (.ok e)).1 = StatusOK ∧
        (ingest.HandleIngestEvent s w (.ok e)).2.log =
          w.log ++ [⟨FormatInt e.UserID, bytes, e1.Timestamp⟩])) := by
  constructor
  · intro h
    cases hv : s.validateEvent e with
    | none => exact absurd hv h
    | some msg => simp [ingest.HandleIngestEvent, ingest.Service.IngestEvent, hv]
  · intro e1 bytes hv he1 hm
    have hu : e1.UserID = e.UserID := by
      rw [he1]
      split <;> rfl
    rw [he1] at hm hu
    constructor
    · intro hf
      simp [ingest.HandleIngestEvent, ingest.Service.IngestEvent, hv, hm,
        ingest.KafkaWriter.WriteMessages, hf]
    · intro hf
      simp [ingest.HandleIngestEvent, ingest.Service.IngestEvent, hv, hm,
        ingest.KafkaWriter.WriteMessages, hf, hu, he1]

/-- C2, at the failing input: a well-formed body whose event has `user_id = 0`
fails validation, and `HandleIngestEvent` answers 500 (not 400), publishing
nothing. -/
theorem HandleIngestEvent_invalid_event_is_500 :
    sampleIngest.validateEvent { UserID := 0, ItemID := 1, EventType := "VIEW" } ≠ none ∧
    (ingest.HandleIngestEvent sampleIngest emptyWriter
        (.ok { UserID := 0, ItemID := 1, EventType := "VIEW" })).1 = 500 ∧
    (ingest.HandleIngestEvent sampleIngest emptyWriter
        (.ok { UserID := 0, ItemID := 1, EventType := "VIEW" })).2.log = [] := by
  decide

/-! ## Lists and ranges -/

theorem wrapInt64_of_isInt64 {x : Int} (h : IsInt64 x) : wrapInt64 x = x := by
  unfold IsInt64 at h
  unfold wrapInt64
  omega

theorem redisRange_zero {α : Type} (l : List α) (stop : Int) (h : 0 ≤ stop) :
    redisRange l 0 stop = l.take (stop.toNat + 1) := by
  have hs : ¬ stop < 0 := not_lt.mpr h
  by_cases hl : l = []
  · subst hl
    simp [redisRange]
  · have hpos : 0 < l.length := List.length_pos.mpr hl
    have h1 : ¬ ((0 : Int) > stop ∨ (0 : Int) ≥ (l.length : Int)) := by omega
    have h3 : ¬ (False ∨ (0 : Int) ≥ (l.length : Int)) := by
      rintro (hf | hf)
      · exact hf
      · omega
    by_cases h2 : stop ≥ (l.length : Int)
    · have e1 : ((l.length : Int) - 1 - 0 + 1).toNat = l.length := by omega
      have e2 : l.length ≤ stop.toNat + 1 := by omega
      simp only [redisRange, lt_irrefl, if_false, hs, h1, h2, if_true, e1, Int.toNat_zero,
        List.drop_zero, List.take_length, List.take_of_length_le e2, h3]
    · have e1 : (stop - 0 + 1).toNat = stop.toNat + 1 := by omega
      simp only [redisRange, lt_irrefl, if_false, hs, h1, h2, e1, Int.toNat_zero,
        List.drop_zero, h3]

theorem redisRange_sublist {α : Type} (l : List α) (start stop : Int) :
    (redisRange l start stop).Sublist l := by
  simp only [redisRange]
  split_ifs <;>
    first
    | exact List.nil_sublist l
    | exact (List.take_sublist _ _).trans (List.drop_sublist _ _)

theorem mem_of_mem_redisRange {α : Type} {l : List α} {start stop : Int} {a : α}
    (h : a ∈ redisRange l start stop) : a ∈ l :=
  (redisRange_sublist l start stop).subset h

/-! ## C3: the number of recommendations -/

theorem rankCandidates_length (s : api.Service) (count : Int) (c : api.Candidates)
    (h : 0 ≤ count) :
    ∃ recs, api.rankCandidates s count c = .ok recs ∧ (recs.length : Int) ≤ count := by
  unfold api.rankCandidates
  simp only
  split
  · have hc : ¬ count < 0 := not_lt.mpr h
    simp only [hc, if_false]
    refine ⟨_, rfl, ?_⟩
    rw [List.length_take]
    omega
  · rename_i hlen
    exact ⟨_, rfl, not_lt.mp hlen⟩

/-- C3, the claim fails at a cache hit: `recommend(9, 2)` on a store with two
popular items returns two recommendations and caches them; the next
`recommend(9, 1)` is answered from the cache with the same two
recommendations, more than the one requested. -/
theorem GetRecommendations_cache_hit_exceeds_count :
    (sampleService.GetRecommendations popularStore 9 2).result = .ok sampleResponse ∧
    cachedStore.data.cache 9 = some samplePayload ∧
    (sampleService.GetRecommendations cachedStore 9 1).result = .ok sampleResponse ∧
    (1 : Int) < (sampleResponse.Recommendations.length : Int) := by
  decide!

/-- C3, amended: whenever the cache probe for `U` does not yield a decodable
entry (absent key, backend error or undecodable payload), `recommend(U, N)` with
`N > 0` returns a response with at most `N` recommendations. -/
theorem GetRecommendations_length_le_of_miss (s : api.Service) (r : RedisStore) (U N : Int)
    (hN : 0 < N) (hmiss : (s.getCachedRecommendations r U).1.isOk = false) :
    ∃ resp, (s.GetRecommendations r U N).result = .ok resp ∧
      (resp.Recommendations.length : Int) ≤ N := by
  unfold api.Service.GetRecommendations
  rcases hc : s.getCachedRecommendations r U with ⟨res, r1⟩
  rw [hc] at hmiss
  cases res with
  | ok cached => simp [Except.isOk, Except.toBool] at hmiss
  | error e =>
    simp only [api.Service.generateRecommendations]
    obtain ⟨recs, hrecs, hlen⟩ :=
      rankCandidates_length s N (s.gatherCandidates r1 U N).2 (le_of_lt hN)
    rw [hrecs]
    exact ⟨_, rfl, hlen⟩

theorem GetRecommendations_length_le_of_miss_witness :
    ∃ resp, (sampleService.GetRecommendations popularStore 9 1).result = .ok resp ∧
      (resp.Recommendations.length : Int) ≤ 1 :=
  GetRecommendations_length_le_of_miss sampleService popularStore 9 1 (by decide) (by decide!)

/-! ## The candidate map -/

theorem foldl_invariant {α β : Type} (P : β → Prop) (f : β → α → β)
    (hstep : ∀ b a, P b → P (f b a)) (l : List α) (b : β) (hb : P b) : P (l.foldl f b) := by
  induction l generalizing b with
  | nil => exact hb
  | cons a t ih => exact ih (f b a) (hstep b a hb)

theorem bump_keys (f : api.candidateScore → api.candidateScore) (id : Int) (c : api.Candidates) :
    (api.bump f id c).map Prod.fst =
      if id ∈ c.map Prod.fst then c.map Prod.fst else c.map Prod.fst ++ [id] := by
  induction c with
  | nil => simp [api.bump]
  | cons p t ih =>
    obtain ⟨k, v⟩ := p
    by_cases hk : k = id
    · simp [api.bump, hk]
    · have hk2 : ¬ id = k := fun e => hk e.symm
      by_cases hm : id ∈ t.map Prod.fst
      · rw [if_pos hm] at ih
        have hm2 : id ∈ ((k, v) :: t).map Prod.fst := by
          simp only [List.map_cons, List.mem_cons]
          exact Or.inr hm
        rw [if_pos hm2]
        simp only [api.bump, hk, if_false, List.map_cons, ih]
      · rw [if_neg hm] at ih
        have hm2 : ¬ id ∈ ((k, v) :: t).map Prod.fst := by
          simp only [List.map_cons, List.mem_cons, not_or]
          exact ⟨hk2, hm⟩
        rw [if_neg hm2]
        simp only [api.bump, hk, if_false, List.map_cons, ih, List.cons_append]

theorem mem_keys_bump {f : api.candidateScore → api.candidateScore} {id k : Int}
    {c : api.Candidates} (h : k ∈ (api.bump f id c).map Prod.fst) :
    k = id ∨ k ∈ c.map Prod.fst := by
  rw [bump_keys] at h
  split at h
  · exact Or.inr h
  · rcases List.mem_append.mp h with h1 | h1
    · exact Or.inr h1
    · exact Or.inl (List.mem_singleton.mp h1)

/-- Every key of the candidate map satisfies `P`. -/
theorem keys_bump (P : Int → Prop) (f : api.candidateScore → api.candidateScore) (id : Int)
    (c : api.Candidates) (hid : P id) (hc : ∀ k ∈ c.map Prod.fst, P k) :
    ∀ k ∈ (api.bump f id c).map Prod.fst, P k := by
  intro k hk
  rcases mem_keys_bump hk with h | h
  · rw [h]
    exact hid
  · exact hc k h

theorem coViewLoop_keys (recentItems : List String) (c : api.Candidates) (zs : List Z)
    (hc : ∀ k ∈ c.map Prod.fst, api.isRecentItem k recentItems = false) :
    ∀ k ∈ (api.coViewLoop recentItems c zs).map Prod.fst,
      api.isRecentItem k recentItems = false := by
  unfold api.coViewLoop
  refine foldl_invariant
    (fun c => ∀ k ∈ c.map Prod.fst, api.isRecentItem k recentItems = false) _ ?_ zs c hc
  intro b z hb
  dsimp only
  split
  · exact hb
  · rename_i id _
    by_cases hr : api.isRecentItem id recentItems = true
    · rw [if_pos hr]
      exact hb
    · rw [if_neg hr]
      exact keys_bump _ _ id b (by simpa using hr) hb

theorem knnLoop_keys (recentItems : List String) (c : api.Candidates) (l : List String)
    (hc : ∀ k ∈ c.map Prod.fst, api.isRecentItem k recentItems = false) :
    ∀ k ∈ (api.knnLoop recentItems c l).map Prod.fst,
      api.isRecentItem k recentItems = false := by
  unfold api.knnLoop
  refine foldl_invariant
    (fun c => ∀ k ∈ c.map Prod.fst, api.isRecentItem k recentItems = false) _ ?_ l.enum c hc
  intro b z hb
  dsimp only
  split
  · exact hb
  · rename_i id _
    by_cases hr : api.isRecentItem id recentItems = true
    · rw [if_pos hr]
      exact hb
    · rw [if_neg hr]
      exact keys_bump _ _ id b (by simpa using hr) hb

theorem popularLoop_keys (recentItems : List String) (c : api.Candidates) (zs : List Z)
    (hc : ∀ k ∈ c.map Prod.fst, api.isRecentItem k recentItems = false) :
    ∀ k ∈ (api.popularLoop recentItems c zs).map Prod.fst,
      api.isRecentItem k recentItems = false := by
  unfold api.popularLoop
  refine foldl_invariant
    (fun c => ∀ k ∈ c.map Prod.fst, api.isRecentItem k recentItems = false) _ ?_ zs c hc
  intro b z hb
  dsimp only
  split
  · exact hb
  · rename_i id _
    by_cases hr : api.isRecentItem id recentItems = true
    · rw [if_pos hr]
      exact hb
    · rw [if_neg hr]
      exact keys_bump _ _ id b (by simpa using hr) hb

theorem seedStep_keys (recentItems : List String) (st : RedisStore × api.Candidates)
    (itemStr : String)
    (hc : ∀ k ∈ st.2.map Prod.fst, api.isRecentItem k recentItems = false) :
    ∀ k ∈ (api.seedStep recentItems st itemStr).2.map Prod.fst,
      api.isRecentItem k recentItems = false := by
  unfold api.seedStep
  split
  · exact hc
  · split
    · exact hc
    · split
      · exact coViewLoop_keys recentItems st.2 _ hc
      · exact knnLoop_keys recentItems _ _ (coViewLoop_keys recentItems st.2 _ hc)

theorem popularFallback_keys (recentItems : List String) (count : Int)
    (st : RedisStore × api.Candidates)
    (hc : ∀ k ∈ st.2.map Prod.fst, api.isRecentItem k recentItems = false) :
    ∀ k ∈ (api.popularFallback recentItems count st).2.map Prod.fst,
      api.isRecentItem k recentItems = false := by
  unfold api.popularFallback
  split
  · split
    · exact hc
    · exact popularLoop_keys recentItems st.2 _ hc
  · exact hc

/-- No key of the gathered candidate map is rendered in the recent list that
the generator read. -/
theorem gatherCandidates_keys (s : api.Service) (r : RedisStore) (U N : Int) :
    ∀ k ∈ (s.gatherCandidates r U N).2.map Prod.fst,
      api.isRecentItem k (api.recentOf (r.GetRecentItems U 5).1) = false := by
  unfold api.Service.gatherCandidates
  apply popularFallback_keys
  refine foldl_invariant
    (fun st : RedisStore × api.Candidates => ∀ k ∈ st.2.map Prod.fst,
      api.isRecentItem k (api.recentOf (r.GetRecentItems U 5).1) = false) _ ?_ _ _ ?_
  · intro b a hb
    exact seedStep_keys _ b a hb
  · intro k hk
    simp at hk

/-! ## Ranking -/

/-- The recommendation built from one entry of the candidate map. -/
theorem mem_rankCandidates (s : api.Service) (count : Int) (c : api.Candidates)
    (recs : List Recommendation) (h : api.rankCandidates s count c = .ok recs)
    (rec : Recommendation) (hrec : rec ∈ recs) :
    ∃ p ∈ c, rec = ⟨p.1, s.calculateFinalScore p.2, api.determineReason p.2⟩ := by
  have hall : rec ∈ api.sortSlice ((api.mapRange s.mapOrder c).map
      (fun p => (⟨p.1, s.calculateFinalScore p.2, api.determineReason p.2⟩ : Recommendation))) := by
    unfold api.rankCandidates at h
    simp only at h
    split at h
    · split at h
      · cases h
      · cases h
        exact List.mem_of_mem_take hrec
    · cases h
      exact hrec
  unfold api.sortSlice at hall
  rw [(List.perm_insertionSort _ _).mem_iff] at hall
  obtain ⟨p, hp, hpe⟩ := List.mem_map.mp hall
  unfold api.mapRange at hp
  rw [(List.perm_insertionSort _ _).mem_iff] at hp
  exact ⟨p, hp, hpe.symm⟩

theorem sortSlice_sorted (l : List Recommendation) :
    (api.sortSlice l).Sorted (fun a b => a.Score ≥ b.Score) := by
  unfold api.sortSlice
  haveI : IsTotal Recommendation (fun a b => a.Score ≥ b.Score) :=
    ⟨fun a b => le_total b.Score a.Score⟩
  haveI : IsTrans Recommendation (fun a b => a.Score ≥ b.Score) :=
    ⟨fun a b c hab hbc => le_trans hbc hab⟩
  exact List.sorted_insertionSort _ l

theorem rankCandidates_sorted (s : api.Service) (count : Int) (c : api.Candidates)
    (recs : List Recommendation) (h : api.rankCandidates s count c = .ok recs) :
    recs.Sorted (fun a b => a.Score ≥ b.Score) := by
  unfold api.rankCandidates at h
  simp only at h
  split at h
  · split at h
    · cases h
    · cases h
      exact (sortSlice_sorted _).sublist (List.take_sublist _ _)
  · cases h
    exact sortSlice_sorted _

theorem determineReason_valid (c : api.candidateScore) :
    api.determineReason c ∈ ["co_view", "embedding", "popular"] := by
  unfold api.determineReason
  split_ifs <;> simp

/-! ## C4: recent items are never recommended -/

theorem isRecentItem_false_iff (itemID : Int) (recentItems : List String) :
    api.isRecentItem itemID recentItems = false ↔ FormatInt itemID ∉ recentItems := by
  unfold api.isRecentItem
  rw [← Bool.not_eq_true, List.any_eq_true]
  constructor
  · intro h hm
    exact h ⟨_, hm, by simp⟩
  · rintro h ⟨x, hx, hxe⟩
    have : x = FormatInt itemID := by simpa using hxe
    exact h (this ▸ hx)

/-- C4: for every user, every `N > 0` and every store state whose recent list
for the user holds canonical decimal ids, `generateRecommendations` returns a
list, and no returned item is the id of an entry of the recent list that
`get_recent(U, 5)` returned. -/
theorem generateRecommendations_excludes_recent (s : api.Service) (r : RedisStore) (U N : Int)
    (hN : 0 < N) (hcanon : ∀ str ∈ r.data.recent U, CanonicalID str) :
    ∃ recs, (s.generateRecommendations r U N).1 = .ok recs ∧
      ∀ rec ∈ recs, ∀ str ∈ api.recentOf (r.GetRecentItems U 5).1,
        ParseInt str ≠ some rec.ItemID := by
  obtain ⟨recs, hrecs, _⟩ :=
    rankCandidates_length s N (s.gatherCandidates r U N).2 (le_of_lt hN)
  refine ⟨recs, hrecs, ?_⟩
  intro rec hrec str hstr hparse
  obtain ⟨p, hp, hpe⟩ := mem_rankCandidates s N _ recs hrecs rec hrec
  have hkey : api.isRecentItem p.1 (api.recentOf (r.GetRecentItems U 5).1) = false :=
    gatherCandidates_keys s r U N p.1 (List.mem_map_of_mem Prod.fst hp)
  rw [isRecentItem_false_iff] at hkey
  have hid : rec.ItemID = p.1 := by rw [hpe]
  have hstore : str ∈ r.data.recent U := by
    unfold RedisStore.GetRecentItems at hstr
    simp only at hstr
    split at hstr
    · simp [api.recentOf] at hstr
    · exact mem_of_mem_redisRange (by simpa [api.recentOf, lrange] using hstr)
  have hc := hcanon str hstore
  unfold CanonicalID at hc
  rw [hparse] at hc
  simp only [Option.map_some', Option.some.injEq] at hc
  rw [hid] at hc
  exact hkey (hc ▸ hstr)

theorem generateRecommendations_excludes_recent_witness :
    ∃ recs, (sampleService.generateRecommendations storeS2 2 3).1 = .ok recs ∧
      ∀ rec ∈ recs, ∀ str ∈ api.recentOf (storeS2.GetRecentItems 2 5).1,
        ParseInt str ≠ some rec.ItemID :=
  generateRecommendations_excludes_recent sampleService storeS2 2 3 (by decide) (by decide!)

/-! ## C5: order and reasons of the returned list -/

/-- C5: for every input, `generateRecommendations` returns a list unless the
count is negative, and every list it returns is sorted by score in descending
(non-increasing) order, each entry with a reason among `co_view`, `embedding`
and `popular`. -/
theorem generateRecommendations_sorted_valid_reasons (s : api.Service) (r : RedisStore)
    (U N : Int) :
    (N < 0 ∨ ∃ recs, (s.generateRecommendations r U N).1 = .ok recs) ∧
    ∀ recs, (s.generateRecommendations r U N).1 = .ok recs →
      recs.Sorted (fun a b => a.Score ≥ b.Score) ∧
      ∀ rec ∈ recs, rec.Reason ∈ ["co_view", "embedding", "popular"] := by
  constructor
  · by_cases hN : N < 0
    · exact Or.inl hN
    · obtain ⟨recs, hrecs, _⟩ :=
        rankCandidates_length s N (s.gatherCandidates r U N).2 (not_lt.mp hN)
      exact Or.inr ⟨recs, hrecs⟩
  · intro recs hrecs
    refine ⟨rankCandidates_sorted s N _ recs hrecs, ?_⟩
    intro rec hrec
    obtain ⟨p, _, hpe⟩ := mem_rankCandidates s N _ recs hrecs rec hrec
    rw [hpe]
    exact determineReason_valid p.2

theorem generateRecommendations_sorted_valid_reasons_witness :
    ∃ recs, (sampleService.generateRecommendations storeS2 2 3).1 = .ok recs ∧
      recs.Sorted (fun a b => a.Score ≥ b.Score) ∧
      ∀ rec ∈ recs, rec.Reason ∈ ["co_view", "embedding", "popular"] :=
  ((generateRecommendations_sorted_valid_reasons sampleService storeS2 2 3).1.resolve_left
    (by decide)).elim
    (fun recs hr =>
      ⟨recs, hr, (generateRecommendations_sorted_valid_reasons sampleService storeS2 2 3).2 recs hr⟩)

/-! ## The store operations: oracle, trace and data -/

theorem failing_of_neverFails {r : RedisStore} (h : NeverFails r) (op : Op) :
    r.failing op = false := h _ op

@[simp] theorem record_data (r : RedisStore) (op : Op) : (r.record op).data = r.data := rfl

@[simp] theorem record_fails (r : RedisStore) (op : Op) : (r.record op).fails = r.fails := rfl

@[simp] theorem record_calls (r : RedisStore) (op : Op) :
    (r.record op).calls = r.calls ++ [op] := rfl

@[simp] theorem AddRecentItem_fails (r : RedisStore) (u i l : Int) :
    (r.AddRecentItem u i l).2.fails = r.fails := by
  unfold RedisStore.AddRecentItem
  simp only
  split <;> rfl

@[simp] theorem AddRecentItem_calls (r : RedisStore) (u i l : Int) :
    (r.AddRecentItem u i l).2.calls = r.calls ++ [Op.AddRecentItem u i l] := by
  unfold RedisStore.AddRecentItem
  simp only
  split <;> rfl

theorem AddRecentItem_recent (r : RedisStore) (u i l : Int)
    (h : r.failing (Op.AddRecentItem u i l) = false) :
    (r.AddRecentItem u i l).2.data.recent =
      Function.update r.data.recent u
        (ltrim (lpush (r.data.recent u) (FormatInt i)) 0 (wrapInt64 (l - 1))) := by
  simp [RedisStore.AddRecentItem, h]

@[simp] theorem AddRecentItem_popularity (r : RedisStore) (u i l : Int) :
    (r.AddRecentItem u i l).2.data.popularity = r.data.popularity := by
  unfold RedisStore.AddRecentItem
  simp only
  split <;> rfl

@[simp] theorem AddRecentItem_coView (r : RedisStore) (u i l : Int) :
    (r.AddRecentItem u i l).2.data.coView = r.data.coView := by
  unfold RedisStore.AddRecentItem
  simp only
  split <;> rfl

@[simp] theorem IncrPopularity_fails (r : RedisStore) (i : Int) (w : ℚ) :
    (r.IncrPopularity i w).2.fails = r.fails := by
  unfold RedisStore.IncrPopularity
  simp only
  split <;> rfl

@[simp] theorem IncrPopularity_calls (r : RedisStore) (i : Int) (w : ℚ) :
    (r.IncrPopularity i w).2.calls = r.calls ++ [Op.IncrPopularity i w] := by
  unfold RedisStore.IncrPopularity
  simp only
  split <;> rfl

theorem IncrPopularity_popularity (r : RedisStore) (i : Int) (w : ℚ)
    (h : r.failing (Op.IncrPopularity i w) = false) :
    (r.IncrPopularity i w).2.data.popularity = zincrby r.data.popularity w (FormatInt i) := by
  simp [RedisStore.IncrPopularity, h]

@[simp] theorem IncrPopularity_recent (r : RedisStore) (i : Int) (w : ℚ) :
    (r.IncrPopularity i w).2.data.recent = r.data.recent := by
  unfold RedisStore.IncrPopularity
  simp only
  split <;> rfl

@[simp] theorem IncrPopularity_coView (r : RedisStore) (i : Int) (w : ℚ) :
    (r.IncrPopularity i w).2.data.coView = r.data.coView := by
  unfold RedisStore.IncrPopularity
  simp only
  split <;> rfl

@[simp] theorem IncrCoView_fails (r : RedisStore) (a b : Int) :
    (r.IncrCoView a b).2.fails = r.fails := by
  unfold RedisStore.IncrCoView
  simp only
  split <;> rfl

@[simp] theorem IncrCoView_popularity (r : RedisStore) (a b : Int) :
    (r.IncrCoView a b).2.data.popularity = r.data.popularity := by
  unfold RedisStore.IncrCoView
  simp only
  split <;> rfl

@[simp] theorem IncrCoView_recent (r : RedisStore) (a b : Int) :
    (r.IncrCoView a b).2.data.recent = r.data.recent := by
  unfold RedisStore.IncrCoView
  simp only
  split <;> rfl

theorem IncrCoView_coView (r : RedisStore) (a b : Int)
    (h : r.failing (Op.IncrCoView a b) = false) :
    (r.IncrCoView a b).2.data.coView =
      Function.update r.data.coView a (zincrby (r.data.coView a) 1 (FormatInt b)) := by
  simp [RedisStore.IncrCoView, h]

@[simp] theorem GetRecentItems_snd (r : RedisStore) (u n : Int) :
    (r.GetRecentItems u n).2 = r.record (Op.GetRecentItems u n) := by
  unfold RedisStore.GetRecentItems
  simp only
  split <;> rfl

theorem GetRecentItems_fst (r : RedisStore) (u n : Int)
    (h : r.failing (Op.GetRecentItems u n) = false) :
    (r.GetRecentItems u n).1 = .ok (lrange (r.data.recent u) 0 (wrapInt64 (n - 1))) := by
  simp [RedisStore.GetRecentItems, h]

theorem neverFails_of_fails_eq {r r1 : RedisStore} (h : NeverFails r) (e : r1.fails = r.fails) :
    NeverFails r1 := by
  intro k op
  rw [e]
  exact h k op

/-! ## Sorted-set scores -/

theorem scoreOf_zincrby (zs : List Z) (w : ℚ) (m m1 : String) :
    scoreOf (zincrby zs w m) m1 = scoreOf zs m1 + (if m = m1 then w else 0) := by
  unfold scoreOf
  induction zs with
  | nil =>
    by_cases h : m = m1
    · simp [zincrby, zscore, h]
    · simp [zincrby, zscore, h]
  | cons z t ih =>
    by_cases hz : z.Member = m
    · by_cases h : m = m1
      · simp [zincrby, zscore, hz, h]
      · have h2 : ¬ z.Member = m1 := fun e => h (hz ▸ e)
        simp [zincrby, zscore, hz, h, h2]
    · by_cases h2 : z.Member = m1
      · have hm : ¬ m = m1 := fun e => hz (h2.trans e.symm)
        have hm1 : ¬ m1 = m := fun e => hm e.symm
        simp [zincrby, zscore, h2, hm, hm1]
      · simpa [zincrby, zscore, hz, h2] using ih

/-! ## C6: scenario S2 -/

theorem lrange_all (l : List String) (n : Int) (h64 : IsInt64 n) (hn : (l.length : Int) ≤ n)
    (h1 : 1 ≤ n) : redisRange l 0 (wrapInt64 (n - 1)) = l := by
  have hw : wrapInt64 (n - 1) = n - 1 := by
    apply wrapInt64_of_isInt64
    unfold IsInt64 at *
    omega
  rw [hw, redisRange_zero l (n - 1) (by omega)]
  apply List.take_of_length_le
  omega

theorem scenarioS2_store (cfg : Config) (hL : 3 ≤ cfg.RecentItemsLimit)
    (hL64 : IsInt64 cfg.RecentItemsLimit) (hW : 3 ≤ cfg.CoviewWindow)
    (hW64 : IsInt64 cfg.CoviewWindow) (hV : cfg.EventWeights.View = 1) :
    (processAll cfg emptyStore scenarioS2).data.recent 2 = ["100"] ∧
    (processAll cfg emptyStore scenarioS2).data.coView 100 = [⟨"200", 1⟩, ⟨"300", 1⟩] ∧
    (processAll cfg emptyStore scenarioS2).data.knn 100 = [] ∧
    (processAll cfg emptyStore scenarioS2).data.popularity = [⟨"100", 2⟩, ⟨"200", 1⟩, ⟨"300", 1⟩] ∧
    (processAll cfg emptyStore scenarioS2).data.cache 2 = none ∧
    NeverFails (processAll cfg emptyStore scenarioS2) := by
  have hp1 : ParseInt "100" = some 100 := by decide!
  have hp2 : ParseInt "200" = some 200 := by decide!
  have hp3 : ParseInt "300" = some 300 := by decide!
  have hf1 : FormatInt 100 = "100" := by decide!
  have hf2 : FormatInt 200 = "200" := by decide!
  have hf3 : FormatInt 300 = "300" := by decide!
  have hrL : ∀ l : List String, (l.length : Int) ≤ 3 →
      redisRange l 0 (wrapInt64 (cfg.RecentItemsLimit - 1)) = l :=
    fun l hl => lrange_all l _ hL64 (by omega) (by omega)
  have hrW : ∀ l : List String, (l.length : Int) ≤ 3 →
      redisRange l 0 (wrapInt64 (cfg.CoviewWindow - 1)) = l :=
    fun l hl => lrange_all l _ hW64 (by omega) (by omega)
  simp [processAll, scenarioS2, viewEvent, processor.processEvent, processor.updateCoView,
    processor.coViewStep, processor.getEventWeight, RedisStore.AddRecentItem,
    RedisStore.IncrPopularity, RedisStore.IncrCoView, RedisStore.GetRecentItems,
    RedisStore.failing, RedisStore.record, emptyStore, emptyData, lpush, ltrim, lrange,
    EventTypeView, hV, hp1, hp2, hp3, hf1, hf2, hf3, hrL, hrW, zincrby, NeverFails, Function.update]
  norm_num

theorem rankCandidates_of_le (s : api.Service) (count : Int) (c : api.Candidates)
    (h : (c.length : Int) ≤ count) :
    api.rankCandidates s count c = .ok (api.sortSlice ((api.mapRange s.mapOrder c).map
      (fun p => (⟨p.1, s.calculateFinalScore p.2, api.determineReason p.2⟩ : Recommendation)))) := by
  unfold api.rankCandidates
  simp only
  rw [if_neg]
  rw [not_lt]
  have : (api.sortSlice ((api.mapRange s.mapOrder c).map
      (fun p => (⟨p.1, s.calculateFinalScore p.2, api.determineReason p.2⟩ : Recommendation)))).length
      = c.length := by
    unfold api.sortSlice api.mapRange
    rw [List.length_insertionSort, List.length_map, List.length_insertionSort]
  rw [this]
  exact h

theorem mem_sortSlice_map_mapRange (s : api.Service) (c : api.Candidates) (rec : Recommendation) :
    rec ∈ api.sortSlice ((api.mapRange s.mapOrder c).map
      (fun p => (⟨p.1, s.calculateFinalScore p.2, api.determineReason p.2⟩ : Recommendation))) ↔
    ∃ p ∈ c, rec = ⟨p.1, s.calculateFinalScore p.2, api.determineReason p.2⟩ := by
  unfold api.sortSlice
  rw [(List.perm_insertionSort _ _).mem_iff, List.mem_map]
  unfold api.mapRange
  constructor
  · rintro ⟨p, hp, hpe⟩
    exact ⟨p, (List.perm_insertionSort _ _).mem_iff.mp hp, hpe.symm⟩
  · rintro ⟨p, hp, hpe⟩
    exact ⟨p, (List.perm_insertionSort _ _).mem_iff.mpr hp, hpe.symm⟩

theorem gatherCandidates_S2 (s : api.Service) (r : RedisStore)
    (h1 : r.data.recent 2 = ["100"])
    (h2 : r.data.coView 100 = [⟨"200", 1⟩, ⟨"300", 1⟩])
    (h3 : r.data.knn 100 = [])
    (h4 : r.data.popularity = [⟨"100", 2⟩, ⟨"200", 1⟩, ⟨"300", 1⟩])
    (h6 : NeverFails r) :
    (s.gatherCandidates r 2 3).2 = [(300, ⟨1, 0, 1, 0⟩), (200, ⟨1, 0, 1, 0⟩)] := by
  have hnf : ∀ k op, r.fails k op = false := h6
  have hp1 : ParseInt "100" = some 100 := by decide!
  have hp2 : ParseInt "200" = some 200 := by decide!
  have hp3 : ParseInt "300" = some 300 := by decide!
  have hf1 : FormatInt 100 = "100" := by decide!
  have hf2 : FormatInt 200 = "200" := by decide!
  have hf3 : FormatInt 300 = "300" := by decide!
  have hw4 : wrapInt64 4 = 4 := by decide
  have hw19 : wrapInt64 19 = 19 := by decide
  have hw6 : wrapInt64 6 = 6 := by decide
  have hw5 : wrapInt64 5 = 5 := by decide
  have hz1 : zrevrange [⟨"200", 1⟩, ⟨"300", 1⟩] 0 19 = [⟨"300", 1⟩, ⟨"200", 1⟩] := by decide!
  have hz2 : zrevrange [⟨"100", 2⟩, ⟨"200", 1⟩, ⟨"300", 1⟩] 0 5 =
      [⟨"100", 2⟩, ⟨"300", 1⟩, ⟨"200", 1⟩] := by decide!
  have hl1 : lrange ["100"] 0 4 = ["100"] := by decide
  have hl2 : lrange [] 0 19 = [] := by decide
  simp [api.Service.gatherCandidates, RedisStore.GetRecentItems, RedisStore.failing, hnf, h1,
    api.recentOf, hw4, hl1, api.seedStep, hp1, RedisStore.GetCoViewItems, RedisStore.record, h2,
    hw19, hz1, RedisStore.GetItemKNN, h3, hl2, api.coViewLoop, api.knnLoop, hp2, hp3,
    api.isRecentItem, hf1, hf2, hf3, api.bump, api.candidateScore.zero, api.popularFallback,
    RedisStore.GetPopularItems, hw6, hw5, h4, hz2, api.popularLoop]

/-- C6, the claim fails on the reason tag: under a configuration that meets
the scenario's conditions (limit 50, window 10, VIEW weight 1), `recommend(2, 3)`
after the four events of S2 returns items 200 and 300 with reason `popular`, so
neither is returned with reason `co_view`. -/
theorem scenarioS2_reason_is_not_co_view :
    (sampleService.GetRecommendations storeS2 2 3).result =
      .ok ⟨2, [⟨200, 2, "popular"⟩, ⟨300, 2, "popular"⟩]⟩ ∧
    ¬ ∃ rec ∈ [(⟨200, 2, "popular"⟩ : Recommendation), ⟨300, 2, "popular"⟩],
        rec.ItemID = 200 ∧ rec.Reason = "co_view" := by
  decide!

/-- C6, amended: from the empty store, with `recent_items_limit ≥ 3`,
`coview_window ≥ 3` and VIEW weight 1, after the four events of S2 with every
store operation succeeding, `recommend(2, 3)` on a cache miss includes items
200 and 300, each with reason `popular` (the popular fallback gives each a
popularity partial score 1, equal to its co-view partial score 1), and does
not include item 100. -/
theorem scenarioS2_recommend (s : api.Service) (hL : 3 ≤ s.cfg.RecentItemsLimit)
    (hL64 : IsInt64 s.cfg.RecentItemsLimit) (hW : 3 ≤ s.cfg.CoviewWindow)
    (hW64 : IsInt64 s.cfg.CoviewWindow) (hV : s.cfg.EventWeights.View = 1) :
    ∃ resp, (s.GetRecommendations (processAll s.cfg emptyStore scenarioS2) 2 3).result = .ok resp ∧
      (∃ rec ∈ resp.Recommendations, rec.ItemID = 200 ∧ rec.Reason = "popular") ∧
      (∃ rec ∈ resp.Recommendations, rec.ItemID = 300 ∧ rec.Reason = "popular") ∧
      ∀ rec ∈ resp.Recommendations, rec.ItemID ≠ 100 := by
  obtain ⟨h1, h2, h3, h4, h5, h6⟩ := scenarioS2_store s.cfg hL hL64 hW hW64 hV
  generalize processAll s.cfg emptyStore scenarioS2 = r at h1 h2 h3 h4 h5 h6
  have hnf : ∀ k op, r.fails k op = false := h6
  have hg := gatherCandidates_S2 s (r.record (Op.GetCachedRecommendations 2)) h1 h2 h3 h4
    (neverFails_of_fails_eq h6 rfl)
  have hreason : api.determineReason ⟨1, 0, 1, 0⟩ = "popular" := by
    simp [api.determineReason]
  have hres : (s.GetRecommendations r 2 3).result =
      .ok ⟨2, api.sortSlice ((api.mapRange s.mapOrder
        [(300, ⟨1, 0, 1, 0⟩), (200, ⟨1, 0, 1, 0⟩)]).map
        (fun p => (⟨p.1, s.calculateFinalScore p.2, api.determineReason p.2⟩ : Recommendation)))⟩ := by
    have hc : s.getCachedRecommendations r 2 =
        (.error Err.Nil, r.record (Op.GetCachedRecommendations 2)) := by
      simp [api.Service.getCachedRecommendations, RedisStore.GetCachedRecommendations,
        RedisStore.failing, hnf, h5]
    have hgen : (s.generateRecommendations (r.record (Op.GetCachedRecommendations 2)) 2 3).1 =
        .ok (api.sortSlice ((api.mapRange s.mapOrder
          [(300, ⟨1, 0, 1, 0⟩), (200, ⟨1, 0, 1, 0⟩)]).map
          (fun p => (⟨p.1, s.calculateFinalScore p.2, api.determineReason p.2⟩ :
            Recommendation)))) := by
      simp only [api.Service.generateRecommendations, hg]
      rw [rankCandidates_of_le s 3 _ (by simp)]
    unfold api.Service.GetRecommendations
    rw [hc]
    simp only
    rcases hgp : s.generateRecommendations (r.record (Op.GetCachedRecommendations 2)) 2 3 with
      ⟨g1, g2⟩
    rw [hgp] at hgen
    simp only at hgen
    rw [hgen]
  refine ⟨_, hres, ?_, ?_, ?_⟩
  · refine ⟨⟨200, s.calculateFinalScore ⟨1, 0, 1, 0⟩, "popular"⟩, ?_, rfl, rfl⟩
    rw [mem_sortSlice_map_mapRange]
    exact ⟨(200, ⟨1, 0, 1, 0⟩), by simp, by simp [hreason]⟩
  · refine ⟨⟨300, s.calculateFinalScore ⟨1, 0, 1, 0⟩, "popular"⟩, ?_, rfl, rfl⟩
    rw [mem_sortSlice_map_mapRange]
    exact ⟨(300, ⟨1, 0, 1, 0⟩), by simp, by simp [hreason]⟩
  · intro rec hrec
    rw [mem_sortSlice_map_mapRange] at hrec
    obtain ⟨p, hp, hpe⟩ := hrec
    simp only [List.mem_cons, List.mem_singleton, List.not_mem_nil, or_false] at hp
    rcases hp with hp | hp <;> simp [hpe, hp]

theorem scenarioS2_recommend_witness :
    ∃ resp, (sampleService.GetRecommendations
        (processAll sampleService.cfg emptyStore scenarioS2) 2 3).result = .ok resp ∧
      (∃ rec ∈ resp.Recommendations, rec.ItemID = 200 ∧ rec.Reason = "popular") ∧
      (∃ rec ∈ resp.Recommendations, rec.ItemID = 300 ∧ rec.Reason = "popular") ∧
      ∀ rec ∈ resp.Recommendations, rec.ItemID ≠ 100 :=
  scenarioS2_recommend sampleService (by decide) (by decide) (by decide) (by decide) (by decide!)

/-! ## C7: scenario S1, the cold user -/

theorem bump_fresh (f : api.candidateScore → api.candidateScore) (id : Int) (c : api.Candidates)
    (h : ∀ p ∈ c, p.1 ≠ id) : api.bump f id c = c ++ [(id, f api.candidateScore.zero)] := by
  induction c with
  | nil => rfl
  | cons p t ih =>
    obtain ⟨k, v⟩ := p
    have hk : ¬ k = id := h (k, v) (List.mem_cons_self _ _)
    have ht : ∀ q ∈ t, q.1 ≠ id := fun q hq => h q (List.mem_cons_of_mem _ hq)
    simp only [api.bump, hk, if_false, ih ht, List.cons_append]

theorem canonical_parse {str : String} (h : CanonicalID str) :
    ∃ id, ParseInt str = some id ∧ FormatInt id = str := by
  unfold CanonicalID at h
  cases hp : ParseInt str with
  | none => simp [hp] at h
  | some id =>
    rw [hp] at h
    exact ⟨id, rfl, by simpa using h⟩

/-- With no recent items, the fallback loop over canonical, pairwise distinct
members appends one fresh candidate per member, in order. -/
theorem popularLoop_fresh (zs : List Z) (c : api.Candidates)
    (hcanon : ∀ z ∈ zs, CanonicalID z.Member) (hnodup : (zs.map Z.Member).Nodup)
    (hnew : ∀ z ∈ zs, ∀ p ∈ c, ParseInt z.Member ≠ some p.1) :
    api.popularLoop [] c zs =
      c ++ zs.map (fun z => ((ParseInt z.Member).getD 0, ⟨0, 0, 0 + z.Score, 0⟩)) := by
  induction zs generalizing c with
  | nil => simp [api.popularLoop]
  | cons z t ih =>
    obtain ⟨id, hid, hfmt⟩ := canonical_parse (hcanon z (List.mem_cons_self _ _))
    have hfresh : ∀ p ∈ c, p.1 ≠ id := by
      intro p hp e
      exact hnew z (List.mem_cons_self _ _) p hp (by rw [hid, e])
    have hstep : api.popularLoop [] c (z :: t) =
        api.popularLoop [] (c ++ [(id, ⟨0, 0, 0 + z.Score, 0⟩)]) t := by
      simp only [api.popularLoop, List.foldl_cons, hid, api.isRecentItem, List.any_nil]
      rw [bump_fresh _ id c hfresh]
      simp [api.candidateScore.zero]
    rw [hstep]
    rw [List.map_cons, List.nodup_cons] at hnodup
    rw [ih _ (fun z1 h1 => hcanon z1 (List.mem_cons_of_mem _ h1)) hnodup.2]
    · simp [hid]
    · intro z1 h1 p hp hpe
      rcases List.mem_append.mp hp with hp1 | hp1
      · exact hnew z1 (List.mem_cons_of_mem _ h1) p hp1 hpe
      · have hp2 : p = (id, ⟨0, 0, 0 + z.Score, 0⟩) := List.mem_singleton.mp hp1
        obtain ⟨id1, hid1, hfmt1⟩ := canonical_parse (hcanon z1 (List.mem_cons_of_mem _ h1))
        rw [hp2, hid1] at hpe
        have e : id1 = id := by simpa using hpe
        have hmem : z1.Member = z.Member := by rw [← hfmt1, ← hfmt, e]
        exact hnodup.1 (hmem ▸ List.mem_map_of_mem Z.Member h1)

theorem rankCandidates_length_eq (s : api.Service) (count : Int) (c : api.Candidates)
    (h : 0 ≤ count) :
    ∃ recs, api.rankCandidates s count c = .ok recs ∧
      (recs.length : Int) = min count (c.length : Int) := by
  have hlen : (api.sortSlice ((api.mapRange s.mapOrder c).map
      (fun p => (⟨p.1, s.calculateFinalScore p.2, api.determineReason p.2⟩ : Recommendation)))).length
      = c.length := by
    unfold api.sortSlice api.mapRange
    rw [List.length_insertionSort, List.length_map, List.length_insertionSort]
  unfold api.rankCandidates
  simp only
  split
  · rename_i hgt
    have hc : ¬ count < 0 := not_lt.mpr h
    simp only [hc, if_false]
    refine ⟨_, rfl, ?_⟩
    rw [List.length_take]
    rw [hlen] at hgt ⊢
    omega
  · rename_i hle
    refine ⟨_, rfl, ?_⟩
    rw [hlen] at hle ⊢
    omega

theorem zrevrange_members (zs : List Z) (start stop : Int) :
    (∀ z ∈ zrevrange zs start stop, z ∈ zs) ∧
    ((zs.map Z.Member).Nodup → ((zrevrange zs start stop).map Z.Member).Nodup) := by
  unfold zrevrange
  constructor
  · intro z hz
    exact (List.perm_insertionSort _ _).mem_iff.mp (mem_of_mem_redisRange hz)
  · intro hnd
    have h1 : ((List.insertionSort zrevLE zs).map Z.Member).Nodup :=
      ((List.perm_insertionSort zrevLE zs).map Z.Member).nodup_iff.mpr hnd
    exact h1.sublist ((redisRange_sublist _ start stop).map Z.Member)

theorem determineReason_popular (x : ℚ) (hx : 0 ≤ x) :
    api.determineReason ⟨0, 0, 0 + x, 0⟩ = "popular" := by
  have h1 : ¬ (0 : ℚ) > 0 + x := by
    rw [zero_add]
    exact not_lt.mpr hx
  simp only [api.determineReason, lt_irrefl, false_and, if_false, h1]

theorem redisRange_nil {α : Type} (start stop : Int) : redisRange ([] : List α) start stop = [] :=
  List.eq_nil_of_subset_nil (redisRange_sublist [] start stop).subset

/-- The candidate map of a user without recent items, when the fallback read
succeeds: one candidate per member of the list read. -/
theorem gatherCandidates_cold (s : api.Service) (r : RedisStore) (U N : Int) (hN : 0 < N)
    (hrecent : r.data.recent U = [])
    (hpop : ∀ k, r.fails k (Op.GetPopularItems (wrapInt64 (N * 2))) = false)
    (hcanon : ∀ z ∈ r.data.popularity, CanonicalID z.Member)
    (hnodup : (r.data.popularity.map Z.Member).Nodup) :
    (s.gatherCandidates r U N).2 =
      (top_popular r.data (wrapInt64 (N * 2))).map
        (fun z => ((ParseInt z.Member).getD 0, ⟨0, 0, 0 + z.Score, 0⟩)) := by
  have hrec : api.recentOf (r.GetRecentItems U 5).1 = [] := by
    unfold RedisStore.GetRecentItems
    simp only
    split
    · rfl
    · simp [api.recentOf, lrange, hrecent, redisRange_nil]
  have hmem := (zrevrange_members r.data.popularity 0 (wrapInt64 (wrapInt64 (N * 2) - 1))).1
  have hnd := (zrevrange_members r.data.popularity 0 (wrapInt64 (wrapInt64 (N * 2) - 1))).2 hnodup
  unfold api.Service.gatherCandidates
  simp only [hrec, List.foldl_nil, GetRecentItems_snd]
  unfold api.popularFallback
  have hlt : ((([] : api.Candidates).length : Nat) : Int) < N := by simpa using hN
  simp only [hlt, if_true]
  simp only [RedisStore.GetPopularItems, RedisStore.failing, record_fails, hpop, record_data,
    Bool.false_eq_true, if_false]
  rw [popularLoop_fresh _ [] (fun z hz => hcanon z (hmem z hz)) hnd (by simp)]
  simp [top_popular]

/-- The cold user on the code, for every `N > 0`: for a user with an empty
recent-items list and no cache entry, when the popularity set holds canonical
ids with non-negative scores and the fallback read succeeds, `recommend(U, N)`
returns as many items as the smaller of `N` and the length of the list the
fallback read returns, each a member of that list with reason `popular` and
the member's weighted score, in non-increasing order of score.  The read is
`GetPopularItems(count*2)` with the product taken in 64-bit arithmetic. -/
theorem cold_user_recommend (s : api.Service) (r : RedisStore) (U N : Int) (hN : 0 < N)
    (hrecent : r.data.recent U = []) (hcache : r.data.cache U = none)
    (hpop : ∀ k, r.fails k (Op.GetPopularItems (wrapInt64 (N * 2))) = false)
    (hcanon : ∀ z ∈ r.data.popularity, CanonicalID z.Member)
    (hnodup : (r.data.popularity.map Z.Member).Nodup)
    (hscore : ∀ z ∈ r.data.popularity, 0 ≤ z.Score) :
    ∃ resp, (s.GetRecommendations r U N).result = .ok resp ∧
      (resp.Recommendations.length : Int) =
        min N ((top_popular r.data (wrapInt64 (N * 2))).length : Int) ∧
      (∀ rec ∈ resp.Recommendations, rec.Reason = "popular" ∧
        ∃ z ∈ top_popular r.data (wrapInt64 (N * 2)),
          ParseInt z.Member = some rec.ItemID ∧
          rec.Score = z.Score * s.cfg.Weights.Popularity) ∧
      resp.Recommendations.Sorted (fun a b => a.Score ≥ b.Score) := by
  have hmem := (zrevrange_members r.data.popularity 0 (wrapInt64 (wrapInt64 (N * 2) - 1))).1
  have hc : ∃ e, s.getCachedRecommendations r U =
      (.error e, r.record (Op.GetCachedRecommendations U)) := by
    unfold api.Service.getCachedRecommendations RedisStore.GetCachedRecommendations
    simp only [hcache]
    split_ifs
    · exact ⟨_, rfl⟩
    · exact ⟨_, rfl⟩
  obtain ⟨e, hc⟩ := hc
  have hg := gatherCandidates_cold s (r.record (Op.GetCachedRecommendations U)) U N hN
    hrecent hpop hcanon hnodup
  obtain ⟨recs, hrecs, hlen⟩ := rankCandidates_length_eq s N
    (s.gatherCandidates (r.record (Op.GetCachedRecommendations U)) U N).2 (le_of_lt hN)
  have hres : (s.GetRecommendations r U N).result = .ok ⟨U, recs⟩ := by
    unfold api.Service.GetRecommendations
    rw [hc]
    simp only [api.Service.generateRecommendations, hrecs]
  refine ⟨⟨U, recs⟩, hres, ?_, ?_, ?_⟩
  · rw [hlen, hg, List.length_map, record_data]
  · intro rec hrec
    obtain ⟨p, hp, hpe⟩ := mem_rankCandidates s N _ recs hrecs rec hrec
    rw [hg, record_data] at hp
    obtain ⟨z, hz, hzp⟩ := List.mem_map.mp hp
    obtain ⟨id, hid, _⟩ := canonical_parse (hcanon z (hmem z hz))
    rw [hid] at hzp
    rw [hpe, ← hzp]
    refine ⟨determineReason_popular z.Score (hscore z (hmem z hz)), z, hz, ?_, ?_⟩
    · simpa using hid
    · simp [api.Service.calculateFinalScore]
  · exact rankCandidates_sorted s N _ recs hrecs

theorem cold_user_recommend_witness :
    ∃ resp, (sampleService.GetRecommendations popularStore 7 5).result = .ok resp ∧
      (resp.Recommendations.length : Int) =
        min 5 ((top_popular popularStore.data (wrapInt64 (5 * 2))).length : Int) ∧
      (∀ rec ∈ resp.Recommendations, rec.Reason = "popular" ∧
        ∃ z ∈ top_popular popularStore.data (wrapInt64 (5 * 2)),
          ParseInt z.Member = some rec.ItemID ∧
          rec.Score = z.Score * sampleService.cfg.Weights.Popularity) ∧
      resp.Recommendations.Sorted (fun a b => a.Score ≥ b.Score) :=
  cold_user_recommend sampleService popularStore 7 5 (by decide) rfl rfl (fun _ => rfl)
    (by decide!) (by decide) (by decide!)

theorem wrapInt64_double (N : Int) (h : IsInt64 (2 * N)) : wrapInt64 (N * 2) = 2 * N := by
  rw [mul_comm]
  exact wrapInt64_of_isInt64 h

/-- For a count between 1 and `2^63 - 1` the read `GetPopularItems` issues
returns the top `n` members, as the specification defines `top_popular(n)`. -/
theorem top_popular_eq_spec (d : RedisData) (n : Int) (h1 : 1 ≤ n) (h2 : n < 2 ^ 63) :
    top_popular d n = spec_top_popular d n := by
  have hw : wrapInt64 (n - 1) = n - 1 :=
    wrapInt64_of_isInt64 (by unfold IsInt64; constructor <;> omega)
  unfold top_popular spec_top_popular zrevrange
  rw [hw, redisRange_zero _ (n - 1) (by omega)]
  congr 1
  omega

/-- The cold user as the claim C7 states it, for every `0 < N < 2^62`: for a
user with an empty recent-items list and no cache entry, when the popularity
set holds canonical ids with non-negative scores and the fallback read
succeeds, `recommend(U, N)` returns `min(N, |top_popular(2N)|)` items, each a
member of `top_popular(2N)` with reason `popular` and the member's weighted
score, in non-increasing order of score. -/
theorem cold_user_recommend_in_range (s : api.Service) (r : RedisStore) (U N : Int)
    (hN : 0 < N) (hN2 : N < 2 ^ 62)
    (hrecent : r.data.recent U = []) (hcache : r.data.cache U = none)
    (hpop : ∀ k, r.fails k (Op.GetPopularItems (2 * N)) = false)
    (hcanon : ∀ z ∈ r.data.popularity, CanonicalID z.Member)
    (hnodup : (r.data.popularity.map Z.Member).Nodup)
    (hscore : ∀ z ∈ r.data.popularity, 0 ≤ z.Score) :
    ∃ resp, (s.GetRecommendations r U N).result = .ok resp ∧
      (resp.Recommendations.length : Int) =
        min N ((spec_top_popular r.data (2 * N)).length : Int) ∧
      (∀ rec ∈ resp.Recommendations, rec.Reason = "popular" ∧
        ∃ z ∈ spec_top_popular r.data (2 * N),
          ParseInt z.Member = some rec.ItemID ∧
          rec.Score = z.Score * s.cfg.Weights.Popularity) ∧
      resp.Recommendations.Sorted (fun a b => a.Score ≥ b.Score) := by
  have hw : wrapInt64 (N * 2) = 2 * N :=
    wrapInt64_double N (by unfold IsInt64; constructor <;> omega)
  have ht := top_popular_eq_spec r.data (2 * N) (by omega) (by omega)
  have h := cold_user_recommend s r U N hN hrecent hcache (by rw [hw]; exact hpop) hcanon
    hnodup hscore
  rw [hw, ht] at h
  exact h

theorem cold_user_recommend_in_range_witness :
    ∃ resp, (sampleService.GetRecommendations popularStore 7 5).result = .ok resp ∧
      (resp.Recommendations.length : Int) =
        min 5 ((spec_top_popular popularStore.data (2 * 5)).length : Int) ∧
      (∀ rec ∈ resp.Recommendations, rec.Reason = "popular" ∧
        ∃ z ∈ spec_top_popular popularStore.data (2 * 5),
          ParseInt z.Member = some rec.ItemID ∧
          rec.Score = z.Score * sampleService.cfg.Weights.Popularity) ∧
      resp.Recommendations.Sorted (fun a b => a.Score ≥ b.Score) :=
  cold_user_recommend_in_range sampleService popularStore 7 5 (by decide) (by decide) rfl rfl
    (fun _ => rfl) (by decide!) (by decide) (by decide!)

/-- C7, the code misses the claim when `count*2` overflows.  User 7 has an
empty recent-items list and no cache entry, and the popularity set holds items
1 and 2 with scores 2 and 1, so for `N = 2^62 + 1` the claim promises
`min(N, |top_popular(2N)|) = 2` items.  The fallback computes `count*2` in
64-bit arithmetic, reads `GetPopularItems(-9223372036854775806)`, which returns
nothing, and `recommend(7, N)` returns no item;
`GET /recommendations?user_id=7&count=4611686018427387905` is answered 200 with
that empty list. -/
theorem cold_user_count_overflow :
    overflowCount = 2 ^ 62 + 1 ∧
    popularStore.data.recent 7 = [] ∧ popularStore.data.cache 7 = none ∧
    spec_top_popular popularStore.data (2 * overflowCount) = [⟨"1", 2⟩, ⟨"2", 1⟩] ∧
    (sampleService.GetRecommendations popularStore 7 overflowCount).result = .ok ⟨7, []⟩ ∧
    (sampleService.GetRecommendations popularStore 7 overflowCount).store.calls =
      [Op.GetCachedRecommendations 7, Op.GetRecentItems 7 5,
        Op.GetPopularItems (-9223372036854775806)] ∧
    (api.HandleGetRecommendations sampleService popularStore queryOverflow).call =
      some (7, overflowCount) ∧
    (api.HandleGetRecommendations sampleService popularStore queryOverflow).status = 200 := by
  decide!

/-! ## Decimal rendering -/

theorem digitVal_digitChar (d : Nat) (h : d < 10) : digitVal (Nat.digitChar d) = some d := by
  have key : ∀ x : Fin 10, digitVal (Nat.digitChar x.val) = some x.val := by decide
  exact key ⟨d, h⟩

theorem parseUintLoop_digits (l : List Nat) (hl : ∀ d ∈ l, d < 10) (acc : Nat) :
    parseUintLoop (l.map Nat.digitChar) acc = some (l.foldl (fun a d => a * 10 + d) acc) := by
  induction l generalizing acc with
  | nil => rfl
  | cons d t ih =>
    have hd : d < 10 := hl d (List.mem_cons_self _ _)
    simp only [List.map_cons, parseUintLoop, digitVal_digitChar d hd, List.foldl_cons]
    exact ih (fun x hx => hl x (List.mem_cons_of_mem _ hx)) _

theorem foldl_reverse_digits (l : List Nat) :
    l.reverse.foldl (fun a d => a * 10 + d) 0 = Nat.ofDigits 10 l := by
  induction l with
  | nil => rfl
  | cons d t ih =>
    rw [List.reverse_cons, List.foldl_append, ih, Nat.ofDigits_cons]
    simp only [List.foldl_cons, List.foldl_nil]
    omega

theorem parseUintLoop_formatUint (n : Nat) : parseUintLoop (formatUint n) 0 = some n := by
  unfold formatUint
  split
  · rename_i h
    rw [h]
    decide
  · rw [parseUintLoop_digits _ (fun d hd => Nat.digits_lt_base (by norm_num)
      (List.mem_reverse.mp hd)), foldl_reverse_digits, Nat.ofDigits_digits]

theorem formatUint_injective {a b : Nat} (h : formatUint a = formatUint b) : a = b := by
  have h1 := parseUintLoop_formatUint a
  rw [h, parseUintLoop_formatUint b] at h1
  exact (Option.some.inj h1).symm

theorem formatUint_head (n : Nat) : ∃ c cs, formatUint n = c :: cs ∧ digitVal c ≠ none := by
  have h := parseUintLoop_formatUint n
  cases hf : formatUint n with
  | nil =>
    unfold formatUint at hf
    split at hf
    · cases hf
    · rename_i hn
      have hd : Nat.digits 10 n = [] := by simpa using hf
      exact absurd (Nat.digits_eq_nil_iff_eq_zero.mp hd) hn
  | cons c cs =>
    refine ⟨c, cs, rfl, ?_⟩
    rw [hf] at h
    intro hc
    simp [parseUintLoop, hc] at h

theorem FormatInt_injective {i j : Int} (h : FormatInt i = FormatInt j) : i = j := by
  unfold FormatInt at h
  have hminus : digitVal '-' = none := by decide
  obtain ⟨ci, csi, hi, hci⟩ := formatUint_head i.natAbs
  obtain ⟨cj, csj, hj, hcj⟩ := formatUint_head j.natAbs
  by_cases hi0 : i < 0 <;> by_cases hj0 : j < 0
  · simp only [hi0, hj0, if_true] at h
    have hd : '-' :: formatUint i.natAbs = '-' :: formatUint j.natAbs := congrArg String.data h
    have := formatUint_injective (List.cons.inj hd).2
    omega
  · simp only [hi0, hj0, if_true, if_false] at h
    have hd : '-' :: formatUint i.natAbs = formatUint j.natAbs := congrArg String.data h
    rw [hj] at hd
    have hc : '-' = cj := (List.cons.inj hd).1
    rw [← hc] at hcj
    exact absurd hminus hcj
  · simp only [hi0, hj0, if_true, if_false] at h
    have hd : formatUint i.natAbs = '-' :: formatUint j.natAbs := congrArg String.data h
    rw [hi] at hd
    have hc : ci = '-' := (List.cons.inj hd).1
    rw [hc] at hci
    exact absurd hminus hci
  · simp only [hi0, hj0, if_false] at h
    have hd : formatUint i.natAbs = formatUint j.natAbs := congrArg String.data h
    have := formatUint_injective hd
    omega

/-! ## C8: popularity increments -/

@[simp] theorem coViewStep_fails (itemID : Int) (r : RedisStore) (str : String) :
    (processor.coViewStep itemID r str).fails = r.fails := by
  unfold processor.coViewStep
  split
  · rfl
  · split
    · rfl
    · simp

@[simp] theorem coViewStep_popularity (itemID : Int) (r : RedisStore) (str : String) :
    (processor.coViewStep itemID r str).data.popularity = r.data.popularity := by
  unfold processor.coViewStep
  split
  · rfl
  · split
    · rfl
    · simp

theorem updateCoView_popularity (cfg : Config) (r : RedisStore) (e : Event) :
    (processor.updateCoView cfg r e).2.data.popularity = r.data.popularity := by
  unfold processor.updateCoView
  rcases hg : r.GetRecentItems e.UserID cfg.CoviewWindow with ⟨res, r1⟩
  have hr1 : r1 = r.record (Op.GetRecentItems e.UserID cfg.CoviewWindow) := by
    have := GetRecentItems_snd r e.UserID cfg.CoviewWindow
    rw [hg] at this
    exact this
  cases res with
  | error err => simp [hr1]
  | ok recentItems =>
    simp only
    refine foldl_invariant (fun st : RedisStore => st.data.popularity = r.data.popularity) _ ?_
      recentItems r1 (by simp [hr1])
    intro b a hb
    simpa using hb

/-- C8: for every event applied by `processEvent` whose popularity write
succeeds, whatever the other store operations do, the popularity score of the
event's item afterwards is its prior score (0 when absent) plus the weight of
the event type, and the weight of VIEW, CLICK, CART and PURCHASE is the
configured one. -/
theorem processEvent_popularity (cfg : Config) (r : RedisStore) (e : Event)
    (hok : r.fails (r.calls.length + 1)
      (Op.IncrPopularity e.ItemID (processor.getEventWeight cfg e.EventType)) = false) :
    scoreOf (processor.processEvent cfg r e).2.data.popularity (FormatInt e.ItemID) =
      scoreOf r.data.popularity (FormatInt e.ItemID) +
        processor.getEventWeight cfg e.EventType ∧
    processor.getEventWeight cfg "VIEW" = cfg.EventWeights.View ∧
    processor.getEventWeight cfg "CLICK" = cfg.EventWeights.Click ∧
    processor.getEventWeight cfg "CART" = cfg.EventWeights.Cart ∧
    processor.getEventWeight cfg "PURCHASE" = cfg.EventWeights.Purchase := by
  refine ⟨?_, ?_, ?_, ?_, ?_⟩
  · unfold processor.processEvent
    simp only [updateCoView_popularity]
    rw [IncrPopularity_popularity]
    · simp [scoreOf_zincrby]
    · simpa [RedisStore.failing] using hok
  · simp [processor.getEventWeight, EventTypeView]
  · simp [processor.getEventWeight, EventTypeView, EventTypeClick]
  · simp [processor.getEventWeight, EventTypeView, EventTypeClick, EventTypeCart]
  · simp [processor.getEventWeight, EventTypeView, EventTypeClick, EventTypeCart,
      EventTypePurchase]

theorem processEvent_popularity_witness :
    scoreOf (processor.processEvent sampleConfig popularStore
        { UserID := 3, ItemID := 1, EventType := "PURCHASE" }).2.data.popularity (FormatInt 1) =
      scoreOf popularStore.data.popularity (FormatInt 1) +
        processor.getEventWeight sampleConfig "PURCHASE" ∧
    processor.getEventWeight sampleConfig "VIEW" = sampleConfig.EventWeights.View ∧
    processor.getEventWeight sampleConfig "CLICK" = sampleConfig.EventWeights.Click ∧
    processor.getEventWeight sampleConfig "CART" = sampleConfig.EventWeights.Cart ∧
    processor.getEventWeight sampleConfig "PURCHASE" = sampleConfig.EventWeights.Purchase :=
  processEvent_popularity sampleConfig popularStore
    { UserID := 3, ItemID := 1, EventType := "PURCHASE" } rfl

/-! ## C9: co-view increments -/

theorem IncrCoView_score (r : RedisStore) (hnf : NeverFails r) (x y a b : Int) :
    scoreOf ((r.IncrCoView x y).2.data.coView a) (FormatInt b) =
      scoreOf (r.data.coView a) (FormatInt b) + (if a = x ∧ b = y then 1 else 0) := by
  rw [IncrCoView_coView r x y (failing_of_neverFails hnf _)]
  by_cases hax : a = x
  · subst hax
    rw [Function.update_same, scoreOf_zincrby]
    by_cases hby : b = y
    · subst hby
      simp
    · have hne : ¬ FormatInt y = FormatInt b := fun e => hby (FormatInt_injective e).symm
      simp [hby, hne]
  · rw [Function.update_noteq hax]
    simp [hax]

/-- One entry of the window adds one to each direction of the pair when it
denotes the other item. -/
theorem coViewStep_score (itemID other : Int) (hne : other ≠ itemID) (r : RedisStore)
    (hnf : NeverFails r) (str : String) :
    scoreOf ((processor.coViewStep itemID r str).data.coView itemID) (FormatInt other) =
      scoreOf (r.data.coView itemID) (FormatInt other) +
        (if ParseInt str = some other then 1 else 0) ∧
    scoreOf ((processor.coViewStep itemID r str).data.coView other) (FormatInt itemID) =
      scoreOf (r.data.coView other) (FormatInt itemID) +
        (if ParseInt str = some other then 1 else 0) := by
  have hne2 : ¬ itemID = other := fun e => hne e.symm
  unfold processor.coViewStep
  cases hp : ParseInt str with
  | none => simp
  | some id =>
    simp only
    by_cases hid : id = itemID
    · have h1 : ¬ (some id = some other) := by
        rw [hid]
        simpa using hne2
      simp [hid, hne2]
    · have hnf1 : NeverFails (r.IncrCoView itemID id).2 :=
        neverFails_of_fails_eq hnf (by simp)
      simp only [hid, if_false]
      rw [IncrCoView_score _ hnf1, IncrCoView_score _ hnf, IncrCoView_score _ hnf1,
        IncrCoView_score _ hnf]
      by_cases ho : id = other
      · subst ho
        simp [hid, hne2]
      · have ho2 : ¬ other = id := fun e => ho e.symm
        simp [ho, ho2, hne, hne2]

theorem foldl_coViewStep_score (itemID other : Int) (hne : other ≠ itemID) (l : List String)
    (r : RedisStore) (hnf : NeverFails r) :
    scoreOf ((l.foldl (processor.coViewStep itemID) r).data.coView itemID) (FormatInt other) =
      scoreOf (r.data.coView itemID) (FormatInt other) + (occurrences l other : ℚ) ∧
    scoreOf ((l.foldl (processor.coViewStep itemID) r).data.coView other) (FormatInt itemID) =
      scoreOf (r.data.coView other) (FormatInt itemID) + (occurrences l other : ℚ) := by
  induction l generalizing r with
  | nil => simp [occurrences]
  | cons str t ih =>
    have hnf1 : NeverFails (processor.coViewStep itemID r str) :=
      neverFails_of_fails_eq hnf (by simp)
    obtain ⟨h1, h2⟩ := coViewStep_score itemID other hne r hnf str
    obtain ⟨i1, i2⟩ := ih (processor.coViewStep itemID r str) hnf1
    simp only [List.foldl_cons]
    rw [i1, i2, h1, h2]
    by_cases hp : ParseInt str = some other
    · simp [occurrences, List.countP_cons, hp]
      constructor <;> ring
    · simp [occurrences, List.countP_cons, hp]

/-- C9, the claim fails when the recent list holds an item twice: user 1 has
viewed item 200 twice; applying `VIEW(user=1, item=100)` raises
`coview[100][200]` and `coview[200][100]` from 0 to 2, not to 1. -/
theorem coview_duplicate_counts_twice :
    "200" ∈ twiceViewedStore.data.recent 1 ∧
    scoreOf (twiceViewedStore.data.coView 100) (FormatInt 200) = 0 ∧
    scoreOf (twiceViewedStore.data.coView 200) (FormatInt 100) = 0 ∧
    scoreOf ((processor.processEvent sampleConfig twiceViewedStore
      (viewEvent 1 100)).2.data.coView 100) (FormatInt 200) = 2 ∧
    scoreOf ((processor.processEvent sampleConfig twiceViewedStore
      (viewEvent 1 100)).2.data.coView 200) (FormatInt 100) = 2 := by
  decide!

/-- C9, amended: for every event `e` for user `U` applied with every store
operation succeeding, and every item `I_prev ≠ e.item_id`, both
`coview[e.item_id][I_prev]` and `coview[I_prev][e.item_id]` are increased by
exactly the number of entries denoting `I_prev` in the window
`get_recent(U, W_coview)` read after `add_recent`: by 1 for an item occurring
once in that window, by its multiplicity when it occurs several times. -/
theorem processEvent_coview (cfg : Config) (r : RedisStore) (e : Event) (hnf : NeverFails r)
    (I_prev : Int) (hne : I_prev ≠ e.ItemID) :
    scoreOf ((processor.processEvent cfg r e).2.data.coView e.ItemID) (FormatInt I_prev) =
      scoreOf (r.data.coView e.ItemID) (FormatInt I_prev) +
        (occurrences (coviewWindow cfg r e) I_prev : ℚ) ∧
    scoreOf ((processor.processEvent cfg r e).2.data.coView I_prev) (FormatInt e.ItemID) =
      scoreOf (r.data.coView I_prev) (FormatInt e.ItemID) +
        (occurrences (coviewWindow cfg r e) I_prev : ℚ) := by
  have hnf1 : NeverFails (r.AddRecentItem e.UserID e.ItemID cfg.RecentItemsLimit).2 :=
    neverFails_of_fails_eq hnf (by simp)
  have hnf2 : NeverFails ((r.AddRecentItem e.UserID e.ItemID cfg.RecentItemsLimit).2.IncrPopularity
      e.ItemID (processor.getEventWeight cfg e.EventType)).2 :=
    neverFails_of_fails_eq hnf1 (by simp)
  unfold processor.processEvent
  simp only
  generalize hr2 : ((r.AddRecentItem e.UserID e.ItemID cfg.RecentItemsLimit).2.IncrPopularity
      e.ItemID (processor.getEventWeight cfg e.EventType)).2 = r2 at hnf2
  have hcv : r2.data.coView = r.data.coView := by
    rw [← hr2]
    simp
  have hrec : r2.data.recent e.UserID =
      ltrim (lpush (r.data.recent e.UserID) (FormatInt e.ItemID)) 0
        (wrapInt64 (cfg.RecentItemsLimit - 1)) := by
    rw [← hr2, IncrPopularity_recent,
      AddRecentItem_recent _ _ _ _ (failing_of_neverFails hnf _), Function.update_same]
  have hupd : (processor.updateCoView cfg r2 e).2 =
      (coviewWindow cfg r e).foldl (processor.coViewStep e.ItemID)
        (r2.record (Op.GetRecentItems e.UserID cfg.CoviewWindow)) := by
    unfold processor.updateCoView
    rcases hg : r2.GetRecentItems e.UserID cfg.CoviewWindow with ⟨res, r3⟩
    have h1 := GetRecentItems_fst r2 e.UserID cfg.CoviewWindow (failing_of_neverFails hnf2 _)
    have h2 := GetRecentItems_snd r2 e.UserID cfg.CoviewWindow
    rw [hg] at h1 h2
    simp only at h1 h2
    rw [h1, h2, hrec]
    rfl
  rw [hupd]
  have hnf3 : NeverFails (r2.record (Op.GetRecentItems e.UserID cfg.CoviewWindow)) :=
    neverFails_of_fails_eq hnf2 rfl
  have := foldl_coViewStep_score e.ItemID I_prev hne (coviewWindow cfg r e) _ hnf3
  simpa [hcv] using this

theorem processEvent_coview_witness :
    scoreOf ((processor.processEvent sampleConfig twiceViewedStore
        (viewEvent 1 100)).2.data.coView 100) (FormatInt 200) =
      scoreOf (twiceViewedStore.data.coView 100) (FormatInt 200) +
        (occurrences (coviewWindow sampleConfig twiceViewedStore (viewEvent 1 100)) 200 : ℚ) ∧
    scoreOf ((processor.processEvent sampleConfig twiceViewedStore
        (viewEvent 1 100)).2.data.coView 200) (FormatInt 100) =
      scoreOf (twiceViewedStore.data.coView 200) (FormatInt 100) +
        (occurrences (coviewWindow sampleConfig twiceViewedStore (viewEvent 1 100)) 200 : ℚ) :=
  processEvent_coview sampleConfig twiceViewedStore (viewEvent 1 100) (fun _ _ => rfl) 200
    (by decide)

/-! ## C10: the recent list stays bounded, newest first -/

theorem addRecentAll_fails (r : RedisStore) (U L : Int) (items : List Int) :
    (addRecentAll r U L items).fails = r.fails := by
  unfold addRecentAll
  exact foldl_invariant (fun st : RedisStore => st.fails = r.fails) _
    (fun b a hb => by simpa using hb) items r rfl

/-- One successful `add_recent` with a limit `L ≥ 1`. -/
theorem AddRecentItem_bounded (r : RedisStore) (U i L : Int) (hL : 1 ≤ L) (hL64 : IsInt64 L)
    (hok : r.failing (Op.AddRecentItem U i L) = false) :
    (((r.AddRecentItem U i L).2.data.recent U).length : Int) ≤ L ∧
    ((r.AddRecentItem U i L).2.data.recent U).head? = some (FormatInt i) := by
  have hw : wrapInt64 (L - 1) = L - 1 := by
    apply wrapInt64_of_isInt64
    unfold IsInt64 at *
    omega
  rw [AddRecentItem_recent r U i L hok, Function.update_same, hw]
  unfold ltrim lpush
  rw [redisRange_zero _ _ (by omega)]
  constructor
  · rw [List.length_take]
    omega
  · simp

/-- C10: for every user, every limit `L_recent ≥ 1` and every non-empty
sequence of successful `add_recent(U, I, L_recent)` calls from any store state,
after the last call (so after each call) the user's recent list has at most
`L_recent` entries and the item just added is at its head. -/
theorem addRecent_bounded_newest_first (r : RedisStore) (U L : Int) (items : List Int)
    (i : Int) (hL : 1 ≤ L) (hL64 : IsInt64 L)
    (hok : ∀ k j, r.fails k (Op.AddRecentItem U j L) = false) :
    (((addRecentAll r U L (items ++ [i])).data.recent U).length : Int) ≤ L ∧
    ((addRecentAll r U L (items ++ [i])).data.recent U).head? = some (FormatInt i) := by
  have hstep : addRecentAll r U L (items ++ [i]) =
      ((addRecentAll r U L items).AddRecentItem U i L).2 := by
    simp [addRecentAll, List.foldl_append]
  rw [hstep]
  apply AddRecentItem_bounded _ U i L hL hL64
  unfold RedisStore.failing
  rw [addRecentAll_fails]
  exact hok _ _

theorem addRecent_bounded_newest_first_witness :
    (((addRecentAll twiceViewedStore 1 2 ([300, 400] ++ [500])).data.recent 1).length : Int) ≤ 2 ∧
    ((addRecentAll twiceViewedStore 1 2 ([300, 400] ++ [500])).data.recent 1).head? =
      some (FormatInt 500) :=
  addRecent_bounded_newest_first twiceViewedStore 1 2 [300, 400] 500 (by decide) (by decide)
    (fun _ _ => rfl)

/-! ## C11: poison messages -/

/-- C11, the claim fails on the commit: after the loop has handled a message
whose payload is not JSON, no commit has been issued and no offset is
committed; the error counter is 1 and the message counts as consumed. -/
theorem poison_message_is_not_committed :
    (sampleProcessor.jsonUnmarshal poisonMessage.Value).isOk = false ∧
    (sampleProcessor.Start emptyState [⟨false, .message poisonMessage⟩]).1.reader.committed = [] ∧
    (sampleProcessor.Start emptyState [⟨false, .message poisonMessage⟩]).1.reader.commitAttempts
      = 0 ∧
    (sampleProcessor.Start emptyState
      [⟨false, .message poisonMessage⟩]).1.metrics.EventProcessingErrors = 1 := by
  decide

/-- C11, amended: for every fetched message whose payload does not decode as
Event JSON, the loop does not commit the message's offset (no commit is
issued), goes on with the next fetch (it does not block the stream), increments
`event_processing_errors_total` by 1, leaves `events_processed_total` and the
feature store unchanged. -/
theorem poison_message_counted_not_committed (s : processor.Service) (st : processor.State)
    (msg : ingest.Message) (ts : List processor.Turn)
    (hbad : (s.jsonUnmarshal msg.Value).isOk = false) :
    s.Start st (⟨false, .message msg⟩ :: ts) = s.Start (s.handleMessage st msg) ts ∧
    (s.handleMessage st msg).reader = st.reader ∧
    (s.handleMessage st msg).metrics.EventProcessingErrors =
      st.metrics.EventProcessingErrors + 1 ∧
    (s.handleMessage st msg).metrics.EventsProcessed = st.metrics.EventsProcessed ∧
    (s.handleMessage st msg).store = st.store := by
  have hpm : s.processMessage st msg = (some "failed to unmarshal event", st) := by
    unfold processor.Service.processMessage
    cases hu : s.jsonUnmarshal msg.Value with
    | error e => rfl
    | ok ev => simp [hu, Except.isOk, Except.toBool] at hbad
  refine ⟨rfl, ?_, ?_, ?_, ?_⟩ <;> simp [processor.Service.handleMessage, hpm]

theorem poison_message_counted_not_committed_witness :
    sampleProcessor.Start emptyState (⟨false, .message poisonMessage⟩ :: []) =
      sampleProcessor.Start (sampleProcessor.handleMessage emptyState poisonMessage) [] ∧
    (sampleProcessor.handleMessage emptyState poisonMessage).reader = emptyState.reader ∧
    (sampleProcessor.handleMessage emptyState poisonMessage).metrics.EventProcessingErrors =
      emptyState.metrics.EventProcessingErrors + 1 ∧
    (sampleProcessor.handleMessage emptyState poisonMessage).metrics.EventsProcessed =
      emptyState.metrics.EventsProcessed ∧
    (sampleProcessor.handleMessage emptyState poisonMessage).store = emptyState.store :=
  poison_message_counted_not_committed sampleProcessor emptyState poisonMessage [] (by decide)

/-! ## C12: the reason tag -/

/-- C12: `determineReason` answers `co_view` exactly when the co-view partial
score is strictly greater than both the embedding and the popularity partial
scores; otherwise `embedding` exactly when embedding is strictly greater than
popularity; otherwise `popular`. -/
theorem determineReason_cases (c : api.candidateScore) :
    (api.determineReason c = "co_view" ↔
      (c.coviewScore > c.embeddingScore ∧ c.coviewScore > c.popularityScore)) ∧
    (api.determineReason c = "embedding" ↔
      (¬ (c.coviewScore > c.embeddingScore ∧ c.coviewScore > c.popularityScore) ∧
        c.embeddingScore > c.popularityScore)) ∧
    (api.determineReason c = "popular" ↔
      (¬ (c.coviewScore > c.embeddingScore ∧ c.coviewScore > c.popularityScore) ∧
        ¬ c.embeddingScore > c.popularityScore)) := by
  unfold api.determineReason
  by_cases h1 : c.coviewScore > c.embeddingScore ∧ c.coviewScore > c.popularityScore
  · simp [h1]
  · by_cases h2 : c.embeddingScore > c.popularityScore
    · simp [h1, h2]
    · simp [h1, h2]

/-! ## C13: popular items -/

theorem popularEntry_eq (pg : PostgresStore) (category : String) (z : Z) (itemID : Int)
    (hp : ParseInt z.Member = some itemID) :
    popularEntry pg category z =
      if (if category ≠ "" then
            match pg.GetItem itemID with
            | .error _ => true
            | .ok item => decide (item.Category ≠ category)
          else false) = true then none
      else some ⟨itemID, z.Score, "popular"⟩ := by
  unfold popularEntry
  rw [hp]
  by_cases hc : category = ""
  · simp [hc]
  · cases hg : pg.GetItem itemID with
    | error e => simp [hc, hg]
    | ok item =>
      by_cases hi : item.Category = category
      · simp [hc, hg, hi]
      · simp [hc, hg, hi]

/-- The loop keeps, after what it already holds, the entries of the members
it visits, stopping as soon as it holds `count` entries. -/
theorem popularItemsLoop_eq (pg : PostgresStore) (category : String) (count : Int)
    (zs : List Z) (acc : List Recommendation) (hacc : (acc.length : Int) < count) :
    api.popularItemsLoop pg category count zs acc =
      acc ++ (zs.filterMap (popularEntry pg category)).take (count.toNat - acc.length) := by
  induction zs generalizing acc with
  | nil => simp [api.popularItemsLoop]
  | cons z t ih =>
    unfold api.popularItemsLoop
    cases hp : ParseInt z.Member with
    | none =>
      have hq : popularEntry pg category z = none := by simp [popularEntry, hp]
      simp only [List.filterMap_cons, hq]
      exact ih acc hacc
    | some itemID =>
      have hq := popularEntry_eq pg category z itemID hp
      simp only
      by_cases hd : (if category ≠ "" then
            match pg.GetItem itemID with
            | .error _ => true
            | .ok item => decide (item.Category ≠ category)
          else false) = true
      · rw [if_pos hd] at hq
        rw [if_pos hd]
        simp only [List.filterMap_cons, hq]
        exact ih acc hacc
      · rw [if_neg hd] at hq
        rw [if_neg hd]
        simp only [List.filterMap_cons, hq]
        have hk : count.toNat - acc.length = (count.toNat - (acc.length + 1)) + 1 := by omega
        by_cases hfull : ((acc ++ [(⟨itemID, z.Score, "popular"⟩ : Recommendation)]).length : Int)
            ≥ count
        · rw [if_pos hfull]
          rw [List.length_append, List.length_singleton] at hfull
          have h0 : count.toNat - (acc.length + 1) = 0 := by
            push_cast at hfull
            omega
          rw [hk, h0]
          simp
        · rw [if_neg hfull]
          rw [ih _ (not_le.mp hfull)]
          rw [hk, List.take_succ_cons, List.length_append, List.length_singleton]
          simp

/-- The popular-items query on the code, for every `N > 0`, every category
and every state in which the read succeeds: `GetPopularItems` returns the first
`N` entries kept from the list read, in its order and skipping no member that
qualifies: at most `N` entries, each with reason `popular`, the id and score
of a member of the list, and, when a category is given, an item whose lookup
succeeds with that category.  The read is `GetPopularItems(count*2)` with the
product taken in 64-bit arithmetic. -/
theorem GetPopularItems_filtered_prefix (s : api.Service) (r : RedisStore)
    (pg : PostgresStore) (category : String) (N : Int) (hN : 0 < N)
    (hread : r.failing (Op.GetPopularItems (wrapInt64 (N * 2))) = false) :
    ∃ recs, (s.GetPopularItems r pg category N).1 = .ok recs ∧
      recs = ((top_popular r.data (wrapInt64 (N * 2))).filterMap
        (popularEntry pg category)).take N.toNat ∧
      (recs.length : Int) ≤ N ∧
      ∀ rec ∈ recs, rec.Reason = "popular" ∧
        (∃ z ∈ top_popular r.data (wrapInt64 (N * 2)),
          ParseInt z.Member = some rec.ItemID ∧ rec.Score = z.Score) ∧
        (category ≠ "" → ∃ item, pg.GetItem rec.ItemID = .ok item ∧ item.Category = category) := by
  have hres : (s.GetPopularItems r pg category N).1 =
      .ok (((top_popular r.data (wrapInt64 (N * 2))).filterMap
        (popularEntry pg category)).take N.toNat) := by
    unfold api.Service.GetPopularItems RedisStore.GetPopularItems
    simp only [hread, Bool.false_eq_true, if_false]
    rw [popularItemsLoop_eq pg category N _ [] (by simpa using hN)]
    simp [top_popular]
  refine ⟨_, hres, rfl, ?_, ?_⟩
  · rw [List.length_take]
    omega
  · intro rec hrec
    have hmem := List.mem_of_mem_take hrec
    obtain ⟨z, hz, hq⟩ := List.mem_filterMap.mp hmem
    unfold popularEntry at hq
    cases hp : ParseInt z.Member with
    | none => simp [hp] at hq
    | some itemID =>
      rw [hp] at hq
      simp only at hq
      by_cases hc : category = ""
      · rw [if_pos hc] at hq
        have hr : rec = ⟨itemID, z.Score, "popular"⟩ := (Option.some.inj hq).symm
        rw [hr]
        exact ⟨rfl, ⟨z, hz, hp, rfl⟩, fun h => absurd hc h⟩
      · rw [if_neg hc] at hq
        cases hg : pg.GetItem itemID with
        | error e => simp [hg] at hq
        | ok item =>
          rw [hg] at hq
          simp only at hq
          by_cases hi : item.Category = category
          · rw [if_pos hi] at hq
            have hr : rec = ⟨itemID, z.Score, "popular"⟩ := (Option.some.inj hq).symm
            rw [hr]
            exact ⟨rfl, ⟨z, hz, hp, rfl⟩, fun _ => ⟨item, hg, hi⟩⟩
          · rw [if_neg hi] at hq
            cases hq

theorem GetPopularItems_filtered_prefix_witness :
    ∃ recs, (sampleService.GetPopularItems storeS6 catalogS6 "books" 5).1 = .ok recs ∧
      recs = ((top_popular storeS6.data (wrapInt64 (5 * 2))).filterMap
        (popularEntry catalogS6 "books")).take (5 : Int).toNat ∧
      (recs.length : Int) ≤ 5 ∧
      ∀ rec ∈ recs, rec.Reason = "popular" ∧
        (∃ z ∈ top_popular storeS6.data (wrapInt64 (5 * 2)),
          ParseInt z.Member = some rec.ItemID ∧ rec.Score = z.Score) ∧
        ("books" ≠ "" → ∃ item, catalogS6.GetItem rec.ItemID = .ok item ∧
          item.Category = "books") :=
  GetPopularItems_filtered_prefix sampleService storeS6 catalogS6 "books" 5 (by decide) rfl

/-- Scenario S6 on the code: with items 1 and 2 in `books` and item 3 in
`toys`, `popular(books, 5)` returns items 1 and 2 in order of popularity. -/
theorem scenarioS6_books :
    (sampleService.GetPopularItems storeS6 catalogS6 "books" 5).1 =
      .ok [⟨1, 4, "popular"⟩, ⟨2, 2, "popular"⟩] := by
  decide!

/-- The popular-items query as the claim C13 states it, for every
`0 < N < 2^62`, every category and every state in which the read succeeds:
`GetPopularItems` returns the first `N` entries kept from `top_popular(2N)`,
in its order and skipping no member that qualifies: at most `N` entries, each
with reason `popular`, the id and score of a member of `top_popular(2N)`, and,
when a category is given, an item whose lookup succeeds with that category. -/
theorem GetPopularItems_in_range (s : api.Service) (r : RedisStore)
    (pg : PostgresStore) (category : String) (N : Int) (hN : 0 < N) (hN2 : N < 2 ^ 62)
    (hread : r.failing (Op.GetPopularItems (2 * N)) = false) :
    ∃ recs, (s.GetPopularItems r pg category N).1 = .ok recs ∧
      recs = ((spec_top_popular r.data (2 * N)).filterMap
        (popularEntry pg category)).take N.toNat ∧
      (recs.length : Int) ≤ N ∧
      ∀ rec ∈ recs, rec.Reason = "popular" ∧
        (∃ z ∈ spec_top_popular r.data (2 * N),
          ParseInt z.Member = some rec.ItemID ∧ rec.Score = z.Score) ∧
        (category ≠ "" → ∃ item, pg.GetItem rec.ItemID = .ok item ∧ item.Category = category) := by
  have hw : wrapInt64 (N * 2) = 2 * N :=
    wrapInt64_double N (by unfold IsInt64; constructor <;> omega)
  have ht := top_popular_eq_spec r.data (2 * N) (by omega) (by omega)
  have h := GetPopularItems_filtered_prefix s r pg category N hN (by rw [hw]; exact hread)
  rw [hw, ht] at h
  exact h

theorem GetPopularItems_in_range_witness :
    ∃ recs, (sampleService.GetPopularItems storeS6 catalogS6 "books" 5).1 = .ok recs ∧
      recs = ((spec_top_popular storeS6.data (2 * 5)).filterMap
        (popularEntry catalogS6 "books")).take (5 : Int).toNat ∧
      (recs.length : Int) ≤ 5 ∧
      ∀ rec ∈ recs, rec.Reason = "popular" ∧
        (∃ z ∈ spec_top_popular storeS6.data (2 * 5),
          ParseInt z.Member = some rec.ItemID ∧ rec.Score = z.Score) ∧
        ("books" ≠ "" → ∃ item, catalogS6.GetItem rec.ItemID = .ok item ∧
          item.Category = "books") :=
  GetPopularItems_in_range sampleService storeS6 catalogS6 "books" 5 (by decide) (by decide) rfl

/-- C13, the code misses the claim when `count*2` overflows.  The popularity
set holds items 3, 1 and 2 with scores 5, 4 and 2, and no category is asked
for, so for `N = 2^62 + 1` all three members of `top_popular(2N)` qualify.
`GetPopularItems` computes `count*2` in 64-bit arithmetic, reads
`GetPopularItems(-9223372036854775806)`, which returns nothing, and returns
the empty list: every qualifying member is skipped.
`GET /popular?count=4611686018427387905` is answered 200 with that empty
list. -/
theorem popular_count_overflow :
    spec_top_popular storeS6.data (2 * overflowCount) = [⟨"3", 5⟩, ⟨"1", 4⟩, ⟨"2", 2⟩] ∧
    (spec_top_popular storeS6.data (2 * overflowCount)).filterMap (popularEntry catalogS6 "") =
      [⟨3, 5, "popular"⟩, ⟨1, 4, "popular"⟩, ⟨2, 2, "popular"⟩] ∧
    (sampleService.GetPopularItems storeS6 catalogS6 "" overflowCount).1 = .ok [] ∧
    (sampleService.GetPopularItems storeS6 catalogS6 "" overflowCount).2.calls =
      [Op.GetPopularItems (-9223372036854775806)] ∧
    api.HandleGetPopular sampleService storeS6 catalogS6 queryPopularOverflow =
      (200, some []) := by
  decide!

/-! ## C14: validation of `GET /recommendations` -/

theorem handler_called (s : api.Service) (r : RedisStore) (q : api.Query) (u : String)
    (uid : Int) (cs : String) (n : Int) (hu : q.get "user_id" = u) (hne : u ≠ "")
    (hp : ParseInt u = some uid) (hc : q.getDefault "count" "10" = cs)
    (hn : ParseInt cs = some n) (hpos : 0 < n) :
    (api.HandleGetRecommendations s r q).call = some (uid, n) ∧
    (api.HandleGetRecommendations s r q).reco = some (s.GetRecommendations r uid n) ∧
    (api.HandleGetRecommendations s r q).status =
      (if (s.GetRecommendations r uid n).result.isOk then StatusOK
       else StatusInternalServerError) := by
  have hle : ¬ n ≤ 0 := not_le.mpr hpos
  unfold api.HandleGetRecommendations
  simp only [hu, hne, if_false, hp, hc, api.Atoi, hn, hle]
  cases hres : (s.GetRecommendations r uid n).result with
  | error e => simp [Except.isOk, Except.toBool]
  | ok resp => simp [Except.isOk, Except.toBool]

/-- C14: `HandleGetRecommendations` answers 400 without calling the
recommender when `user_id` is missing or empty, when it is not a 64-bit decimal
integer, and when `count` is given but is not an integer or is `≤ 0`; with
`count` absent the recommender is called with the parsed `user_id` and 10; in
every other case it is called with the parsed `user_id` and `count`, and the
answer is 200 or, when the call fails, 500. -/
theorem HandleGetRecommendations_validation (s : api.Service) (r : RedisStore) (q : api.Query) :
    ((q "user_id" = none ∨ q "user_id" = some "") →
      (api.HandleGetRecommendations s r q).status = 400 ∧
      (api.HandleGetRecommendations s r q).call = none) ∧
    (∀ u, q "user_id" = some u → ParseInt u = none →
      (api.HandleGetRecommendations s r q).status = 400 ∧
      (api.HandleGetRecommendations s r q).call = none) ∧
    (∀ u c, q "user_id" = some u → q "count" = some c →
      (ParseInt c = none ∨ ∃ n, ParseInt c = some n ∧ n ≤ 0) →
      (api.HandleGetRecommendations s r q).status = 400 ∧
      (api.HandleGetRecommendations s r q).call = none) ∧
    (∀ u uid, q "user_id" = some u → u ≠ "" → ParseInt u = some uid → q "count" = none →
      (api.HandleGetRecommendations s r q).call = some (uid, 10) ∧
      (api.HandleGetRecommendations s r q).reco = some (s.GetRecommendations r uid 10) ∧
      (api.HandleGetRecommendations s r q).status =
        (if (s.GetRecommendations r uid 10).result.isOk then 200 else 500)) ∧
    (∀ u uid c n, q "user_id" = some u → u ≠ "" → ParseInt u = some uid →
      q "count" = some c → ParseInt c = some n → 0 < n →
      (api.HandleGetRecommendations s r q).call = some (uid, n) ∧
      (api.HandleGetRecommendations s r q).reco = some (s.GetRecommendations r uid n) ∧
      (api.HandleGetRecommendations s r q).status =
        (if (s.GetRecommendations r uid n).result.isOk then 200 else 500)) := by
  have hten : ParseInt "10" = some 10 := by decide!
  refine ⟨?_, ?_, ?_, ?_, ?_⟩
  · intro h
    have hu : q.get "user_id" = "" := by
      rcases h with h | h <;> simp [api.Query.get, h]
    simp [api.HandleGetRecommendations, hu, StatusBadRequest]
  · intro u hu hp
    have hget : q.get "user_id" = u := by simp [api.Query.get, hu]
    unfold api.HandleGetRecommendations
    simp only [hget, hp]
    split <;> simp [StatusBadRequest]
  · intro u c hu hc hbad
    have hget : q.get "user_id" = u := by simp [api.Query.get, hu]
    have hcount : q.getDefault "count" "10" = c := by simp [api.Query.getDefault, hc]
    unfold api.HandleGetRecommendations
    simp only [hget, hcount, api.Atoi]
    split
    · simp [StatusBadRequest]
    · split
      · simp [StatusBadRequest]
      · rcases hbad with hbad | ⟨n, hn, hle⟩
        · simp [hbad, StatusBadRequest]
        · simp [hn, hle, StatusBadRequest]
  · intro u uid hu hne hp hc
    exact handler_called s r q u uid "10" 10 (by simp [api.Query.get, hu]) hne hp
      (by simp [api.Query.getDefault, hc]) hten (by decide)
  · intro u uid c n hu hne hp hc hn hpos
    exact handler_called s r q u uid c n (by simp [api.Query.get, hu]) hne hp
      (by simp [api.Query.getDefault, hc]) hn hpos

theorem HandleGetRecommendations_validation_witness :
    (api.HandleGetRecommendations sampleService popularStore emptyQuery).status = 400 ∧
    (api.HandleGetRecommendations sampleService popularStore emptyQuery).call = none :=
  (HandleGetRecommendations_validation sampleService popularStore emptyQuery).1 (Or.inl rfl)

/-! ## C15: a failed co-view lookup -/

/-- C15, at the failing input: user 1 has seed 100 whose KNN list is `[200]`.
When the co-view lookup of the seed fails, `generateRecommendations` never
issues the KNN lookup of that seed and returns nothing; when it succeeds (with
the same data) the neighbour 200 is returned with reason `embedding`. -/
theorem failed_coview_lookup_skips_knn :
    (sampleService.generateRecommendations (knnStore true) 1 3).1 = .ok [] ∧
    Op.GetItemKNN 100 20 ∉ (sampleService.generateRecommendations (knnStore true) 1 3).2.calls ∧
    (sampleService.generateRecommendations (knnStore false) 1 3).1 =
      .ok [⟨200, 1, "embedding"⟩] := by
  decide!

/-! ## C16: an unreachable feature store -/

theorem gatherCandidates_unreachable (s : api.Service) (r : RedisStore) (U N : Int)
    (hfail : ∀ k op, r.fails k op = true) : (s.gatherCandidates r U N).2 = [] := by
  have hrec : api.recentOf (r.GetRecentItems U 5).1 = [] := by
    simp [RedisStore.GetRecentItems, RedisStore.failing, hfail, api.recentOf]
  unfold api.Service.gatherCandidates
  simp only [hrec, List.foldl_nil, GetRecentItems_snd]
  unfold api.popularFallback
  split
  · simp [RedisStore.GetPopularItems, RedisStore.failing, hfail]
  · rfl

/-- C16, the code misses the claim: with every feature-store operation
failing, `recommend(1, 3)` reports no error but a response with no
recommendations, and `GET /recommendations?user_id=1&count=3` is answered 200
where the claim says 500. -/
theorem unreachable_store_answers_200 :
    (sampleService.GetRecommendations unreachableStore 1 3).result = .ok ⟨1, []⟩ ∧
    (api.HandleGetRecommendations sampleService unreachableStore queryUser1).status = 200 := by
  decide!

/-- The defect behind C16 for every user and count: if every feature-store
operation fails, `recommend(U, N)` with `N > 0` reports no error; it returns a
response for `U` with an empty list of recommendations, which the handler
answers with HTTP 200. -/
theorem GetRecommendations_unreachable (s : api.Service) (r : RedisStore) (U N : Int)
    (hN : 0 < N) (hfail : ∀ k op, r.fails k op = true) :
    (s.GetRecommendations r U N).result = .ok ⟨U, []⟩ ∧
    ∀ (q : api.Query) (u c : String), q.get "user_id" = u → u ≠ "" → ParseInt u = some U →
      q.getDefault "count" "10" = c → ParseInt c = some N →
      (api.HandleGetRecommendations s r q).status = 200 := by
  have hres : (s.GetRecommendations r U N).result = .ok ⟨U, []⟩ := by
    have hc : s.getCachedRecommendations r U =
        (.error Err.Backend, r.record (Op.GetCachedRecommendations U)) := by
      simp [api.Service.getCachedRecommendations, RedisStore.GetCachedRecommendations,
        RedisStore.failing, hfail]
    have hg := gatherCandidates_unreachable s (r.record (Op.GetCachedRecommendations U)) U N
      (fun k op => by simpa using hfail k op)
    have hrank : api.rankCandidates s N [] = .ok [] := by
      have hlt : ¬ ((0 : Int) > N) := by omega
      simp [api.rankCandidates, api.mapRange, api.sortSlice, hlt]
    unfold api.Service.GetRecommendations
    rw [hc]
    simp only [api.Service.generateRecommendations, hg, hrank]
  refine ⟨hres, ?_⟩
  intro q u c hu hne hp hc hn
  have h := (handler_called s r q u U c N hu hne hp hc hn hN).2.2
  rw [h, hres]
  rfl

theorem GetRecommendations_unreachable_witness :
    (sampleService.GetRecommendations unreachableStore 1 3).result = .ok ⟨1, []⟩ ∧
    ∀ (q : api.Query) (u c : String), q.get "user_id" = u → u ≠ "" → ParseInt u = some 1 →
      q.getDefault "count" "10" = c → ParseInt c = some 3 →
      (api.HandleGetRecommendations sampleService unreachableStore q).status = 200 :=
  GetRecommendations_unreachable sampleService unreachableStore 1 3 (by decide) (fun _ _ => rfl)

/-- The sibling path of C16: on the same unreachable store `GetPopularItems`
returns the error of its read, and `GET /popular` is answered 500. -/
theorem unreachable_store_popular_is_500 :
    (sampleService.GetPopularItems unreachableStore catalogS6 "" 3).1 = .error Err.Backend ∧
    (api.HandleGetPopular sampleService unreachableStore catalogS6 emptyQuery).1 = 500 := by
  decide!

/-! ## C19: co-view symmetry -/

@[simp] theorem coViewStep_recent (itemID : Int) (r : RedisStore) (str : String) :
    (processor.coViewStep itemID r str).data.recent = r.data.recent := by
  unfold processor.coViewStep
  split
  · rfl
  · split
    · rfl
    · simp

theorem coViewStep_symmetric (itemID : Int) (r : RedisStore) (str : String)
    (hnf : NeverFails r) (hsym : CoViewSymmetric r) :
    CoViewSymmetric (processor.coViewStep itemID r str) := by
  unfold processor.coViewStep
  cases hp : ParseInt str with
  | none => exact hsym
  | some id =>
    simp only
    by_cases hid : id = itemID
    · rw [if_pos hid]
      exact hsym
    · rw [if_neg hid]
      have hnf1 : NeverFails (r.IncrCoView itemID id).2 :=
        neverFails_of_fails_eq hnf (by simp)
      intro a b
      have swap : ∀ (p q : Prop) [Decidable p] [Decidable q],
          (if q ∧ p then (1 : ℚ) else 0) = if p ∧ q then 1 else 0 := by
        intro p q _ _
        by_cases hp1 : p <;> by_cases hq1 : q <;> simp [hp1, hq1]
      rw [IncrCoView_score _ hnf1, IncrCoView_score _ hnf, IncrCoView_score _ hnf1,
        IncrCoView_score _ hnf, hsym a b, swap (a = id) (b = itemID),
        swap (a = itemID) (b = id)]
      ring

/-- C19: if `coview[a][b] = coview[b][a]` for all items before an event, then
after `processEvent` has applied the event with every store operation
succeeding, `coview[a][b] = coview[b][a]` still holds for all items. -/
theorem processEvent_preserves_symmetry (cfg : Config) (r : RedisStore) (e : Event)
    (hnf : NeverFails r) (hsym : CoViewSymmetric r) :
    CoViewSymmetric (processor.processEvent cfg r e).2 := by
  have hnf1 : NeverFails (r.AddRecentItem e.UserID e.ItemID cfg.RecentItemsLimit).2 :=
    neverFails_of_fails_eq hnf (by simp)
  have hnf2 : NeverFails ((r.AddRecentItem e.UserID e.ItemID cfg.RecentItemsLimit).2.IncrPopularity
      e.ItemID (processor.getEventWeight cfg e.EventType)).2 :=
    neverFails_of_fails_eq hnf1 (by simp)
  unfold processor.processEvent
  simp only
  generalize hr2 : ((r.AddRecentItem e.UserID e.ItemID cfg.RecentItemsLimit).2.IncrPopularity
      e.ItemID (processor.getEventWeight cfg e.EventType)).2 = r2 at hnf2
  have hsym2 : CoViewSymmetric r2 := by
    intro a b
    have hcv : r2.data.coView = r.data.coView := by
      rw [← hr2]
      simp
    rw [hcv]
    exact hsym a b
  unfold processor.updateCoView
  rcases hg : r2.GetRecentItems e.UserID cfg.CoviewWindow with ⟨res, r3⟩
  have h2 := GetRecentItems_snd r2 e.UserID cfg.CoviewWindow
  rw [hg] at h2
  simp only at h2
  cases res with
  | error err =>
    simp only
    rw [h2]
    exact hsym2
  | ok recentItems =>
    simp only
    rw [h2]
    have hinv := foldl_invariant
      (fun st : RedisStore => NeverFails st ∧ CoViewSymmetric st)
      (processor.coViewStep e.ItemID)
      (fun b a hb =>
        ⟨neverFails_of_fails_eq hb.1 (by simp), coViewStep_symmetric e.ItemID b a hb.1 hb.2⟩)
      recentItems (r2.record (Op.GetRecentItems e.UserID cfg.CoviewWindow))
      ⟨neverFails_of_fails_eq hnf2 rfl, hsym2⟩
    exact hinv.2

theorem processEvent_preserves_symmetry_witness :
    CoViewSymmetric (processor.processEvent sampleConfig twiceViewedStore (viewEvent 1 100)).2 :=
  processEvent_preserves_symmetry sampleConfig twiceViewedStore (viewEvent 1 100)
    (fun _ _ => rfl) (fun _ _ => rfl)

/-! ## C20: event application under failing store operations -/

@[simp] theorem IncrCoView_calls (r : RedisStore) (a b : Int) :
    (r.IncrCoView a b).2.calls = r.calls ++ [Op.IncrCoView a b] := by
  unfold RedisStore.IncrCoView
  simp only
  split <;> rfl

theorem coViewStep_calls (itemID : Int) (r : RedisStore) (str : String) :
    (processor.coViewStep itemID r str).calls = r.calls ++ incrementsFor itemID str := by
  unfold processor.coViewStep incrementsFor
  cases hp : ParseInt str with
  | none => simp
  | some id =>
    simp only
    split <;> simp

theorem foldl_coViewStep_calls (itemID : Int) (l : List String) (r : RedisStore) :
    (l.foldl (processor.coViewStep itemID) r).calls =
      r.calls ++ l.foldr (fun str ops => incrementsFor itemID str ++ ops) [] := by
  induction l generalizing r with
  | nil => simp
  | cons str t ih =>
    rw [List.foldl_cons, ih, coViewStep_calls, List.foldr_cons, List.append_assoc]

/-- C20: for every decodable message, every store state and every combination
of failing store operations, `processEvent` reports no error and attempts, in
order, `add_recent`, `incr_popularity`, the read of the co-view window and then
both increments of every entry of the window that was read, whether or not
earlier operations failed; the loop then issues the commit of the message and
counts the event as processed, and the offset is committed whenever the commit
call itself succeeds. -/
theorem processEvent_attempts_all_and_commits (s : processor.Service) (st : processor.State)
    (msg : ingest.Message) (e : Event) (hdec : s.jsonUnmarshal msg.Value = .ok e) :
    (processor.processEvent s.cfg st.store e).1 = none ∧
    (processor.processEvent s.cfg st.store e).2.calls =
      st.store.calls ++
        [Op.AddRecentItem e.UserID e.ItemID s.cfg.RecentItemsLimit,
          Op.IncrPopularity e.ItemID (processor.getEventWeight s.cfg e.EventType),
          Op.GetRecentItems e.UserID s.cfg.CoviewWindow] ++
        attemptedIncrements e.ItemID
          ((((st.store.AddRecentItem e.UserID e.ItemID s.cfg.RecentItemsLimit).2.IncrPopularity
            e.ItemID (processor.getEventWeight s.cfg e.EventType)).2.GetRecentItems
            e.UserID s.cfg.CoviewWindow).1) ∧
    (s.handleMessage st msg).store = (processor.processEvent s.cfg st.store e).2 ∧
    (s.handleMessage st msg).reader = (st.reader.CommitMessages msg).2 ∧
    (st.reader.commitFails st.reader.commitAttempts = false →
      (s.handleMessage st msg).reader.committed = st.reader.committed ++ [msg]) ∧
    (s.handleMessage st msg).metrics.EventsProcessed e.EventType =
      st.metrics.EventsProcessed e.EventType + 1 ∧
    (s.handleMessage st msg).metrics.EventProcessingErrors =
      st.metrics.EventProcessingErrors := by
  have hnil : (processor.processEvent s.cfg st.store e).1 = none := rfl
  have hpm : s.processMessage st msg =
      (none, { st with
        store := (processor.processEvent s.cfg st.store e).2
        metrics := { st.metrics with
          EventsProcessed := Function.update st.metrics.EventsProcessed e.EventType
            (st.metrics.EventsProcessed e.EventType + 1) } }) := by
    unfold processor.Service.processMessage
    rw [hdec]
    rfl
  refine ⟨hnil, ?_, ?_, ?_, ?_, ?_, ?_⟩
  · have hcalls : ((st.store.AddRecentItem e.UserID e.ItemID
        s.cfg.RecentItemsLimit).2.IncrPopularity e.ItemID
        (processor.getEventWeight s.cfg e.EventType)).2.calls = st.store.calls ++
        [Op.AddRecentItem e.UserID e.ItemID s.cfg.RecentItemsLimit,
          Op.IncrPopularity e.ItemID (processor.getEventWeight s.cfg e.EventType)] := by
      simp
    unfold processor.processEvent
    simp only
    generalize ((st.store.AddRecentItem e.UserID e.ItemID s.cfg.RecentItemsLimit).2.IncrPopularity
      e.ItemID (processor.getEventWeight s.cfg e.EventType)).2 = r2 at hcalls ⊢
    unfold processor.updateCoView
    rcases hg : r2.GetRecentItems e.UserID s.cfg.CoviewWindow with ⟨res, r3⟩
    have h2 := GetRecentItems_snd r2 e.UserID s.cfg.CoviewWindow
    rw [hg] at h2
    simp only at h2
    cases res with
    | error err =>
      simp only [attemptedIncrements, h2, record_calls, hcalls]
      simp
    | ok window =>
      simp only [attemptedIncrements, h2, foldl_coViewStep_calls, record_calls, hcalls]
      simp
  · simp [processor.Service.handleMessage, hpm]
  · simp [processor.Service.handleMessage, hpm]
  · intro hok
    simp [processor.Service.handleMessage, hpm, processor.KafkaReader.CommitMessages, hok]
  · simp [processor.Service.handleMessage, hpm]
  · simp [processor.Service.handleMessage, hpm]

theorem processEvent_attempts_all_and_commits_witness :
    (processor.processEvent sampleProcessor.cfg emptyState.store (viewEvent 1 100)).1 = none ∧
    (processor.processEvent sampleProcessor.cfg emptyState.store (viewEvent 1 100)).2.calls =
      emptyState.store.calls ++
        [Op.AddRecentItem (viewEvent 1 100).UserID (viewEvent 1 100).ItemID
            sampleProcessor.cfg.RecentItemsLimit,
          Op.IncrPopularity (viewEvent 1 100).ItemID
            (processor.getEventWeight sampleProcessor.cfg (viewEvent 1 100).EventType),
          Op.GetRecentItems (viewEvent 1 100).UserID sampleProcessor.cfg.CoviewWindow] ++
        attemptedIncrements (viewEvent 1 100).ItemID
          ((((emptyState.store.AddRecentItem (viewEvent 1 100).UserID (viewEvent 1 100).ItemID
            sampleProcessor.cfg.RecentItemsLimit).2.IncrPopularity (viewEvent 1 100).ItemID
            (processor.getEventWeight sampleProcessor.cfg (viewEvent 1 100).EventType)).2.GetRecentItems
            (viewEvent 1 100).UserID sampleProcessor.cfg.CoviewWindow).1) ∧
    (sampleProcessor.handleMessage emptyState viewMessage).store =
      (processor.processEvent sampleProcessor.cfg emptyState.store (viewEvent 1 100)).2 ∧
    (sampleProcessor.handleMessage emptyState viewMessage).reader =
      (emptyState.reader.CommitMessages viewMessage).2 ∧
    (emptyState.reader.commitFails emptyState.reader.commitAttempts = false →
      (sampleProcessor.handleMessage emptyState viewMessage).reader.committed =
        emptyState.reader.committed ++ [viewMessage]) ∧
    (sampleProcessor.handleMessage emptyState viewMessage).metrics.EventsProcessed
        (viewEvent 1 100).EventType =
      emptyState.metrics.EventsProcessed (viewEvent 1 100).EventType + 1 ∧
    (sampleProcessor.handleMessage emptyState viewMessage).metrics.EventProcessingErrors =
      emptyState.metrics.EventProcessingErrors :=
  processEvent_attempts_all_and_commits sampleProcessor emptyState viewMessage (viewEvent 1 100)
    (by decide)

/-! ## Parsing a formatted id -/

theorem ParseInt_FormatInt (i : Int) (h : IsInt64 i) : ParseInt (FormatInt i) = some i := by
  unfold IsInt64 at h
  obtain ⟨c, cs, hcs, hc⟩ := formatUint_head i.natAbs
  have hloop := parseUintLoop_formatUint i.natAbs
  have hplus : digitVal '+' = none := by decide
  have hminus : digitVal '-' = none := by decide
  have hu : ParseUint (formatUint i.natAbs) = some i.natAbs := by
    rw [hcs] at hloop ⊢
    exact hloop
  by_cases hneg : i < 0
  · unfold FormatInt ParseInt
    simp only [hneg, if_true, decide_True, or_true, hu]
    have h1 : ¬ (2 ^ 63 < i.natAbs) := by omega
    simp only [Bool.true_eq_false, false_and, if_false, true_and, h1]
    congr 1
    omega
  · have hcp : c ≠ '+' := fun e => hc (e ▸ hplus)
    have hcm : c ≠ '-' := fun e => hc (e ▸ hminus)
    unfold FormatInt ParseInt
    simp only [hneg, if_false, hcs, hcp, hcm, decide_False, or_self]
    rw [← hcs, hu]
    have h1 : ¬ (2 ^ 63 ≤ i.natAbs) := by omega
    simp only [true_and, h1, if_false, Bool.false_eq_true, false_and]
    congr 1
    omega

theorem ParseUint_formatUint (n : Nat) : ParseUint (formatUint n) = some n := by
  obtain ⟨c, cs, hcs, _⟩ := formatUint_head n
  have hloop := parseUintLoop_formatUint n
  rw [hcs] at hloop ⊢
  exact hloop

/-! ## Entries of the candidate map -/

theorem gatherCandidates_eq (s : api.Service) (r : RedisStore) (U N : Int) :
    s.gatherCandidates r U N =
      api.popularFallback (api.recentOf (r.GetRecentItems U 5).1) N (seedCandidates r U) := rfl

theorem lookup_cons_self (k : Int) (v : api.candidateScore) (t : api.Candidates) :
    List.lookup k ((k, v) :: t) = some v := by
  simp [List.lookup]

theorem lookup_cons_ne {k a : Int} (h : k ≠ a) (v : api.candidateScore) (t : api.Candidates) :
    List.lookup k ((a, v) :: t) = List.lookup k t := by
  have hb : (k == a) = false := by simpa using h
  simp [List.lookup, hb]

theorem partialScores_bump (f : api.candidateScore → api.candidateScore) (id k : Int)
    (c : api.Candidates) :
    partialScores (api.bump f id c) k =
      if k = id then f (partialScores c id) else partialScores c k := by
  unfold partialScores
  induction c with
  | nil =>
    by_cases hk : k = id
    · subst hk
      simp [api.bump, lookup_cons_self]
    · simp [api.bump, lookup_cons_ne hk, hk]
  | cons p t ih =>
    obtain ⟨a, v⟩ := p
    by_cases ha : a = id
    · subst ha
      by_cases hk : k = a
      · subst hk
        simp [api.bump, lookup_cons_self]
      · simp [api.bump, lookup_cons_ne hk, hk]
    · have hida : id ≠ a := fun e => ha e.symm
      simp only [api.bump, ha, if_false]
      by_cases hka : k = a
      · subst hka
        simp [lookup_cons_self, ha]
      · rw [lookup_cons_ne hka, lookup_cons_ne hka, lookup_cons_ne hida]
        exact ih

/-- With distinct keys, the partial scores of an entry's item are the entry. -/
theorem partialScores_of_mem (c : api.Candidates) (hnd : (c.map Prod.fst).Nodup)
    (p : Int × api.candidateScore) (hp : p ∈ c) : partialScores c p.1 = p.2 := by
  unfold partialScores
  induction c with
  | nil => simp at hp
  | cons q t ih =>
    obtain ⟨a, v⟩ := q
    rw [List.map_cons, List.nodup_cons] at hnd
    rcases List.mem_cons.mp hp with h | h
    · subst h
      simp [lookup_cons_self]
    · have hne : p.1 ≠ a := by
        intro e
        apply hnd.1
        rw [← e]
        exact List.mem_map.mpr ⟨p, h, rfl⟩
      rw [lookup_cons_ne hne]
      exact ih hnd.2 h

theorem bump_nodup (f : api.candidateScore → api.candidateScore) (id : Int) (c : api.Candidates)
    (h : (c.map Prod.fst).Nodup) : ((api.bump f id c).map Prod.fst).Nodup := by
  rw [bump_keys]
  split
  · exact h
  · rename_i hm
    rw [List.nodup_append]
    refine ⟨h, List.nodup_singleton _, ?_⟩
    intro a ha hb
    rw [List.mem_singleton] at hb
    exact hm (hb ▸ ha)

theorem bump_forall (P : api.candidateScore → Prop) (f : api.candidateScore → api.candidateScore)
    (hf : ∀ v, P v → P (f v)) (hz : P api.candidateScore.zero) (id : Int) (c : api.Candidates)
    (h : ∀ p ∈ c, P p.2) : ∀ p ∈ api.bump f id c, P p.2 := by
  induction c with
  | nil =>
    intro p hp
    simp only [api.bump, List.mem_singleton] at hp
    rw [hp]
    exact hf _ hz
  | cons q t ih =>
    obtain ⟨a, v⟩ := q
    intro p hp
    by_cases ha : a = id
    · simp only [api.bump, ha, if_true, List.mem_cons] at hp
      rcases hp with hp | hp
      · rw [hp]
        exact hf _ (h (a, v) (List.mem_cons_self _ _))
      · exact h p (List.mem_cons_of_mem _ hp)
    · simp only [api.bump, ha, if_false, List.mem_cons] at hp
      rcases hp with hp | hp
      · rw [hp]
        exact h (a, v) (List.mem_cons_self _ _)
      · exact ih (fun x hx => h x (List.mem_cons_of_mem _ hx)) p hp

/-! ## Invariants of the loops over the candidate map -/

theorem coViewLoop_invariant (Q : api.Candidates → Prop)
    (hQ : ∀ (w : ℚ) (id : Int) (c : api.Candidates), Q c →
      Q (api.bump (fun v => { v with coviewScore := v.coviewScore + w }) id c))
    (recentItems : List String) (c : api.Candidates) (zs : List Z) (hc : Q c) :
    Q (api.coViewLoop recentItems c zs) := by
  unfold api.coViewLoop
  refine foldl_invariant Q _ ?_ zs c hc
  intro b z hb
  dsimp only
  split
  · exact hb
  · split
    · exact hb
    · exact hQ _ _ _ hb

theorem knnLoop_invariant (Q : api.Candidates → Prop)
    (hQ : ∀ (w : ℚ) (id : Int) (c : api.Candidates), Q c →
      Q (api.bump (fun v => { v with embeddingScore := v.embeddingScore + w }) id c))
    (recentItems : List String) (c : api.Candidates) (l : List String) (hc : Q c) :
    Q (api.knnLoop recentItems c l) := by
  unfold api.knnLoop
  refine foldl_invariant Q _ ?_ l.enum c hc
  intro b z hb
  dsimp only
  split
  · exact hb
  · split
    · exact hb
    · exact hQ _ _ _ hb

theorem popularLoop_invariant (Q : api.Candidates → Prop)
    (hQ : ∀ (w : ℚ) (id : Int) (c : api.Candidates), Q c →
      Q (api.bump (fun v => { v with popularityScore := v.popularityScore + w }) id c))
    (recentItems : List String) (c : api.Candidates) (zs : List Z) (hc : Q c) :
    Q (api.popularLoop recentItems c zs) := by
  unfold api.popularLoop
  refine foldl_invariant Q _ ?_ zs c hc
  intro b z hb
  dsimp only
  split
  · exact hb
  · split
    · exact hb
    · exact hQ _ _ _ hb

theorem seedStep_invariant (Q : api.Candidates → Prop)
    (hQ1 : ∀ (w : ℚ) (id : Int) (c : api.Candidates), Q c →
      Q (api.bump (fun v => { v with coviewScore := v.coviewScore + w }) id c))
    (hQ2 : ∀ (w : ℚ) (id : Int) (c : api.Candidates), Q c →
      Q (api.bump (fun v => { v with embeddingScore := v.embeddingScore + w }) id c))
    (recentItems : List String) (st : RedisStore × api.Candidates) (itemStr : String)
    (hc : Q st.2) : Q (api.seedStep recentItems st itemStr).2 := by
  unfold api.seedStep
  split
  · exact hc
  · split
    · exact hc
    · split
      · exact coViewLoop_invariant Q hQ1 recentItems st.2 _ hc
      · exact knnLoop_invariant Q hQ2 recentItems _ _
          (coViewLoop_invariant Q hQ1 recentItems st.2 _ hc)

theorem seedCandidates_invariant (Q : api.Candidates → Prop)
    (hQ1 : ∀ (w : ℚ) (id : Int) (c : api.Candidates), Q c →
      Q (api.bump (fun v => { v with coviewScore := v.coviewScore + w }) id c))
    (hQ2 : ∀ (w : ℚ) (id : Int) (c : api.Candidates), Q c →
      Q (api.bump (fun v => { v with embeddingScore := v.embeddingScore + w }) id c))
    (h0 : Q []) (r : RedisStore) (U : Int) : Q (seedCandidates r U).2 := by
  unfold seedCandidates
  exact foldl_invariant (fun st : RedisStore × api.Candidates => Q st.2) _
    (fun b a hb => seedStep_invariant Q hQ1 hQ2 _ b a hb) _ _ h0

theorem popularFallback_invariant (Q : api.Candidates → Prop)
    (hQ : ∀ (w : ℚ) (id : Int) (c : api.Candidates), Q c →
      Q (api.bump (fun v => { v with popularityScore := v.popularityScore + w }) id c))
    (recentItems : List String) (count : Int) (st : RedisStore × api.Candidates)
    (hc : Q st.2) : Q (api.popularFallback recentItems count st).2 := by
  unfold api.popularFallback
  split
  · split
    · exact hc
    · exact popularLoop_invariant Q hQ recentItems st.2 _ hc
  · exact hc

/-- The keys of the candidate map are pairwise distinct after the loop over
the seeds. -/
theorem seedCandidates_nodup (r : RedisStore) (U : Int) :
    ((seedCandidates r U).2.map Prod.fst).Nodup :=
  seedCandidates_invariant (fun c => (c.map Prod.fst).Nodup)
    (fun _ id c h => bump_nodup _ id c h) (fun _ id c h => bump_nodup _ id c h)
    List.nodup_nil r U

/-- The keys of the gathered candidate map are pairwise distinct. -/
theorem gatherCandidates_nodup (s : api.Service) (r : RedisStore) (U N : Int) :
    ((s.gatherCandidates r U N).2.map Prod.fst).Nodup := by
  rw [gatherCandidates_eq]
  exact popularFallback_invariant (fun c => (c.map Prod.fst).Nodup)
    (fun _ id c h => bump_nodup _ id c h) _ N _ (seedCandidates_nodup r U)

/-- The loop over the seeds leaves the popularity and the recency partial
scores of every candidate at zero. -/
theorem seedCandidates_popularity_zero (r : RedisStore) (U : Int) :
    ∀ p ∈ (seedCandidates r U).2, p.2.popularityScore = 0 ∧ p.2.recencyScore = 0 :=
  seedCandidates_invariant
    (fun c => ∀ p ∈ c, p.2.popularityScore = 0 ∧ p.2.recencyScore = 0)
    (fun w id c h => bump_forall (fun v => v.popularityScore = 0 ∧ v.recencyScore = 0)
      (fun v => { v with coviewScore := v.coviewScore + w }) (fun _ hv => hv) ⟨rfl, rfl⟩ id c h)
    (fun w id c h => bump_forall (fun v => v.popularityScore = 0 ∧ v.recencyScore = 0)
      (fun v => { v with embeddingScore := v.embeddingScore + w }) (fun _ hv => hv) ⟨rfl, rfl⟩
      id c h)
    (fun _ hp => absurd hp (List.not_mem_nil _)) r U

/-- No step of the generator writes the recency partial score. -/
theorem gatherCandidates_recency_zero (s : api.Service) (r : RedisStore) (U N : Int) :
    ∀ p ∈ (s.gatherCandidates r U N).2, p.2.recencyScore = 0 := by
  rw [gatherCandidates_eq]
  exact popularFallback_invariant (fun c => ∀ p ∈ c, p.2.recencyScore = 0)
    (fun w id c h => bump_forall (fun v => v.recencyScore = 0)
      (fun v => { v with popularityScore := v.popularityScore + w }) (fun _ hv => hv) rfl id c h)
    _ N _ (fun p hp => (seedCandidates_popularity_zero r U p hp).2)

/-! ## C24: the returned items are pairwise distinct -/

theorem rankCandidates_nodup (s : api.Service) (count : Int) (c : api.Candidates)
    (hnd : (c.map Prod.fst).Nodup) (recs : List Recommendation)
    (h : api.rankCandidates s count c = .ok recs) :
    (recs.map Recommendation.ItemID).Nodup := by
  have hall : ((api.sortSlice ((api.mapRange s.mapOrder c).map
      (fun p => (⟨p.1, s.calculateFinalScore p.2, api.determineReason p.2⟩ :
        Recommendation)))).map Recommendation.ItemID).Nodup := by
    have h1 : ((api.sortSlice ((api.mapRange s.mapOrder c).map
        (fun p => (⟨p.1, s.calculateFinalScore p.2, api.determineReason p.2⟩ :
          Recommendation)))).map Recommendation.ItemID).Perm
        (((api.mapRange s.mapOrder c).map
          (fun p => (⟨p.1, s.calculateFinalScore p.2, api.determineReason p.2⟩ :
            Recommendation))).map Recommendation.ItemID) :=
      (List.perm_insertionSort _ _).map _
    have h2 : ((api.mapRange s.mapOrder c).map Prod.fst).Perm (c.map Prod.fst) :=
      (List.perm_insertionSort _ _).map _
    rw [h1.nodup_iff, List.map_map]
    exact h2.nodup_iff.mpr hnd
  unfold api.rankCandidates at h
  simp only at h
  split at h
  · split at h
    · cases h
    · cases h
      exact hall.sublist ((List.take_sublist _ _).map _)
  · cases h
    exact hall

/-- Claim C24.  For every store state, user and `N ≥ 0`, the candidate
generator returns a list, and the item ids of the returned recommendations are
pairwise distinct: the candidate map holds one entry per item id, however many
seeds and sources reach the item and however often a seed is repeated in the
recent list. -/
theorem generateRecommendations_distinct (s : api.Service) (r : RedisStore) (U N : Int)
    (hN : 0 ≤ N) :
    ∃ recs, (s.generateRecommendations r U N).1 = .ok recs ∧
      (recs.map Recommendation.ItemID).Nodup := by
  obtain ⟨recs, hrecs, _⟩ := rankCandidates_length s N (s.gatherCandidates r U N).2 hN
  exact ⟨recs, hrecs,
    rankCandidates_nodup s N _ (gatherCandidates_nodup s r U N) recs hrecs⟩

theorem generateRecommendations_distinct_witness :
    ∃ recs, (sampleService.generateRecommendations overlapStore 1 5).1 = .ok recs ∧
      (recs.map Recommendation.ItemID).Nodup :=
  generateRecommendations_distinct sampleService overlapStore 1 5 (by decide)

/-- The example behind C24: the recent list holds the seed 200 twice, item 300
is reached from both seed occurrences by co-view and by KNN and again by the
popular fallback, item 400 by KNN and by the popular fallback; each is returned
once, with the contributions added up. -/
theorem overlapStore_recommend :
    (sampleService.generateRecommendations overlapStore 1 5).1 =
      .ok [⟨300, 9, "popular"⟩, ⟨400, 29 / 10, "embedding"⟩] := by
  decide!

/-! ## C21: the final score -/

theorem rankCandidates_congr (s1 s2 : api.Service) (count : Int) (c : api.Candidates)
    (horder : s1.mapOrder = s2.mapOrder)
    (hscore : ∀ p ∈ c, s1.calculateFinalScore p.2 = s2.calculateFinalScore p.2) :
    api.rankCandidates s1 count c = api.rankCandidates s2 count c := by
  have hmap : (api.mapRange s1.mapOrder c).map
      (fun p => (⟨p.1, s1.calculateFinalScore p.2, api.determineReason p.2⟩ : Recommendation)) =
      (api.mapRange s2.mapOrder c).map
      (fun p => (⟨p.1, s2.calculateFinalScore p.2, api.determineReason p.2⟩ :
        Recommendation)) := by
    rw [horder]
    apply List.map_congr_left
    intro p hp
    have hpc : p ∈ c := by
      unfold api.mapRange at hp
      exact (List.perm_insertionSort _ _).mem_iff.mp hp
    rw [hscore p hpc]
  unfold api.rankCandidates
  simp only [hmap]

/-- The recency weight has no effect on what the generator returns. -/
theorem generateRecommendations_recency_weight (s : api.Service) (r : RedisStore) (U N : Int)
    (delta : ℚ) :
    (withRecencyWeight s delta).generateRecommendations r U N =
      s.generateRecommendations r U N := by
  have hg : (withRecencyWeight s delta).gatherCandidates r U N = s.gatherCandidates r U N := rfl
  unfold api.Service.generateRecommendations
  simp only [hg]
  rw [rankCandidates_congr (withRecencyWeight s delta) s N _ rfl]
  intro p hp
  have hz := gatherCandidates_recency_zero s r U N p hp
  simp [api.Service.calculateFinalScore, withRecencyWeight, hz]

/-- Claim C21.  For every store state, user and `N ≥ 0` the generator returns
a list, and every returned recommendation is built from an entry of the
candidate map: its score is the linear blend
`alpha * coview + beta * embedding + gamma * popularity + delta * recency` of
the entry's partial scores with the configured weights; the entry's recency
partial score is zero, so the score equals
`alpha * coview + beta * embedding + gamma * popularity`; and running the
generator with any other recency weight gives the same result. -/
theorem generateRecommendations_score_blend (s : api.Service) (r : RedisStore) (U N : Int)
    (delta : ℚ) (hN : 0 ≤ N) :
    ∃ recs, (s.generateRecommendations r U N).1 = .ok recs ∧
      (∀ rec ∈ recs, ∃ p ∈ (s.gatherCandidates r U N).2, rec.ItemID = p.1 ∧
        rec.Score = s.cfg.Weights.Coview * p.2.coviewScore +
          s.cfg.Weights.Embedding * p.2.embeddingScore +
          s.cfg.Weights.Popularity * p.2.popularityScore +
          s.cfg.Weights.Recency * p.2.recencyScore ∧
        p.2.recencyScore = 0 ∧
        rec.Score = s.cfg.Weights.Coview * p.2.coviewScore +
          s.cfg.Weights.Embedding * p.2.embeddingScore +
          s.cfg.Weights.Popularity * p.2.popularityScore) ∧
      (withRecencyWeight s delta).generateRecommendations r U N =
        s.generateRecommendations r U N := by
  obtain ⟨recs, hrecs, _⟩ := rankCandidates_length s N (s.gatherCandidates r U N).2 hN
  refine ⟨recs, hrecs, ?_, generateRecommendations_recency_weight s r U N delta⟩
  intro rec hrec
  obtain ⟨p, hp, hpe⟩ := mem_rankCandidates s N _ recs hrecs rec hrec
  have hz := gatherCandidates_recency_zero s r U N p hp
  refine ⟨p, hp, by rw [hpe], ?_, hz, ?_⟩
  · rw [hpe]
    simp only [api.Service.calculateFinalScore]
    ring
  · rw [hpe]
    simp only [api.Service.calculateFinalScore, hz]
    ring

theorem generateRecommendations_score_blend_witness :
    ∃ recs, (sampleService.generateRecommendations overlapStore 1 5).1 = .ok recs ∧
      (∀ rec ∈ recs, ∃ p ∈ (sampleService.gatherCandidates overlapStore 1 5).2,
        rec.ItemID = p.1 ∧
        rec.Score = sampleService.cfg.Weights.Coview * p.2.coviewScore +
          sampleService.cfg.Weights.Embedding * p.2.embeddingScore +
          sampleService.cfg.Weights.Popularity * p.2.popularityScore +
          sampleService.cfg.Weights.Recency * p.2.recencyScore ∧
        p.2.recencyScore = 0 ∧
        rec.Score = sampleService.cfg.Weights.Coview * p.2.coviewScore +
          sampleService.cfg.Weights.Embedding * p.2.embeddingScore +
          sampleService.cfg.Weights.Popularity * p.2.popularityScore) ∧
      (withRecencyWeight sampleService 5).generateRecommendations overlapStore 1 5 =
        sampleService.generateRecommendations overlapStore 1 5 :=
  generateRecommendations_score_blend sampleService overlapStore 1 5 5 (by decide)

/-- The example behind C21: with recency weight 5 in place of 1 the generator
returns the same scores, 9 and 29/10, on the example store. -/
theorem overlapStore_recency_weight :
    ((withRecencyWeight sampleService 5).generateRecommendations overlapStore 1 5).1 =
      .ok [⟨300, 9, "popular"⟩, ⟨400, 29 / 10, "embedding"⟩] := by
  decide!

/-! ## What each loop adds to the partial scores -/

theorem scoreIn_cons (z : Z) (zs : List Z) (k : Int) :
    scoreIn (z :: zs) k = (if ParseInt z.Member = some k then z.Score else 0) + scoreIn zs k := by
  unfold scoreIn
  by_cases h : ParseInt z.Member = some k
  · simp [List.filter_cons, h]
  · simp [List.filter_cons, h]

/-- In a sorted set whose members are distinct canonical ids, as the stream
processor writes them, the score of an item is the score of its one member. -/
theorem scoreIn_eq_scoreOf (zs : List Z) (hcanon : ∀ z ∈ zs, CanonicalID z.Member)
    (hnd : (zs.map Z.Member).Nodup) (k : Int) : scoreIn zs k = scoreOf zs (FormatInt k) := by
  have hiff : ∀ z ∈ zs, (ParseInt z.Member = some k ↔ z.Member = FormatInt k) := by
    intro z hz
    have hc := hcanon z hz
    unfold CanonicalID at hc
    constructor
    · intro hp
      rw [hp] at hc
      simpa using hc.symm
    · intro hm
      cases hp : ParseInt z.Member with
      | none => simp [hp] at hc
      | some j =>
        rw [hp] at hc
        simp only [Option.map_some', Option.some.injEq] at hc
        rw [FormatInt_injective (hc.trans hm)]
  induction zs with
  | nil => simp [scoreIn, scoreOf, zscore]
  | cons z t ih =>
    rw [List.map_cons, List.nodup_cons] at hnd
    have iht := ih (fun x hx => hcanon x (List.mem_cons_of_mem _ hx)) hnd.2
      (fun x hx => hiff x (List.mem_cons_of_mem _ hx))
    rw [scoreIn_cons]
    by_cases hm : z.Member = FormatInt k
    · have hp := (hiff z (List.mem_cons_self _ _)).mpr hm
      have hnone : scoreIn t k = 0 := by
        unfold scoreIn
        have : t.filter (fun x => decide (ParseInt x.Member = some k)) = [] := by
          rw [List.filter_eq_nil_iff]
          intro x hx hdx
          have hxm := (hiff x (List.mem_cons_of_mem _ hx)).mp (by simpa using hdx)
          exact hnd.1 (List.mem_map.mpr ⟨x, hx, hxm.trans hm.symm⟩)
        rw [this]
        rfl
      rw [if_pos hp, hnone, add_zero]
      simp [scoreOf, zscore, hm]
    · have hp : ¬ ParseInt z.Member = some k :=
        fun e => hm ((hiff z (List.mem_cons_self _ _)).mp e)
      rw [if_neg hp, zero_add, iht]
      simp [scoreOf, zscore, hm]

theorem popularLoop_cons (recentItems : List String) (c : api.Candidates) (z : Z)
    (zs : List Z) :
    api.popularLoop recentItems c (z :: zs) =
      api.popularLoop recentItems (api.popularLoop recentItems c [z]) zs := rfl

theorem popularLoop_single (recentItems : List String) (k : Int)
    (hk : api.isRecentItem k recentItems = false) (c : api.Candidates) (z : Z) :
    partialScores (api.popularLoop recentItems c [z]) k =
      if ParseInt z.Member = some k then
        { partialScores c k with
          popularityScore := (partialScores c k).popularityScore + z.Score }
      else partialScores c k := by
  unfold api.popularLoop
  simp only [List.foldl_cons, List.foldl_nil]
  cases hp : ParseInt z.Member with
  | none => simp
  | some id =>
    simp only [Option.some.injEq]
    by_cases hid : id = k
    · subst hid
      simp [hk, partialScores_bump]
    · have hki : ¬ k = id := fun e => hid e.symm
      by_cases hr : api.isRecentItem id recentItems = true
      · simp [hr, hid]
      · simp [hr, hid, partialScores_bump, hki]

/-- The loop over the popular items adds, to the popularity partial score of
an item that is not recent, the item's score in the list, and changes no other
partial score of it. -/
theorem popularLoop_scores (recentItems : List String) (k : Int)
    (hk : api.isRecentItem k recentItems = false) (zs : List Z) (c : api.Candidates) :
    partialScores (api.popularLoop recentItems c zs) k =
      { partialScores c k with
        popularityScore := (partialScores c k).popularityScore + scoreIn zs k } := by
  induction zs generalizing c with
  | nil => simp [api.popularLoop, scoreIn]
  | cons z t ih =>
    rw [popularLoop_cons, ih, popularLoop_single recentItems k hk, scoreIn_cons]
    by_cases hp : ParseInt z.Member = some k
    · simp only [hp, if_true]
      congr 1
      ring
    · simp only [hp, if_false]
      congr 1
      ring

/-! ## The reads of the generator -/

@[simp] theorem GetCoViewItems_snd (r : RedisStore) (i n : Int) :
    (r.GetCoViewItems i n).2 = r.record (Op.GetCoViewItems i n) := by
  unfold RedisStore.GetCoViewItems
  simp only
  split <;> rfl

@[simp] theorem GetItemKNN_snd (r : RedisStore) (i n : Int) :
    (r.GetItemKNN i n).2 = r.record (Op.GetItemKNN i n) := by
  unfold RedisStore.GetItemKNN
  simp only
  split <;> rfl

@[simp] theorem GetPopularItems_snd (r : RedisStore) (n : Int) :
    (r.GetPopularItems n).2 = r.record (Op.GetPopularItems n) := by
  unfold RedisStore.GetPopularItems
  simp only
  split <;> rfl

theorem seedReads_refl (r : RedisStore) : SeedReads r r :=
  ⟨rfl, rfl, [], by simp, by simp⟩

theorem seedReads_record {r0 r1 : RedisStore} (h : SeedReads r0 r1) (op : Op)
    (hop : ∀ n, op ≠ Op.GetPopularItems n) : SeedReads r0 (r1.record op) := by
  obtain ⟨hd, hf, ops, hc, hops⟩ := h
  refine ⟨hd, hf, ops ++ [op], ?_, ?_⟩
  · simp [hc]
  · intro x hx
    rcases List.mem_append.mp hx with h1 | h1
    · exact hops x h1
    · rw [List.mem_singleton.mp h1]
      exact hop

theorem seedStep_store (recentItems : List String) (st : RedisStore × api.Candidates)
    (itemStr : String) :
    (api.seedStep recentItems st itemStr).1 = st.1 ∨
      (∃ id, (api.seedStep recentItems st itemStr).1 = st.1.record (Op.GetCoViewItems id 20)) ∨
      ∃ id, (api.seedStep recentItems st itemStr).1 =
        (st.1.record (Op.GetCoViewItems id 20)).record (Op.GetItemKNN id 20) := by
  unfold api.seedStep
  cases hp : ParseInt itemStr with
  | none => exact Or.inl rfl
  | some id =>
    simp only
    have h1 := GetCoViewItems_snd st.1 id 20
    cases hc : st.1.GetCoViewItems id 20 with
    | mk res r1 =>
      rw [hc] at h1
      simp only at h1
      subst h1
      cases res with
      | error e => exact Or.inr (Or.inl ⟨id, rfl⟩)
      | ok coViewItems =>
        simp only
        have h2 := GetItemKNN_snd (st.1.record (Op.GetCoViewItems id 20)) id 20
        cases hk : (st.1.record (Op.GetCoViewItems id 20)).GetItemKNN id 20 with
        | mk res2 r2 =>
          rw [hk] at h2
          simp only at h2
          subst h2
          cases res2 with
          | error e => exact Or.inr (Or.inr ⟨id, rfl⟩)
          | ok knnItems => exact Or.inr (Or.inr ⟨id, rfl⟩)

theorem seedStep_reads (r0 : RedisStore) (recentItems : List String)
    (st : RedisStore × api.Candidates) (itemStr : String) (h : SeedReads r0 st.1) :
    SeedReads r0 (api.seedStep recentItems st itemStr).1 := by
  rcases seedStep_store recentItems st itemStr with h1 | ⟨id, h1⟩ | ⟨id, h1⟩
  · rw [h1]
    exact h
  · rw [h1]
    exact seedReads_record h _ (fun n e => by cases e)
  · rw [h1]
    exact seedReads_record (seedReads_record h _ (fun n e => by cases e)) _
      (fun n e => by cases e)

/-- The loop over the seeds only reads: it leaves the data and the failure
oracle as they were and issues no popular read. -/
theorem seedCandidates_reads (r : RedisStore) (U : Int) : SeedReads r (seedCandidates r U).1 := by
  unfold seedCandidates
  refine foldl_invariant (fun st : RedisStore × api.Candidates => SeedReads r st.1) _
    (fun b a hb => seedStep_reads r _ b a hb) _ _ ?_
  rw [GetRecentItems_snd]
  exact seedReads_record (seedReads_refl r) _ (fun n e => by cases e)

/-- The popular fallback leaves the co-view and the embedding partial scores
of an item that is not recent as they were. -/
theorem popularFallback_scores (recentItems : List String) (count k : Int)
    (hk : api.isRecentItem k recentItems = false) (st : RedisStore × api.Candidates) :
    (partialScores (api.popularFallback recentItems count st).2 k).coviewScore =
        (partialScores st.2 k).coviewScore ∧
      (partialScores (api.popularFallback recentItems count st).2 k).embeddingScore =
        (partialScores st.2 k).embeddingScore := by
  unfold api.popularFallback
  split
  · split
    · exact ⟨rfl, rfl⟩
    · simp only
      rw [popularLoop_scores recentItems k hk]
      exact ⟨rfl, rfl⟩
  · exact ⟨rfl, rfl⟩

theorem partialScores_forall (P : api.candidateScore → Prop) (hz : P api.candidateScore.zero)
    (c : api.Candidates) (h : ∀ p ∈ c, P p.2) (k : Int) : P (partialScores c k) := by
  unfold partialScores
  induction c with
  | nil => simpa [List.lookup] using hz
  | cons q t ih =>
    obtain ⟨a, v⟩ := q
    by_cases hka : k = a
    · subst hka
      rw [lookup_cons_self]
      exact h (k, v) (List.mem_cons_self _ _)
    · rw [lookup_cons_ne hka]
      exact ih (fun p hp => h p (List.mem_cons_of_mem _ hp))

theorem recentOf_ok (r : RedisStore) (U : Int) (hnf : NeverFails r) :
    api.recentOf (r.GetRecentItems U 5).1 = get_recent r.data U 5 := by
  rw [GetRecentItems_fst r U 5 (hnf _ _)]
  rfl

/-! ## C22: the popular fallback -/

/-- The trace of the popular fallback: one popular read, of `count*2`, when
the candidate map holds fewer than `count` entries, and nothing otherwise. -/
theorem popularFallback_calls (recentItems : List String) (count : Int)
    (st : RedisStore × api.Candidates) :
    (api.popularFallback recentItems count st).1.calls =
      st.1.calls ++
        (if (st.2.length : Int) < count then [Op.GetPopularItems (wrapInt64 (count * 2))]
          else []) := by
  unfold api.popularFallback
  by_cases hlt : (st.2.length : Int) < count
  · simp only [hlt, if_true]
    have h := GetPopularItems_snd st.1 (wrapInt64 (count * 2))
    cases hc : st.1.GetPopularItems (wrapInt64 (count * 2)) with
    | mk res r1 =>
      rw [hc] at h
      simp only at h
      subst h
      cases res <;> rfl
  · simp [hlt]

/-- The popular fallback when it does not read, or when its read fails: the
candidate map is left as it was. -/
theorem popularFallback_unchanged (recentItems : List String) (count : Int)
    (st : RedisStore × api.Candidates)
    (h : ¬ (st.2.length : Int) < count ∨
      st.1.failing (Op.GetPopularItems (wrapInt64 (count * 2))) = true) :
    (api.popularFallback recentItems count st).2 = st.2 := by
  unfold api.popularFallback
  by_cases hlt : (st.2.length : Int) < count
  · rcases h with h | h
    · exact absurd hlt h
    · simp [hlt, RedisStore.GetPopularItems, h]
  · simp [hlt]

/-- The popular fallback when it reads and the read succeeds: the loop over
`top_popular(count*2)`. -/
theorem popularFallback_read (recentItems : List String) (count : Int)
    (st : RedisStore × api.Candidates) (hlt : (st.2.length : Int) < count)
    (h : st.1.failing (Op.GetPopularItems (wrapInt64 (count * 2))) = false) :
    (api.popularFallback recentItems count st).2 =
      api.popularLoop recentItems st.2 (top_popular st.1.data (wrapInt64 (count * 2))) := by
  unfold api.popularFallback
  simp [hlt, RedisStore.GetPopularItems, h, top_popular]

/-- The popular fallback on the code, for every count.  The loop over the
seeds issues no popular read and leaves a candidate map of pairwise distinct
items, each with popularity partial score zero.  After it the generator issues
exactly one more read, `GetPopularItems(count*2)` with the product taken in
64-bit arithmetic, when the number of candidates is strictly less than `N`,
and no read otherwise.  When it reads and the read succeeds, every item that is not
recent has as popularity partial score the total of its scores among the
returned members, its other partial scores unchanged.  When it does not read,
or the read fails, the candidate map is unchanged and every candidate has
popularity partial score zero. -/
theorem popular_fallback_iff (s : api.Service) (r : RedisStore) (U N : Int) :
    (∀ n, Op.GetPopularItems n ∉ (seedCandidates r U).1.calls.drop r.calls.length) ∧
    ((seedCandidates r U).2.map Prod.fst).Nodup ∧
    (∀ p ∈ (seedCandidates r U).2, p.2.popularityScore = 0) ∧
    (s.gatherCandidates r U N).1.calls =
      (seedCandidates r U).1.calls ++
        (if ((seedCandidates r U).2.length : Int) < N then
          [Op.GetPopularItems (wrapInt64 (N * 2))]
        else []) ∧
    (((seedCandidates r U).2.length : Int) < N →
      (seedCandidates r U).1.failing (Op.GetPopularItems (wrapInt64 (N * 2))) = false →
      ∀ k, api.isRecentItem k (api.recentOf (r.GetRecentItems U 5).1) = false →
        (partialScores (s.gatherCandidates r U N).2 k).popularityScore =
          scoreIn (top_popular r.data (wrapInt64 (N * 2))) k ∧
        (partialScores (s.gatherCandidates r U N).2 k).coviewScore =
          (partialScores (seedCandidates r U).2 k).coviewScore ∧
        (partialScores (s.gatherCandidates r U N).2 k).embeddingScore =
          (partialScores (seedCandidates r U).2 k).embeddingScore) ∧
    ((¬ ((seedCandidates r U).2.length : Int) < N ∨
        (seedCandidates r U).1.failing (Op.GetPopularItems (wrapInt64 (N * 2))) = true) →
      (s.gatherCandidates r U N).2 = (seedCandidates r U).2 ∧
      ∀ p ∈ (s.gatherCandidates r U N).2, p.2.popularityScore = 0) := by
  obtain ⟨hdata, _, ops, hcalls, hops⟩ := seedCandidates_reads r U
  have hzero := seedCandidates_popularity_zero r U
  refine ⟨?_, seedCandidates_nodup r U, fun p hp => (hzero p hp).1, ?_, ?_, ?_⟩
  · intro n hn
    rw [hcalls, List.drop_left] at hn
    exact hops _ hn n rfl
  · rw [gatherCandidates_eq]
    exact popularFallback_calls _ N _
  · intro hlt hread k hk
    rw [gatherCandidates_eq, popularFallback_read _ N _ hlt hread,
      popularLoop_scores _ k hk, hdata]
    have h0 : (partialScores (seedCandidates r U).2 k).popularityScore = 0 :=
      partialScores_forall (fun v => v.popularityScore = 0) rfl _
        (fun p hp => (hzero p hp).1) k
    simp only [h0, zero_add, and_self]
  · intro h
    have he : (s.gatherCandidates r U N).2 = (seedCandidates r U).2 := by
      rw [gatherCandidates_eq]
      exact popularFallback_unchanged _ N _ h
    refine ⟨he, ?_⟩
    rw [he]
    exact fun p hp => (hzero p hp).1

theorem popular_fallback_iff_witness :
    (partialScores (sampleService.gatherCandidates overlapStore 1 5).2 300).popularityScore =
        scoreIn (top_popular overlapStore.data (wrapInt64 (5 * 2))) 300 ∧
      (partialScores (sampleService.gatherCandidates overlapStore 1 5).2 300).coviewScore =
        (partialScores (seedCandidates overlapStore 1).2 300).coviewScore ∧
      (partialScores (sampleService.gatherCandidates overlapStore 1 5).2 300).embeddingScore =
        (partialScores (seedCandidates overlapStore 1).2 300).embeddingScore :=
  (popular_fallback_iff sampleService overlapStore 1 5).2.2.2.2.1 (by decide!) (by decide!) 300
    (by decide!)

/-- The example behind C22: on the example store the seeds give two
candidates.  Asked for five items the generator reads `top_popular(10)` and
the candidates get the popularity scores 5 and 1; asked for two items it does
not read, and both popularity partial scores stay zero. -/
theorem overlapStore_fallback :
    (seedCandidates overlapStore 1).2 = [(300, ⟨2, 2, 0, 0⟩), (400, ⟨0, 19 / 10, 0, 0⟩)] ∧
      (sampleService.gatherCandidates overlapStore 1 5).1.calls =
        [Op.GetRecentItems 1 5, Op.GetCoViewItems 200 20, Op.GetItemKNN 200 20,
          Op.GetCoViewItems 200 20, Op.GetItemKNN 200 20, Op.GetPopularItems 10] ∧
      (sampleService.gatherCandidates overlapStore 1 5).2 =
        [(300, ⟨2, 2, 5, 0⟩), (400, ⟨0, 19 / 10, 1, 0⟩)] ∧
      (sampleService.gatherCandidates overlapStore 1 2).1.calls =
        [Op.GetRecentItems 1 5, Op.GetCoViewItems 200 20, Op.GetItemKNN 200 20,
          Op.GetCoViewItems 200 20, Op.GetItemKNN 200 20] ∧
      (sampleService.gatherCandidates overlapStore 1 2).2 =
        [(300, ⟨2, 2, 0, 0⟩), (400, ⟨0, 19 / 10, 0, 0⟩)] := by
  decide!

/-- The popular fallback as the claim C22 states it, for every count `N` whose
double is a 64-bit integer.  The loop over the seeds issues no popular read
and leaves a candidate map of pairwise distinct items, each with popularity
partial score zero.  After it the generator issues exactly one more read,
`GetPopularItems(2N)`, when the number of candidates is strictly less than
`N`, and no read otherwise.  When it reads and the read succeeds, every item
that is not recent has as popularity partial score the total of its scores
among the members of `top_popular(2N)`, its other partial scores unchanged.
When it does not read, or the read fails, the candidate map is unchanged and
every candidate has popularity partial score zero. -/
theorem popular_fallback_in_range (s : api.Service) (r : RedisStore) (U N : Int)
    (h2N : IsInt64 (2 * N)) :
    (∀ n, Op.GetPopularItems n ∉ (seedCandidates r U).1.calls.drop r.calls.length) ∧
    ((seedCandidates r U).2.map Prod.fst).Nodup ∧
    (∀ p ∈ (seedCandidates r U).2, p.2.popularityScore = 0) ∧
    (s.gatherCandidates r U N).1.calls =
      (seedCandidates r U).1.calls ++
        (if ((seedCandidates r U).2.length : Int) < N then [Op.GetPopularItems (2 * N)]
        else []) ∧
    (((seedCandidates r U).2.length : Int) < N →
      (seedCandidates r U).1.failing (Op.GetPopularItems (2 * N)) = false →
      ∀ k, api.isRecentItem k (api.recentOf (r.GetRecentItems U 5).1) = false →
        (partialScores (s.gatherCandidates r U N).2 k).popularityScore =
          scoreIn (spec_top_popular r.data (2 * N)) k ∧
        (partialScores (s.gatherCandidates r U N).2 k).coviewScore =
          (partialScores (seedCandidates r U).2 k).coviewScore ∧
        (partialScores (s.gatherCandidates r U N).2 k).embeddingScore =
          (partialScores (seedCandidates r U).2 k).embeddingScore) ∧
    ((¬ ((seedCandidates r U).2.length : Int) < N ∨
        (seedCandidates r U).1.failing (Op.GetPopularItems (2 * N)) = true) →
      (s.gatherCandidates r U N).2 = (seedCandidates r U).2 ∧
      ∀ p ∈ (s.gatherCandidates r U N).2, p.2.popularityScore = 0) := by
  have hw : wrapInt64 (N * 2) = 2 * N := wrapInt64_double N h2N
  obtain ⟨h1, h2, h3, h4, h5, h6⟩ := popular_fallback_iff s r U N
  rw [hw] at h4 h5 h6
  refine ⟨h1, h2, h3, h4, ?_, h6⟩
  intro hlt hread k hk
  have hpos : (0 : Int) < N := lt_of_le_of_lt (Int.ofNat_nonneg _) hlt
  have ht := top_popular_eq_spec r.data (2 * N) (by omega) (by unfold IsInt64 at h2N; omega)
  rw [← ht]
  exact h5 hlt hread k hk

theorem popular_fallback_in_range_witness :
    (partialScores (sampleService.gatherCandidates overlapStore 1 5).2 300).popularityScore =
        scoreIn (spec_top_popular overlapStore.data (2 * 5)) 300 ∧
      (partialScores (sampleService.gatherCandidates overlapStore 1 5).2 300).coviewScore =
        (partialScores (seedCandidates overlapStore 1).2 300).coviewScore ∧
      (partialScores (sampleService.gatherCandidates overlapStore 1 5).2 300).embeddingScore =
        (partialScores (seedCandidates overlapStore 1).2 300).embeddingScore :=
  (popular_fallback_in_range sampleService overlapStore 1 5 (by decide)).2.2.2.2.1 (by decide!)
    (by decide!) 300 (by decide!)

/-- C22, the code misses the claim when `count*2` overflows.  On the example
store the seeds of user 1 give the two candidates 300 and 400, fewer than
`N = 2^62 + 1`, and both are members of `top_popular(2N)` that are not recent,
with scores 5 and 1.  The fallback computes `count*2` in 64-bit arithmetic: the
one read it issues is `GetPopularItems(-9223372036854775806)`, not
`top_popular(2N)`; it returns nothing, and the popularity partial scores of
both candidates stay zero instead of 5 and 1. -/
theorem fallback_count_overflow :
    (seedCandidates overlapStore 1).2.map Prod.fst = [300, 400] ∧
    spec_top_popular overlapStore.data (2 * overflowCount) =
      [⟨"200", 7⟩, ⟨"300", 5⟩, ⟨"400", 1⟩] ∧
    api.isRecentItem 300 (api.recentOf (overlapStore.GetRecentItems 1 5).1) = false ∧
    api.isRecentItem 400 (api.recentOf (overlapStore.GetRecentItems 1 5).1) = false ∧
    (sampleService.gatherCandidates overlapStore 1 overflowCount).1.calls =
      (seedCandidates overlapStore 1).1.calls ++ [Op.GetPopularItems (-9223372036854775806)] ∧
    (partialScores (sampleService.gatherCandidates overlapStore 1 overflowCount).2
      300).popularityScore = 0 ∧
    (partialScores (sampleService.gatherCandidates overlapStore 1 overflowCount).2
      400).popularityScore = 0 := by
  decide!

end Reco
